import Mathlib

/-!
# OpenApoc battle core: default unit behaviour and dropped items

Shallow embedding of `game/state/battle/ai/unitaidefault.cpp` (the class
`UnitAIDefault`, first part) and of `game/state/battle/battleitem.cpp` (the class
`BattleItem`, second part, with its own conventions stated there).

Conventions of the embedding

* `float` values are exact rationals (`ℚ`); rounding is not modelled.
* Tick counters and cooldown deadlines are natural numbers.  Their C++ types are
  declared in headers that are not part of the sources at hand, and the
  statements below speak about ticks as unbounded naturals.
* `StateRef<BattleUnit>` is a `UnitRef`: the identifier together with the facts
  of the referenced unit that the decision code reads through the reference.
  Membership in a `std::set<StateRef<BattleUnit>>` is membership by identifier,
  and a set is the list of its elements in enumeration order.
* Queries answered by other modules (`hasLineToUnit`, `canAttackUnit`,
  `tileIsValid`, `canEnterTile`, `glm::distance`, the random source) are
  function-valued fields or parameters.
-/

namespace OpenApoc

/-! ## Vectors -/

/-- Three component vector `Vec3<T>`. -/
structure Vec3 (α : Type) where
  x : α
  y : α
  z : α
deriving DecidableEq, Repr

/-- Component-wise sum of two vectors. -/
def Vec3.add {α : Type} [Add α] (a b : Vec3 α) : Vec3 α :=
  ⟨a.x + b.x, a.y + b.y, a.z + b.z⟩

/-- Conversion `(Vec3<float>)v` of an integer vector. -/
def Vec3.toFloat (v : Vec3 ℤ) : Vec3 ℚ :=
  ⟨(v.x : ℚ), (v.y : ℚ), (v.z : ℚ)⟩

/-- Conversion of a `float` to `int`: truncation toward zero. -/
def truncToInt (q : ℚ) : ℤ :=
  Int.tdiv q.num (q.den : ℤ)

/-- Conversion `(Vec3<int>)v` of a float vector. -/
def Vec3.toInt (v : Vec3 ℚ) : Vec3 ℤ :=
  ⟨truncToInt v.x, truncToInt v.y, truncToInt v.z⟩

/-- Largest finite `float`, the constant `FLT_MAX`. -/
def FLT_MAX : ℚ := 340282346638528859811704183484516925440

/-! ## Enumerations

The enumerations are declared in headers outside the sources at hand.  Each one
lists the enumerators that `unitaidefault.cpp` names; the remaining values are
collapsed into one further constructor. -/

/-- Battle mode, `Battle::Mode`. -/
inductive BattleMode where
  | RealTime
  | TurnBased
deriving DecidableEq, Repr

/-- Modelled from the spec: `AIType` (header `aitype.h` is missing).  The code
only tests equality with `None`, the flag of a non-threatening unit. -/
inductive AIType where
  | None
  | Threatening
deriving DecidableEq, Repr

/-- Modelled from the spec: `WeaponStatus` (declared in the missing
`battleunit.h`): not firing, or firing in some mode. -/
inductive WeaponStatus where
  | NotFiring
  | Firing (mode : Nat)
deriving DecidableEq, Repr

/-- Modelled from the spec: `BattleUnit::FirePermissionMode` (missing
`battleunit.h`). -/
inductive FirePermissionMode where
  | Normal
  | CeaseFire
deriving DecidableEq, Repr

/-- Modelled from the spec: `BattleUnitMission::Type` (missing header); only
`Snooze` is distinguished. -/
inductive BattleUnitMissionType where
  | Snooze
  | Other
deriving DecidableEq, Repr

/-- Gait `MovementMode`. -/
inductive MovementMode where
  | Walking
  | Running
deriving DecidableEq, Repr

/-- Equipment slots named by the code. -/
inductive AEquipmentSlotType where
  | RightHand
  | LeftHand
deriving DecidableEq, Repr

/-- Kinds of `AIAction` named by the code. -/
inductive AIActionType where
  | AttackWeaponUnit
deriving DecidableEq, Repr

/-- Kinds of `AIMovement` named by the code. -/
inductive AIMovementType where
  | Turn
  | Patrol
deriving DecidableEq, Repr

/-! ## Data model -/

/-- A unit seen through a `StateRef<BattleUnit>`. -/
structure UnitRef where
  id : Nat
  position : Vec3 ℚ
  isConscious : Bool
  getAIType : AIType
deriving DecidableEq, Repr

/-- An equipped item; only its fire capability is read. -/
structure AEquipment where
  canFire : Bool
deriving DecidableEq, Repr

/-- The agent of a unit: equipped items and allowed gaits. -/
structure Agent where
  getFirstItemInSlot : AEquipmentSlotType → Option AEquipment
  runningAllowed : Bool

/-- The combatant for which `think` decides. -/
structure BattleUnit where
  owner : Nat
  position : Vec3 ℚ
  isBusy : Bool
  isConscious : Bool
  isAttacking : Bool
  isMoving : Bool
  canMove : Bool
  missions : List BattleUnitMissionType
  fire_permission_mode : FirePermissionMode
  agent : Agent
  focusUnit : Option UnitRef
  visibleUnits : List Nat
  hasLineToUnit : UnitRef → Bool
  canAttackUnit : UnitRef → WeaponStatus
  enzymeDebuffIntensity : ℤ
  kneeling_mode : Nat
  owningTile : Vec3 ℤ
  tileIsValid : Vec3 ℤ → Bool
  canEnterTile : Vec3 ℤ → Vec3 ℤ → Bool

/-- The battle: mode, turn owner and the visible enemies of every organisation. -/
structure Battle where
  mode : BattleMode
  currentActiveOrganisation : Nat
  visibleEnemies : Nat → List UnitRef

/-- The part of `GameState` that `think` reads.  `rngIndex n` is the index that
`listRandomiser(state.rng, l)` draws for a list of length `n`. -/
structure GameState where
  current_battle : Battle
  ticks : Nat
  rngIndex : Nat → Nat

/-- Parameters that the sources at hand do not fix: the constant
`TICKS_PER_TURN` and the library function `glm::distance`. -/
structure Env where
  TICKS_PER_TURN : Nat
  distance : Vec3 ℚ → Vec3 ℚ → ℚ

/-- An action of a decision. -/
structure AIAction where
  type : AIActionType
  targetUnit : UnitRef
  weaponStatus : WeaponStatus
deriving DecidableEq, Repr

/-- A movement of a decision.  The stance and the gait are `none` when the code
leaves them at the defaults of the class. -/
structure AIMovement where
  type : AIMovementType
  targetLocation : Vec3 ℚ
  kneelingMode : Option Nat
  movementMode : Option MovementMode
deriving DecidableEq, Repr

/-- A decision: optional action and optional movement. -/
structure AIDecision where
  action : Option AIAction
  movement : Option AIMovement
deriving DecidableEq, Repr

/-- Per-unit state of the default behaviour. -/
structure UnitAIDefault where
  ticksAutoTargetAvailable : Nat
  ticksAutoTurnAvailable : Nat
  attackerPosition : Vec3 ℤ
  active : Bool
deriving DecidableEq, Repr

/-! ## Constants -/

/-- The constant `NULLTUPLE2`: empty decision, not handled. -/
def NULLTUPLE2 : AIDecision × Bool := (⟨none, none⟩, false)

/-- The sentinel `NONE` of `think`. -/
def NONE : Vec3 ℤ := ⟨0, 0, 0⟩

/-- Delay before a unit turns automatically again. -/
def AUTO_TURN_COOLDOWN (env : Env) : Nat := env.TICKS_PER_TURN

/-- Delay before a unit targets an enemy automatically again. -/
def AUTO_TARGET_COOLDOWN (env : Env) : Nat := env.TICKS_PER_TURN / 4

/-! ## Small operations -/

/-- The method `UnitAIDefault::reset`. -/
def reset (self : UnitAIDefault) : UnitAIDefault :=
  { self with ticksAutoTargetAvailable := 0, ticksAutoTurnAvailable := 0,
              attackerPosition := ⟨0, 0, 0⟩ }

/-- The method `UnitAIDefault::notifyUnderFire`. -/
def notifyUnderFire (self : UnitAIDefault) (position : Vec3 ℤ) : UnitAIDefault :=
  { self with attackerPosition := position }

/-- The method `UnitAIDefault::notifyHit`. -/
def notifyHit (self : UnitAIDefault) (position : Vec3 ℤ) : UnitAIDefault :=
  { self with attackerPosition := position }

/-- The test `enemies.find(r) != enemies.end()` on a set of unit references. -/
def setContains (enemies : List UnitRef) (r : UnitRef) : Bool :=
  enemies.any fun e => e.id == r.id

/-- The filter of both scans: `!enemy->isConscious() || getAIType() == None`. -/
def harmless (enemy : UnitRef) : Bool :=
  !enemy.isConscious || enemy.getAIType == AIType.None

/-! ## The map `std::map<float, StateRef<BattleUnit>>`

An association list whose keys ascend strictly; iteration is list order. -/

/-- The test `m.find(k) != m.end()`. -/
def mapContains (m : List (ℚ × UnitRef)) (k : ℚ) : Bool :=
  m.any fun e => e.1 == k

/-- The assignment `m[k] = v`. -/
def mapAssign : List (ℚ × UnitRef) → ℚ → UnitRef → List (ℚ × UnitRef)
  | [], k, v => [(k, v)]
  | (k', v') :: rest, k, v =>
    if k < k' then (k, v) :: (k', v') :: rest
    else if k = k' then (k, v) :: rest
    else (k', v') :: mapAssign rest k v

/-- The loop `while (m.find(distance) != m.end()) distance += 0.01f`, with a
bound on the number of iterations. -/
def bumpDistance (m : List (ℚ × UnitRef)) : Nat → ℚ → ℚ
  | 0, distance => distance
  | fuel + 1, distance =>
    if mapContains m distance then bumpDistance m fuel (distance + 1 / 100)
    else distance

/-- Body of the loop that fills `enemiesByDistance` (lines 148-162).  The inner
loop gets one iteration for every entry of the map, which is enough for it to
leave by its own condition (`bumpDistance_fresh`). -/
def enemiesByDistanceStep (env : Env) (u : BattleUnit)
    (m : List (ℚ × UnitRef)) (enemy : UnitRef) : List (ℚ × UnitRef) :=
  if harmless enemy then m
  else
    let distance := env.distance enemy.position u.position
    let distance := bumpDistance m m.length distance
    mapAssign m distance enemy

/-- The map `enemiesByDistance` after the first loop. -/
def enemiesByDistance (env : Env) (u : BattleUnit) (enemies : List UnitRef) :
    List (ℚ × UnitRef) :=
  enemies.foldl (enemiesByDistanceStep env u) []

/-- The loop over `enemiesByDistance` (lines 164-172): the result is
`targetEnemy` and the last value of `weaponStatus`. -/
def pickAttackable (u : BattleUnit) :
    List (ℚ × UnitRef) → WeaponStatus → Option UnitRef × WeaponStatus
  | [], weaponStatus => (none, weaponStatus)
  | entry :: rest, _ =>
    let weaponStatus := u.canAttackUnit entry.2
    if weaponStatus ≠ WeaponStatus.NotFiring then (some entry.2, weaponStatus)
    else pickAttackable u rest weaponStatus

/-! ## Facing scan (lines 88-112) -/

/-- Variables of the facing scan. -/
structure FaceScan where
  minDistance : ℚ
  targetEnemy : Option UnitRef
  backupEnemy : Option UnitRef
deriving DecidableEq, Repr

/-- Body of the facing loop. -/
def faceScanStep (env : Env) (u : BattleUnit) (s : FaceScan) (enemy : UnitRef) :
    FaceScan :=
  if harmless enemy then s
  else if !u.hasLineToUnit enemy then
    if u.visibleUnits.contains enemy.id then { s with backupEnemy := some enemy }
    else s
  else
    let distance := env.distance enemy.position u.position
    if distance < s.minDistance then
      { s with minDistance := distance, targetEnemy := some enemy }
    else s

/-- The facing loop over the visible enemies. -/
def faceScan (env : Env) (u : BattleUnit) (enemies : List UnitRef) : FaceScan :=
  enemies.foldl (faceScanStep env u) ⟨FLT_MAX, none, none⟩

/-- The condition of line 81: the focus unit cannot be used for facing. -/
def focusUnusableForFacing (u : BattleUnit) (enemies : List UnitRef) : Bool :=
  match u.focusUnit with
  | none => true
  | some t => !t.isConscious || !setContains enemies t

/-- The unit to face (lines 79-118): the final value of `targetEnemy`. -/
def faceTarget (env : Env) (realTime : Bool) (u : BattleUnit)
    (enemies : List UnitRef) : Option UnitRef :=
  let scanned : Option UnitRef × Option UnitRef :=
    if focusUnusableForFacing u enemies then
      if realTime then
        let s := faceScan env u enemies
        (s.targetEnemy, s.backupEnemy)
      else (none, none)
    else (u.focusUnit, u.focusUnit)
  if scanned.1.isNone && scanned.2.isSome then scanned.2 else scanned.1

/-! ## Attack target (lines 134-174) -/

/-- The initial `weaponStatus` (line 135). -/
def focusWeaponStatus (u : BattleUnit) : WeaponStatus :=
  match u.focusUnit with
  | none => WeaponStatus.NotFiring
  | some t => u.canAttackUnit t

/-- The condition of line 139: the focus unit cannot be attacked. -/
def focusUnusableForAttack (u : BattleUnit) (enemies : List UnitRef) : Bool :=
  match u.focusUnit with
  | none => true
  | some t =>
    !t.isConscious || !setContains enemies t ||
      decide (u.canAttackUnit t = WeaponStatus.NotFiring)

/-- The unit to attack and the weapon status (lines 134-174). -/
def attackTarget (env : Env) (realTime : Bool) (u : BattleUnit)
    (enemies : List UnitRef) : Option UnitRef × WeaponStatus :=
  if focusUnusableForAttack u enemies then
    if realTime then
      pickAttackable u (enemiesByDistance env u enemies) (focusWeaponStatus u)
    else (none, focusWeaponStatus u)
  else (u.focusUnit, focusWeaponStatus u)

/-! ## `think` -/

/-- The variables that `think` accumulates. -/
structure ThinkVars where
  self : UnitAIDefault
  action : Option AIAction
  movement : Option AIMovement
deriving DecidableEq, Repr

/-- A `Turn` movement to a location. -/
def turnMovement (targetLocation : Vec3 ℚ) : AIMovement :=
  { type := AIMovementType.Turn, targetLocation := targetLocation,
    kneelingMode := none, movementMode := none }

/-- Lines 54-62: turn to the attacker when idle. -/
def turnToAttacker (env : Env) (state : GameState) (u : BattleUnit)
    (v : ThinkVars) : ThinkVars :=
  if v.self.attackerPosition ≠ NONE ∧ u.isBusy = false ∧ u.isConscious = true ∧
      v.self.ticksAutoTurnAvailable ≤ state.ticks then
    { v with
      movement := some (turnMovement (Vec3.add u.position (Vec3.toFloat v.self.attackerPosition)))
      self := { v.self with ticksAutoTurnAvailable := state.ticks + AUTO_TURN_COOLDOWN env } }
  else v

/-- The gate of line 65-67. -/
def attackOrFaceGate (state : GameState) (u : BattleUnit) : Bool :=
  u.isConscious && !u.isAttacking &&
    !(state.current_battle.visibleEnemies u.owner).isEmpty &&
    (u.missions.isEmpty || decide (u.missions.head? ≠ some BattleUnitMissionType.Snooze))

/-- The test of lines 73-74: forbidden or unable to fire. -/
def cannotFire (u : BattleUnit) : Bool :=
  let e1 := u.agent.getFirstItemInSlot AEquipmentSlotType.RightHand
  let e2 := u.agent.getFirstItemInSlot AEquipmentSlotType.LeftHand
  decide (u.fire_permission_mode = FirePermissionMode.CeaseFire) ||
    ((match e1 with | none => true | some e => !e.canFire) &&
     (match e2 with | none => true | some e => !e.canFire))

/-- Lines 76-126: face an enemy. -/
def faceEnemy (env : Env) (state : GameState) (u : BattleUnit) (realTime : Bool)
    (v : ThinkVars) : ThinkVars :=
  if v.self.ticksAutoTurnAvailable ≤ state.ticks ∧ u.isMoving = false then
    match faceTarget env realTime u (state.current_battle.visibleEnemies u.owner) with
    | some targetEnemy =>
      { v with
        movement := some (turnMovement targetEnemy.position)
        self := { v.self with
                  ticksAutoTurnAvailable := state.ticks + AUTO_TURN_COOLDOWN env } }
    | none => v
  else v

/-- Lines 131-188: attack an enemy. -/
def attackEnemy (env : Env) (state : GameState) (u : BattleUnit) (realTime : Bool)
    (v : ThinkVars) : ThinkVars :=
  if v.self.ticksAutoTargetAvailable ≤ state.ticks then
    match attackTarget env realTime u (state.current_battle.visibleEnemies u.owner) with
    | (some targetEnemy, weaponStatus) =>
      { v with
        action := some { type := AIActionType.AttackWeaponUnit,
                         targetUnit := targetEnemy, weaponStatus := weaponStatus } }
    | (none, _) =>
      { v with
        self := { v.self with
                  ticksAutoTargetAvailable := state.ticks + AUTO_TARGET_COOLDOWN env } }
  else v

/-- Lines 64-190: attack or face an enemy. -/
def attackOrFaceEnemy (env : Env) (state : GameState) (u : BattleUnit)
    (realTime : Bool) (v : ThinkVars) : ThinkVars :=
  if attackOrFaceGate state u then
    if cannotFire u then faceEnemy env state u realTime v
    else attackEnemy env state u realTime v
  else v

/-- The offsets of the three nested loops of lines 201-217, in loop order. -/
def neighbourOffsets : List (Vec3 ℤ) :=
  ([-1, 0, 1] : List ℤ).flatMap fun x =>
    ([-1, 0, 1] : List ℤ).flatMap fun y =>
      ([-1, 0, 1] : List ℤ).filterMap fun z =>
        if x = 0 ∧ y = 0 ∧ z = 0 then none else some ⟨x, y, z⟩

/-- The list `possiblePositions` of lines 200-218. -/
def possiblePositions (u : BattleUnit) : List (Vec3 ℤ) :=
  (neighbourOffsets.map fun d => Vec3.add (Vec3.toInt u.position) d).filter fun newPos =>
    u.tileIsValid newPos && u.canEnterTile u.owningTile newPos

/-- The condition of lines 193-194. -/
def enzymeGate (state : GameState) (u : BattleUnit) : Bool :=
  decide (state.current_battle.mode = BattleMode.RealTime) &&
    decide (0 < u.enzymeDebuffIntensity) && !u.isMoving && u.canMove

/-- Lines 192-230: enzyme random running. -/
def enzymeRunning (state : GameState) (u : BattleUnit) (v : ThinkVars) : ThinkVars :=
  if enzymeGate state u then
    match possiblePositions u with
    | [] => v
    | p :: ps =>
      let newPos := (p :: ps).getD (state.rngIndex (p :: ps).length % (p :: ps).length) p
      { v with
        movement := some
          { type := AIMovementType.Patrol
            targetLocation := Vec3.toFloat newPos
            kneelingMode := some u.kneeling_mode
            movementMode := some (if u.agent.runningAllowed then MovementMode.Running
                                  else MovementMode.Walking) } }
  else v

/-- The method `UnitAIDefault::think`: the new engine state, the decision and the flag
`handled`. -/
def think (env : Env) (self : UnitAIDefault) (state : GameState) (u : BattleUnit)
    (interrupt : Bool) : UnitAIDefault × AIDecision × Bool :=
  let _ := interrupt
  let realTime : Bool := decide (state.current_battle.mode = BattleMode.RealTime)
  let self : UnitAIDefault :=
    { self with
      active := realTime || decide (u.owner ≠ state.current_battle.currentActiveOrganisation) }
  if self.active = false then (self, NULLTUPLE2)
  else
    let v := turnToAttacker env state u ⟨self, none, none⟩
    let v := attackOrFaceEnemy env state u realTime v
    let v := enzymeRunning state u v
    ({ v.self with attackerPosition := NONE }, ⟨v.action, v.movement⟩,
      v.action.isSome || v.movement.isSome)

/-! ## Auxiliary definitions for the proofs -/

/-- Number of distinct keys of the map that are at least `d`. -/
def keysFrom (m : List (ℚ × UnitRef)) (d : ℚ) : Nat :=
  ((m.map Prod.fst).toFinset.filter fun k => d ≤ k).card

/-- The variables of `think` after its three steps, for an active engine. -/
def thinkSteps (env : Env) (self : UnitAIDefault) (state : GameState) (u : BattleUnit) :
    ThinkVars :=
  enzymeRunning state u
    (attackOrFaceEnemy env state u (decide (state.current_battle.mode = BattleMode.RealTime))
      (turnToAttacker env state u ⟨{ self with active := true }, none, none⟩))

/-- A call made on the engine between resets. -/
inductive Event where
  | think (state : GameState) (u : BattleUnit) (interrupt : Bool)
  | notifyUnderFire (position : Vec3 ℤ)
  | notifyHit (position : Vec3 ℤ)

/-- The engine state after one call. -/
def applyEvent (env : Env) (self : UnitAIDefault) : Event → UnitAIDefault
  | Event.think state u interrupt => (think env self state u interrupt).1
  | Event.notifyUnderFire position => notifyUnderFire self position
  | Event.notifyHit position => notifyHit self position

/-- The engine state after a sequence of calls. -/
def run (env : Env) (self : UnitAIDefault) (events : List Event) : UnitAIDefault :=
  events.foldl (applyEvent env) self

/-! ## Concrete scenarios -/

/-- Euclidean distance between two points that differ in at most one
coordinate: the absolute difference of that coordinate. -/
def axisDistance (a b : Vec3 ℚ) : ℚ :=
  |a.x - b.x| + |a.y - b.y| + |a.z - b.z|

/-- An environment with 576 ticks per turn. -/
def sampleEnv : Env := ⟨576, axisDistance⟩

/-- A fresh engine. -/
def freshEngine : UnitAIDefault := ⟨0, 0, ⟨0, 0, 0⟩, false⟩

/-- An armed, idle, conscious soldier of organisation 0 standing at
`(10.5, 10.5, 1)`, in line of sight of every unit and able to attack every unit
but unit 1; its own set of visible units is empty. -/
def soldier : BattleUnit :=
  { owner := 0, position := ⟨21 / 2, 21 / 2, 1⟩, isBusy := false, isConscious := true,
    isAttacking := false, isMoving := false, canMove := true, missions := [],
    fire_permission_mode := FirePermissionMode.Normal,
    agent := ⟨fun _ => some ⟨true⟩, true⟩, focusUnit := none, visibleUnits := [],
    hasLineToUnit := fun _ => true,
    canAttackUnit := fun e =>
      if e.id = 1 then WeaponStatus.NotFiring else WeaponStatus.Firing 0,
    enzymeDebuffIntensity := 0, kneeling_mode := 0, owningTile := ⟨10, 10, 1⟩,
    tileIsValid := fun _ => true, canEnterTile := fun _ _ => true }

/-- A battle state at tick 100 with the given mode, turn owner and enemies
visible to organisation 0. -/
def sampleState (mode : BattleMode) (turnOwner : Nat) (enemies : List UnitRef) : GameState :=
  ⟨⟨mode, turnOwner, fun org => if org = 0 then enemies else []⟩, 100, fun _ => 0⟩

/-- Enemy 1, one tile east of the soldier: distance 1. -/
def enemyA : UnitRef := ⟨1, ⟨23 / 2, 21 / 2, 1⟩, true, AIType.Threatening⟩

/-- Enemy 2, one tile south of the soldier: distance 1. -/
def enemyB : UnitRef := ⟨2, ⟨21 / 2, 23 / 2, 1⟩, true, AIType.Threatening⟩

/-- Enemy 3, north of the soldier at distance `129 / 128 = 1.0078125`. -/
def enemyC : UnitRef := ⟨3, ⟨21 / 2, 1215 / 128, 1⟩, true, AIType.Threatening⟩

/-- Real-time battle in which organisation 0 sees the enemies 1, 2 and 3,
enumerated in this order. -/
def threeEnemies : GameState :=
  sampleState BattleMode.RealTime 1 [enemyA, enemyB, enemyC]

/-- An enemy that the facing scan may choose as primary target: conscious,
threatening and in line of sight. -/
def lineCandidate (u : BattleUnit) (e : UnitRef) : Bool :=
  !harmless e && u.hasLineToUnit e

/-- An enemy that the facing scan records as fallback: conscious, threatening,
not in line of sight and in the visible units of the combatant. -/
def backupCandidate (u : BattleUnit) (e : UnitRef) : Bool :=
  !harmless e && !u.hasLineToUnit e && u.visibleUnits.contains e.id

/-- Enemy 4, three tiles south of the soldier: distance 3. -/
def enemyD : UnitRef := ⟨4, ⟨21 / 2, 27 / 2, 1⟩, true, AIType.Threatening⟩

/-- Enemy 5, one tile west of the soldier: distance 1. -/
def enemyE : UnitRef := ⟨5, ⟨19 / 2, 21 / 2, 1⟩, true, AIType.Threatening⟩

/-- The soldier under a cease-fire order. -/
def ceaseFireSoldier : BattleUnit :=
  { soldier with fire_permission_mode := FirePermissionMode.CeaseFire }

/-- The soldier under a cease-fire order, with the units 1 and 4 among the
visible units but without a line to any unit. -/
def watcher : BattleUnit :=
  { soldier with
    fire_permission_mode := FirePermissionMode.CeaseFire
    visibleUnits := [1, 4]
    hasLineToUnit := fun _ => false }

/-- The soldier with enemy 2 as focus unit. -/
def focusedSoldier : BattleUnit :=
  { soldier with focusUnit := some enemyB }

/-! ## Dropped items (`BattleItem`)

Shallow embedding of `game/state/battle/battleitem.cpp`.

* An operation that dereferences a null `tileObject` or `shadowObject` has no
  defined result; it returns `none`.
* The tile that owns the item is the tile that owns its `tileObject`; it is
  looked up from the position last given to the `tileObject`.
* The lists `supportedItems` of all supporting objects are kept as one list of
  registrations `(object, item)` in the order of the `push_back` calls; the list
  of one object is the sublist of the pairs with that object.
* Calls of `LogError` have no effect on the state and are left out.
* The type of `ownerInvulnerableTicks` is declared in a header outside the
  sources at hand; it is an integer without bound here. -/

/-- Kinds of tile objects that `BattleItem::update` names; every other kind is
`Other`. -/
inductive TileObjectType where
  | Unit
  | LeftWall
  | RightWall
  | Feature
  | Ground
  | Other (code : Nat)
deriving DecidableEq, Repr

/-- A non-empty `Collision`: the kind of the object hit, the collision point
and, for a unit, the unit of the object. -/
structure Collision where
  type : TileObjectType
  position : Vec3 ℚ
  unit : Nat
deriving DecidableEq, Repr

/-- The object of a tile that supports items: identity, `getPosition()` and
`type->height`. -/
structure SupportingObject where
  id : Nat
  position : Vec3 ℚ
  height : ℤ
deriving DecidableEq, Repr

/-- The part of a tile that `findSupport` reads. -/
structure Tile where
  getItemSupportingObject : Option SupportingObject
  objectDropSfx : Option Nat
deriving DecidableEq, Repr

/-- A dropped item.  `battle` tells whether the weak reference to the battle
can still be locked; `tileObject` and `shadowObject` hold the position last
given to the projection, or `none` for a null pointer; `ownerUnit` is
`item->ownerAgent->unit`. -/
structure BattleItem where
  id : Nat
  position : Vec3 ℚ
  velocity : Vec3 ℚ
  supported : Bool
  bounced : Bool
  ownerInvulnerableTicks : ℤ
  ownerUnit : Nat
  battle : Bool
  tileObject : Option (Vec3 ℚ)
  shadowObject : Option (Vec3 ℚ)
deriving DecidableEq, Repr

/-- The state outside the item that the item operations change: the item list
of the battle, the registrations `(object, item)` of supported items and the
samples played `(sample, position, gain)`. -/
structure ItemWorld where
  items : List Nat
  supportedItems : List (Nat × Nat)
  playedSamples : List (Nat × Vec3 ℚ × ℚ)
deriving DecidableEq, Repr

/-- The map and the constants that the item operations read.  The constants
`FALLING_ACCELERATION_ITEM`, `TICK_SCALE` (already converted to `float`) and
`VELOCITY_SCALE_BATTLE` (one divisor for each component) are declared outside
the sources at hand. -/
structure ItemEnv where
  FALLING_ACCELERATION_ITEM : ℚ
  TICK_SCALE : ℚ
  VELOCITY_SCALE_BATTLE : Vec3 ℚ
  mapSize : Vec3 ℤ
  findCollision : Vec3 ℚ → Vec3 ℚ → Option Collision
  getOwningTile : Vec3 ℚ → Tile

/-- The value of `int remainingTicks = ticks` for an `unsigned int ticks`. -/
def intOfUnsigned (ticks : Nat) : ℤ :=
  if ticks % 2 ^ 32 < 2 ^ 31 then ((ticks % 2 ^ 32 : Nat) : ℤ)
  else ((ticks % 2 ^ 32 : Nat) : ℤ) - 2 ^ 32

/-- The velocity after a bounce (lines 115-117). -/
def bounceVelocity (velocity : Vec3 ℚ) : Vec3 ℚ :=
  ⟨-velocity.x / 4, -velocity.y / 4, |velocity.z / 4|⟩

/-- The loop of lines 89-93 run `n` times on `(velocity, newPosition)`. -/
def integrate (env : ItemEnv) : Nat → Vec3 ℚ × Vec3 ℚ → Vec3 ℚ × Vec3 ℚ
  | 0, s => s
  | n + 1, (velocity, newPosition) =>
    let velocity : Vec3 ℚ :=
      ⟨velocity.x, velocity.y, velocity.z - env.FALLING_ACCELERATION_ITEM⟩
    let newPosition : Vec3 ℚ :=
      ⟨newPosition.x + velocity.x / env.TICK_SCALE / env.VELOCITY_SCALE_BATTLE.x,
       newPosition.y + velocity.y / env.TICK_SCALE / env.VELOCITY_SCALE_BATTLE.y,
       newPosition.z + velocity.z / env.TICK_SCALE / env.VELOCITY_SCALE_BATTLE.z⟩
    integrate env n (velocity, newPosition)

namespace BattleItem

/-- The method `BattleItem::die`. -/
def die (w : ItemWorld) (it : BattleItem) (violently : Bool) :
    Option (BattleItem × ItemWorld) :=
  let _ := violently
  let w : ItemWorld :=
    if it.battle then { w with items := w.items.filter fun i => i ≠ it.id } else w
  match it.tileObject, it.shadowObject with
  | some _, some _ => some ({ it with tileObject := none, shadowObject := none }, w)
  | _, _ => none

/-- The method `BattleItem::setPosition`. -/
def setPosition (it : BattleItem) (pos : Vec3 ℚ) : BattleItem :=
  { it with
    position := pos
    tileObject := it.tileObject.map fun _ => pos
    shadowObject := it.shadowObject.map fun _ => pos }

/-- The method `BattleItem::checkItemCollision`; `some none` is the empty
collision. -/
def checkItemCollision (env : ItemEnv) (it : BattleItem)
    (previousPosition nextPosition : Vec3 ℚ) : Option (Option Collision) :=
  match it.tileObject with
  | none => none
  | some _ =>
    match env.findCollision previousPosition nextPosition with
    | none => some none
    | some c =>
      if 0 < it.ownerInvulnerableTicks ∧ c.type = TileObjectType.Unit ∧
          it.ownerUnit = c.unit then some none
      else some (some c)

/-- The method `BattleItem::findSupport`: the value returned, the item and the
world. -/
def findSupport (env : ItemEnv) (w : ItemWorld) (it : BattleItem)
    (emitSound forced : Bool) : Option (Bool × BattleItem × ItemWorld) :=
  if it.supported then some (true, it, w)
  else
    match it.tileObject with
    | none => none
    | some tilePosition =>
      let tile := env.getOwningTile tilePosition
      match tile.getItemSupportingObject with
      | none => some (false, it, w)
      | some obj =>
        let restingPosition : Vec3 ℚ :=
          Vec3.add obj.position ⟨0, 0, (obj.height : ℚ) / 40⟩
        if forced = false ∧ restingPosition.z < it.position.z then some (false, it, w)
        else
          let it : BattleItem :=
            { it with supported := true, bounced := false, velocity := ⟨0, 0, 0⟩ }
          let w : ItemWorld :=
            { w with supportedItems := w.supportedItems ++ [(obj.id, it.id)] }
          let it : BattleItem :=
            if it.position ≠ restingPosition then it.setPosition restingPosition else it
          let w : ItemWorld :=
            match emitSound, tile.objectDropSfx with
            | true, some sfx =>
              { w with playedSamples := w.playedSamples ++ [(sfx, it.position, 1 / 4)] }
            | _, _ => w
          some (true, it, w)

/-- Lines 176-179 of `update`: the final support search. -/
def searchSupport (env : ItemEnv) (w : ItemWorld) (it : BattleItem) (collision : Bool) :
    Option (BattleItem × ItemWorld) :=
  if collision then (findSupport env w it false false).map fun r => r.2
  else some (it, w)

/-- Lines 149-165 of `update`: the checks against the ceiling and the map edge.
The result is the item, `newPosition` and `collision` after both checks. -/
def boundsCheck (env : ItemEnv) (it : BattleItem) (previousPosition newPosition : Vec3 ℚ)
    (collision : Bool) : BattleItem × Vec3 ℚ × Bool :=
  let mapSize := env.mapSize
  let ceiling : Bool := decide ((mapSize.z : ℚ) ≤ newPosition.z)
  let collision := collision || ceiling
  let newPosition : Vec3 ℚ :=
    if ceiling then ⟨newPosition.x, newPosition.y, (mapSize.z : ℚ) - 1 / 100⟩
    else newPosition
  let it : BattleItem := if ceiling then { it with velocity := ⟨0, 0, 0⟩ } else it
  let edge : Bool :=
    decide (newPosition.x < 0 ∨ newPosition.y < 0 ∨ (mapSize.y : ℚ) ≤ newPosition.y ∨
      (mapSize.x : ℚ) ≤ newPosition.x ∨ (mapSize.y : ℚ) ≤ newPosition.y)
  let collision := collision || edge
  let it : BattleItem :=
    if edge then { it with velocity := ⟨-it.velocity.x / 4, -it.velocity.y / 4, 0⟩ }
    else it
  let newPosition : Vec3 ℚ := if edge then previousPosition else newPosition
  (it, newPosition, collision)

/-- Lines 144-180 of `update`: bounds check, commit of the new position and
final support search, from the values of `newPosition` and `collision` left by
the collision handling. -/
def finishUpdate (env : ItemEnv) (w : ItemWorld) (it : BattleItem)
    (previousPosition newPosition : Vec3 ℚ) (collision : Bool) :
    Option (BattleItem × ItemWorld) :=
  if newPosition ≠ previousPosition then
    match it.tileObject with
    | none => none
    | some _ =>
      let b := boundsCheck env it previousPosition newPosition collision
      if b.2.1.z < 0 then die w b.1 false
      else searchSupport env w (b.1.setPosition b.2.1) b.2.2
  else searchSupport env w it collision

/-- Lines 95-142 of `update` followed by `finishUpdate`: the collision
handling, for the item after the gravity loop. -/
def resolveCollision (env : ItemEnv) (w : ItemWorld) (it : BattleItem)
    (previousPosition newPosition : Vec3 ℚ) : Option (BattleItem × ItemWorld) :=
  match checkItemCollision env it previousPosition newPosition with
  | none => none
  | some none => finishUpdate env w it previousPosition newPosition false
  | some (some c) =>
    match c.type with
    | TileObjectType.Ground =>
      match findSupport env w (it.setPosition c.position) true true with
      | none => none
      | some (true, it, w) => some (it, w)
      | some (false, it, w) => finishUpdate env w it previousPosition newPosition true
    | TileObjectType.Other _ => finishUpdate env w it previousPosition newPosition true
    | _ =>
      if it.bounced = false then
        finishUpdate env w { it with bounced := true, velocity := bounceVelocity it.velocity }
          previousPosition previousPosition false
      else
        finishUpdate env w it previousPosition
          ⟨previousPosition.x, previousPosition.y, min newPosition.z previousPosition.z⟩ true

/-- The item after lines 80-93 of `update` (invulnerability countdown and
gravity loop) and the value of `newPosition`. -/
def afterGravity (env : ItemEnv) (it : BattleItem) (ticks : Nat) : BattleItem × Vec3 ℚ :=
  let it : BattleItem :=
    if 0 < it.ownerInvulnerableTicks then
      { it with ownerInvulnerableTicks :=
          it.ownerInvulnerableTicks - ((ticks % 2 ^ 32 : Nat) : ℤ) }
    else it
  let remainingTicks := intOfUnsigned ticks
  let r := integrate env remainingTicks.toNat (it.velocity, it.position)
  ({ it with velocity := r.1 }, r.2)

/-- The method `BattleItem::update`. -/
def update (env : ItemEnv) (w : ItemWorld) (it : BattleItem) (ticks : Nat) :
    Option (BattleItem × ItemWorld) :=
  if it.supported then some (it, w)
  else
    resolveCollision env w (afterGravity env it ticks).1 it.position
      (afterGravity env it ticks).2

/-- The method `BattleItem::handleCollision`. -/
def handleCollision (w : ItemWorld) (it : BattleItem) : Option (BattleItem × ItemWorld) :=
  die w it true

end BattleItem

/-! ## Auxiliary definitions for the item proofs -/

/-- Number of registrations of an item over all supporting objects. -/
def registrations (w : ItemWorld) (itemId : Nat) : Nat :=
  (w.supportedItems.filter fun p => p.2 = itemId).length

/-- The item invariant: airborne and registered with no object, or supported
and registered exactly once, with exactly one object. -/
def ItemInvariant (it : BattleItem) (w : ItemWorld) : Prop :=
  (it.supported = false ∧ registrations w it.id = 0) ∨
  (it.supported = true ∧ registrations w it.id = 1)

/-- A step that keeps the flags and the registrations. -/
def Kept (it it2 : BattleItem) (w w2 : ItemWorld) : Prop :=
  it2.id = it.id ∧ it2.supported = it.supported ∧ it2.bounced = it.bounced ∧
    w2.supportedItems = w.supportedItems

/-- A step in which the item comes to rest: it is registered once and
`bounced` is cleared. -/
def Rested (it it2 : BattleItem) (w w2 : ItemWorld) : Prop :=
  it2.id = it.id ∧ it.supported = false ∧ it2.supported = true ∧ it2.bounced = false ∧
    ∃ obj : Nat, w2.supportedItems = w.supportedItems ++ [(obj, it.id)]

/-- A step in which the item bounces. -/
def Bounced (it it2 : BattleItem) (w w2 : ItemWorld) : Prop :=
  it2.id = it.id ∧ it.supported = false ∧ it.bounced = false ∧ it2.supported = false ∧
    it2.bounced = true ∧ w2.supportedItems = w.supportedItems

/-- A support search appended to the result of an update, unless the item was
destroyed (its `tileObject` is gone). -/
def thenSearch (env : ItemEnv) (r : BattleItem × ItemWorld) : Option (BattleItem × ItemWorld) :=
  if r.1.tileObject = none then some r
  else BattleItem.searchSupport env r.2 r.1 true

/-- Number of changes of `bounced` from false to true along a sequence of
calls of `update`, each with its own map state and tick count; the sequence
ends at a call without defined result. -/
def bounceTransitions (w : ItemWorld) (it : BattleItem) : List (ItemEnv × Nat) → Nat
  | [] => 0
  | (env, ticks) :: rest =>
    match BattleItem.update env w it ticks with
    | none => 0
    | some (it2, w2) =>
      (if it.bounced = false ∧ it2.bounced = true then 1 else 0) + bounceTransitions w2 it2 rest

/-- Free flight of one `update` call: the item is airborne with its
`tileObject`, nothing blocks the step, and the new position is inside the map
bounds. -/
def freeFlight (env : ItemEnv) (it : BattleItem) (ticks : Nat) : Bool :=
  !it.supported && it.tileObject.isSome &&
    decide (BattleItem.checkItemCollision env (BattleItem.afterGravity env it ticks).1
      it.position (BattleItem.afterGravity env it ticks).2 = some none) &&
    decide ((BattleItem.afterGravity env it ticks).2.z < (env.mapSize.z : ℚ)) &&
    decide (0 ≤ (BattleItem.afterGravity env it ticks).2.x) &&
    decide ((BattleItem.afterGravity env it ticks).2.x < (env.mapSize.x : ℚ)) &&
    decide (0 ≤ (BattleItem.afterGravity env it ticks).2.y) &&
    decide ((BattleItem.afterGravity env it ticks).2.y < (env.mapSize.y : ℚ)) &&
    decide (0 ≤ (BattleItem.afterGravity env it ticks).2.z)

/-! ## Concrete item scenarios -/

/-- A map of 50 x 50 x 12 tiles with gravity 1/2 per tick, tick scale 36 and
velocity scale (24, 24, 20), the given collision answer for every segment and
the given tile for every position. -/
def sampleItemEnv (collision : Option Collision) (tile : Tile) : ItemEnv :=
  { FALLING_ACCELERATION_ITEM := 1 / 2, TICK_SCALE := 36,
    VELOCITY_SCALE_BATTLE := ⟨24, 24, 20⟩, mapSize := ⟨50, 50, 12⟩,
    findCollision := fun _ _ => collision, getOwningTile := fun _ => tile }

/-- A tile without supporting object. -/
def emptyTile : Tile := ⟨none, none⟩

/-- A tile whose supporting object 7 stands at height 1 and is 40 units high:
the resting height is 2. -/
def groundTile : Tile := ⟨some ⟨7, ⟨5, 5, 1⟩, 40⟩, some 3⟩

/-- A world with the items 1 and 2 in the battle and no registration. -/
def sampleWorld : ItemWorld := ⟨[1, 2], [], []⟩

/-- Item 1, airborne at the given position with the given velocity and
`bounced` flag, dropped by unit 9. -/
def sampleItem (position velocity : Vec3 ℚ) (bounced : Bool) : BattleItem :=
  { id := 1, position := position, velocity := velocity, supported := false,
    bounced := bounced, ownerInvulnerableTicks := 0, ownerUnit := 9, battle := true,
    tileObject := some position, shadowObject := some position }

/-- The soldier standing at `(10, 10, 1)`. -/
def cornerSoldier : BattleUnit :=
  { soldier with position := ⟨10, 10, 1⟩ }

/-- The soldier under a cease-fire order with enemy 2 as focus unit. -/
def ceaseFireFocusedSoldier : BattleUnit :=
  { soldier with
    fire_permission_mode := FirePermissionMode.CeaseFire
    focusUnit := some enemyB }

/-! ## Lemmas on the distance map -/

theorem mapContains_iff (m : List (ℚ × UnitRef)) (k : ℚ) :
    mapContains m k = true ↔ ∃ x ∈ m, x.1 = k := by
  simp [mapContains, List.any_eq_true]

theorem mapContains_false_iff (m : List (ℚ × UnitRef)) (k : ℚ) :
    mapContains m k = false ↔ ∀ x ∈ m, x.1 ≠ k := by
  rw [← Bool.not_eq_true, mapContains_iff]
  push_neg
  rfl

theorem bumpDistance_ge (m : List (ℚ × UnitRef)) (n : Nat) (d : ℚ) :
    d ≤ bumpDistance m n d := by
  induction n generalizing d with
  | zero => simp [bumpDistance]
  | succ n ih =>
    unfold bumpDistance
    split
    · have h := ih (d + 1 / 100)
      have h2 : d ≤ d + 1 / 100 := by norm_num
      exact le_trans h2 h
    · exact le_refl d

theorem bumpDistance_of_absent (m : List (ℚ × UnitRef)) (n : Nat) (d : ℚ)
    (h : mapContains m d = false) : bumpDistance m n d = d := by
  cases n with
  | zero => rfl
  | succ n => simp [bumpDistance, h]

theorem keysFrom_le_length (m : List (ℚ × UnitRef)) (d : ℚ) : keysFrom m d ≤ m.length := by
  unfold keysFrom
  calc ((m.map Prod.fst).toFinset.filter fun k => d ≤ k).card
      ≤ (m.map Prod.fst).toFinset.card := Finset.card_filter_le _ _
    _ ≤ (m.map Prod.fst).length := List.toFinset_card_le _
    _ = m.length := List.length_map _ _

theorem keysFrom_lt (m : List (ℚ × UnitRef)) (d : ℚ) (h : mapContains m d = true) :
    keysFrom m (d + 1 / 100) < keysFrom m d := by
  unfold keysFrom
  apply Finset.card_lt_card
  rw [Finset.ssubset_iff_of_subset]
  · obtain ⟨x, hx, hxd⟩ := (mapContains_iff m d).1 h
    refine ⟨d, ?_, ?_⟩
    · rw [Finset.mem_filter, List.mem_toFinset]
      exact ⟨List.mem_map.2 ⟨x, hx, hxd⟩, le_refl d⟩
    · rw [Finset.mem_filter]
      rintro ⟨_, hle⟩
      have : (0 : ℚ) < 1 / 100 := by norm_num
      linarith
  · intro k hk
    rw [Finset.mem_filter] at hk ⊢
    refine ⟨hk.1, ?_⟩
    have : (0 : ℚ) < 1 / 100 := by norm_num
    linarith [hk.2]

theorem bumpDistance_fresh_aux (m : List (ℚ × UnitRef)) (n : Nat) (d : ℚ)
    (h : keysFrom m d ≤ n) : mapContains m (bumpDistance m n d) = false := by
  induction n generalizing d with
  | zero =>
    unfold bumpDistance
    by_contra hc
    have hc2 : mapContains m d = true := by simpa using hc
    have := keysFrom_lt m d hc2
    omega
  | succ n ih =>
    unfold bumpDistance
    by_cases hc : mapContains m d = true
    · rw [if_pos hc]
      apply ih
      have := keysFrom_lt m d hc
      omega
    · rw [if_neg hc]
      simpa using hc

/-- The inner loop of the first attack loop leaves by its own condition: with
one iteration per map entry the key it returns is absent from the map. -/
theorem bumpDistance_fresh (m : List (ℚ × UnitRef)) (d : ℚ) :
    mapContains m (bumpDistance m m.length d) = false :=
  bumpDistance_fresh_aux m m.length d (keysFrom_le_length m d)

theorem mem_mapAssign_imp (m : List (ℚ × UnitRef)) (k : ℚ) (v : UnitRef)
    (x : ℚ × UnitRef) (hx : x ∈ mapAssign m k v) : x = (k, v) ∨ x ∈ m := by
  induction m with
  | nil => simp [mapAssign] at hx; exact Or.inl hx
  | cons a t ih =>
    unfold mapAssign at hx
    split at hx
    · rcases List.mem_cons.1 hx with h | h
      · exact Or.inl h
      · exact Or.inr h
    · split at hx
      · rcases List.mem_cons.1 hx with h | h
        · exact Or.inl h
        · exact Or.inr (List.mem_cons_of_mem _ h)
      · rcases List.mem_cons.1 hx with h | h
        · exact Or.inr (h ▸ List.mem_cons_self _ _)
        · rcases ih h with h' | h'
          · exact Or.inl h'
          · exact Or.inr (List.mem_cons_of_mem _ h')

theorem mem_mapAssign_new (m : List (ℚ × UnitRef)) (k : ℚ) (v : UnitRef) :
    (k, v) ∈ mapAssign m k v := by
  induction m with
  | nil => simp [mapAssign]
  | cons a t ih =>
    unfold mapAssign
    split
    · exact List.mem_cons_self _ _
    · split
      · exact List.mem_cons_self _ _
      · exact List.mem_cons_of_mem _ ih

theorem mem_mapAssign_old (m : List (ℚ × UnitRef)) (k : ℚ) (v : UnitRef)
    (hfresh : mapContains m k = false) (x : ℚ × UnitRef) (hx : x ∈ m) :
    x ∈ mapAssign m k v := by
  induction m with
  | nil => cases hx
  | cons a t ih =>
    have hall := (mapContains_false_iff _ _).1 hfresh
    have hne : a.1 ≠ k := hall a (List.mem_cons_self _ _)
    have hfresh_t : mapContains t k = false :=
      (mapContains_false_iff _ _).2 fun y hy => hall y (List.mem_cons_of_mem _ hy)
    unfold mapAssign
    split
    · exact List.mem_cons_of_mem _ hx
    · split
      · rename_i heq
        exact absurd heq.symm hne
      · rcases List.mem_cons.1 hx with h | h
        · exact h ▸ List.mem_cons_self _ _
        · exact List.mem_cons_of_mem _ (ih hfresh_t h)

/-! ## Lemmas on `enemiesByDistance` -/

theorem enemiesByDistanceStep_harmless (env : Env) (u : BattleUnit)
    (m : List (ℚ × UnitRef)) (e : UnitRef) (h : harmless e = true) :
    enemiesByDistanceStep env u m e = m := by
  simp [enemiesByDistanceStep, h]

theorem enemiesByDistanceStep_eligible (env : Env) (u : BattleUnit)
    (m : List (ℚ × UnitRef)) (e : UnitRef) (h : harmless e = false) :
    enemiesByDistanceStep env u m e =
      mapAssign m (bumpDistance m m.length (env.distance e.position u.position)) e := by
  simp [enemiesByDistanceStep, h]

/-- Every eligible enemy gets an entry of its own, and nothing else is entered. -/
theorem mem_foldl_enemiesByDistanceStep (env : Env) (u : BattleUnit) (l : List UnitRef)
    (m0 : List (ℚ × UnitRef)) (e : UnitRef) :
    (∃ k, (k, e) ∈ l.foldl (enemiesByDistanceStep env u) m0) ↔
      (∃ k, (k, e) ∈ m0) ∨ (e ∈ l ∧ harmless e = false) := by
  induction l generalizing m0 with
  | nil => simp
  | cons a t ih =>
    rw [List.foldl_cons, ih]
    by_cases ha : harmless a = true
    · rw [enemiesByDistanceStep_harmless env u m0 a ha]
      constructor
      · rintro (h | ⟨h1, h2⟩)
        · exact Or.inl h
        · exact Or.inr ⟨List.mem_cons_of_mem _ h1, h2⟩
      · rintro (h | ⟨h1, h2⟩)
        · exact Or.inl h
        · rcases List.mem_cons.1 h1 with h3 | h3
          · subst h3; rw [h2] at ha; cases ha
          · exact Or.inr ⟨h3, h2⟩
    · have ha2 : harmless a = false := by simpa using ha
      rw [enemiesByDistanceStep_eligible env u m0 a ha2]
      have hfresh := bumpDistance_fresh m0 (env.distance a.position u.position)
      constructor
      · rintro (⟨k, hk⟩ | ⟨h1, h2⟩)
        · rcases mem_mapAssign_imp _ _ _ _ hk with h | h
          · have : e = a := (Prod.mk.inj h).2
            exact Or.inr ⟨this ▸ List.mem_cons_self _ _, this ▸ ha2⟩
          · exact Or.inl ⟨k, h⟩
        · exact Or.inr ⟨List.mem_cons_of_mem _ h1, h2⟩
      · rintro (⟨k, hk⟩ | ⟨h1, h2⟩)
        · exact Or.inl ⟨k, mem_mapAssign_old _ _ _ hfresh _ hk⟩
        · rcases List.mem_cons.1 h1 with h3 | h3
          · subst h3
            exact Or.inl ⟨_, mem_mapAssign_new _ _ _⟩
          · exact Or.inr ⟨h3, h2⟩

/-- The values of `enemiesByDistance` are exactly the eligible visible enemies. -/
theorem mem_enemiesByDistance (env : Env) (u : BattleUnit) (enemies : List UnitRef)
    (e : UnitRef) :
    (∃ k, (k, e) ∈ enemiesByDistance env u enemies) ↔
      (e ∈ enemies ∧ harmless e = false) := by
  unfold enemiesByDistance
  rw [mem_foldl_enemiesByDistanceStep]
  simp

/-- Keys stay above a bound that is below the distance of every eligible enemy
entered. -/
theorem foldl_enemiesByDistanceStep_keys_gt (env : Env) (u : BattleUnit) (d : ℚ)
    (l : List UnitRef) (m0 : List (ℚ × UnitRef))
    (hm0 : ∀ x ∈ m0, d < x.1)
    (hl : ∀ e ∈ l, harmless e = false → d < env.distance e.position u.position) :
    ∀ x ∈ l.foldl (enemiesByDistanceStep env u) m0, d < x.1 := by
  induction l generalizing m0 with
  | nil => simpa using hm0
  | cons a t ih =>
    rw [List.foldl_cons]
    apply ih
    · by_cases ha : harmless a = true
      · rw [enemiesByDistanceStep_harmless env u m0 a ha]; exact hm0
      · have ha2 : harmless a = false := by simpa using ha
        rw [enemiesByDistanceStep_eligible env u m0 a ha2]
        intro x hx
        rcases mem_mapAssign_imp _ _ _ _ hx with h | h
        · rw [h]
          exact lt_of_lt_of_le (hl a (List.mem_cons_self _ _) ha2) (bumpDistance_ge _ _ _)
        · exact hm0 x h
    · intro e he
      exact hl e (List.mem_cons_of_mem _ he)

theorem mapAssign_below_all (m : List (ℚ × UnitRef)) (k : ℚ) (v : UnitRef)
    (h : ∀ x ∈ m, k < x.1) : mapAssign m k v = (k, v) :: m := by
  cases m with
  | nil => rfl
  | cons a t =>
    have : k < a.1 := h a (List.mem_cons_self _ _)
    simp [mapAssign, this]

theorem mapAssign_above_head (rest : List (ℚ × UnitRef)) (d k : ℚ) (a v : UnitRef)
    (h : d < k) : mapAssign ((d, a) :: rest) k v = (d, a) :: mapAssign rest k v := by
  have h1 : ¬ k < d := not_lt.2 (le_of_lt h)
  have h2 : ¬ k = d := ne_of_gt h
  simp [mapAssign, h1, h2]

/-- Once the entry `(d, a)` heads the map and every later eligible enemy is at
distance at least `d`, the entry stays at the head, and every later eligible
enemy is entered behind it. -/
theorem foldl_enemiesByDistanceStep_head (env : Env) (u : BattleUnit) (d : ℚ) (a : UnitRef)
    (l : List UnitRef) (rest : List (ℚ × UnitRef))
    (hrest : ∀ x ∈ rest, d < x.1)
    (hl : ∀ e ∈ l, harmless e = false → d ≤ env.distance e.position u.position) :
    ∃ rest2, l.foldl (enemiesByDistanceStep env u) ((d, a) :: rest) = (d, a) :: rest2 ∧
      (∀ x ∈ rest2, d < x.1) ∧
      (∀ e, (∃ k, (k, e) ∈ rest) ∨ (e ∈ l ∧ harmless e = false) → ∃ k, (k, e) ∈ rest2) := by
  induction l generalizing rest with
  | nil =>
    refine ⟨rest, rfl, hrest, ?_⟩
    rintro e (h | ⟨h, _⟩)
    · exact h
    · cases h
  | cons b t ih =>
    rw [List.foldl_cons]
    have hl_t : ∀ e ∈ t, harmless e = false → d ≤ env.distance e.position u.position :=
      fun e he => hl e (List.mem_cons_of_mem _ he)
    by_cases hb : harmless b = true
    · rw [enemiesByDistanceStep_harmless env u _ b hb]
      obtain ⟨rest2, h1, h2, h3⟩ := ih rest hrest hl_t
      refine ⟨rest2, h1, h2, ?_⟩
      rintro e (h | ⟨h, hh⟩)
      · exact h3 e (Or.inl h)
      · rcases List.mem_cons.1 h with h4 | h4
        · subst h4; rw [hh] at hb; cases hb
        · exact h3 e (Or.inr ⟨h4, hh⟩)
    · have hb2 : harmless b = false := by simpa using hb
      rw [enemiesByDistanceStep_eligible env u _ b hb2]
      have hfresh := bumpDistance_fresh ((d, a) :: rest) (env.distance b.position u.position)
      have hge := bumpDistance_ge ((d, a) :: rest) ((d, a) :: rest).length
        (env.distance b.position u.position)
      have hall := (mapContains_false_iff _ _).1 hfresh
      have hne : d ≠ bumpDistance ((d, a) :: rest) ((d, a) :: rest).length
          (env.distance b.position u.position) := hall (d, a) (List.mem_cons_self _ _)
      have hgt : d < bumpDistance ((d, a) :: rest) ((d, a) :: rest).length
          (env.distance b.position u.position) :=
        lt_of_le_of_ne (le_trans (hl b (List.mem_cons_self _ _) hb2) hge) hne
      have hfresh_rest : mapContains rest (bumpDistance ((d, a) :: rest) ((d, a) :: rest).length
          (env.distance b.position u.position)) = false :=
        (mapContains_false_iff _ _).2 fun y hy => hall y (List.mem_cons_of_mem _ hy)
      rw [mapAssign_above_head rest d _ a b hgt]
      obtain ⟨rest2, h1, h2, h3⟩ := ih _ (by
        intro x hx
        rcases mem_mapAssign_imp _ _ _ _ hx with h | h
        · rw [h]; exact hgt
        · exact hrest x h) hl_t
      refine ⟨rest2, h1, h2, ?_⟩
      rintro e (⟨k, hk⟩ | ⟨h, hh⟩)
      · exact h3 e (Or.inl ⟨k, mem_mapAssign_old _ _ _ hfresh_rest _ hk⟩)
      · rcases List.mem_cons.1 h with h4 | h4
        · subst h4
          exact h3 e (Or.inl ⟨_, mem_mapAssign_new _ _ _⟩)
        · exact h3 e (Or.inr ⟨h4, hh⟩)

/-- The map built from `pre ++ a :: post` when `a` is the first enumerated
eligible enemy at the least distance `d`. -/
theorem enemiesByDistance_head (env : Env) (u : BattleUnit) (a : UnitRef)
    (pre post : List UnitRef)
    (ha : harmless a = false)
    (hpre : ∀ e ∈ pre, harmless e = false →
      env.distance a.position u.position < env.distance e.position u.position)
    (hpost : ∀ e ∈ post, harmless e = false →
      env.distance a.position u.position ≤ env.distance e.position u.position) :
    ∃ rest, enemiesByDistance env u (pre ++ a :: post)
        = (env.distance a.position u.position, a) :: rest ∧
      (∀ x ∈ rest, env.distance a.position u.position < x.1) ∧
      (∀ e ∈ post, harmless e = false → ∃ k, (k, e) ∈ rest) := by
  unfold enemiesByDistance
  rw [List.foldl_append, List.foldl_cons]
  have hkeys := foldl_enemiesByDistanceStep_keys_gt env u
    (env.distance a.position u.position) pre [] (by simp) hpre
  rw [enemiesByDistanceStep_eligible env u _ a ha]
  have habsent : mapContains (pre.foldl (enemiesByDistanceStep env u) [])
      (env.distance a.position u.position) = false :=
    (mapContains_false_iff _ _).2 fun x hx => ne_of_gt (hkeys x hx)
  rw [bumpDistance_of_absent _ _ _ habsent, mapAssign_below_all _ _ _ hkeys]
  obtain ⟨rest2, h1, h2, h3⟩ := foldl_enemiesByDistanceStep_head env u
    (env.distance a.position u.position) a post _ hkeys hpost
  exact ⟨rest2, h1, h2, fun e he hh => h3 e (Or.inr ⟨he, hh⟩)⟩

/-! ## Lemmas on `pickAttackable` -/

theorem pickAttackable_some (u : BattleUnit) (m : List (ℚ × UnitRef)) (ws0 : WeaponStatus)
    (t : UnitRef) (ws : WeaponStatus) (h : pickAttackable u m ws0 = (some t, ws)) :
    (∃ k, (k, t) ∈ m) ∧ ws = u.canAttackUnit t ∧ ws ≠ WeaponStatus.NotFiring := by
  induction m generalizing ws0 with
  | nil => simp [pickAttackable] at h
  | cons a rest ih =>
    unfold pickAttackable at h
    by_cases hc : u.canAttackUnit a.2 ≠ WeaponStatus.NotFiring
    · simp only [hc, ne_eq, not_false_eq_true, if_true] at h
      obtain ⟨h1, h2⟩ := Prod.mk.inj h
      have h1 : a.2 = t := Option.some.inj h1
      subst h1
      exact ⟨⟨a.1, List.mem_cons_self _ _⟩, h2.symm, h2 ▸ hc⟩
    · simp only [hc, if_false] at h
      obtain ⟨⟨k, hk⟩, h2, h3⟩ := ih _ h
      exact ⟨⟨k, List.mem_cons_of_mem _ hk⟩, h2, h3⟩

theorem pickAttackable_none (u : BattleUnit) (m : List (ℚ × UnitRef)) (ws0 : WeaponStatus) :
    (pickAttackable u m ws0).1 = none ↔
      ∀ x ∈ m, u.canAttackUnit x.2 = WeaponStatus.NotFiring := by
  induction m generalizing ws0 with
  | nil => simp [pickAttackable]
  | cons a rest ih =>
    unfold pickAttackable
    by_cases hc : u.canAttackUnit a.2 ≠ WeaponStatus.NotFiring
    · simp only [hc, ne_eq, not_false_eq_true, if_true]
      constructor
      · intro h; cases h
      · intro h; exact absurd (h a (List.mem_cons_self _ _)) hc
    · simp only [hc, if_false]
      rw [ih]
      have hc2 : u.canAttackUnit a.2 = WeaponStatus.NotFiring := by simpa using hc
      constructor
      · intro h x hx
        rcases List.mem_cons.1 hx with h1 | h1
        · rw [h1]; exact hc2
        · exact h x h1
      · intro h x hx
        exact h x (List.mem_cons_of_mem _ hx)

theorem pickAttackable_head (u : BattleUnit) (k : ℚ) (a : UnitRef)
    (rest : List (ℚ × UnitRef)) (ws0 : WeaponStatus)
    (h : u.canAttackUnit a ≠ WeaponStatus.NotFiring) :
    pickAttackable u ((k, a) :: rest) ws0 = (some a, u.canAttackUnit a) := by
  simp [pickAttackable, h]

/-! ## The structure of `think` -/

theorem think_of_inactive (env : Env) (self : UnitAIDefault) (state : GameState)
    (u : BattleUnit) (interrupt : Bool)
    (hmode : state.current_battle.mode = BattleMode.TurnBased)
    (hown : u.owner = state.current_battle.currentActiveOrganisation) :
    think env self state u interrupt = ({ self with active := false }, NULLTUPLE2) := by
  simp [think, hmode, hown]

theorem think_of_active (env : Env) (self : UnitAIDefault) (state : GameState)
    (u : BattleUnit) (interrupt : Bool)
    (hact : state.current_battle.mode = BattleMode.RealTime ∨
      u.owner ≠ state.current_battle.currentActiveOrganisation) :
    think env self state u interrupt =
      ({ (thinkSteps env self state u).self with attackerPosition := NONE },
        ⟨(thinkSteps env self state u).action, (thinkSteps env self state u).movement⟩,
        (thinkSteps env self state u).action.isSome ||
          (thinkSteps env self state u).movement.isSome) := by
  have h : (decide (state.current_battle.mode = BattleMode.RealTime) ||
      decide (u.owner ≠ state.current_battle.currentActiveOrganisation)) = true := by
    rcases hact with h | h <;> simp [h]
  simp only [think, thinkSteps]
  rw [h]
  simp

theorem active_or_inactive (state : GameState) (u : BattleUnit) :
    (state.current_battle.mode = BattleMode.RealTime ∨
      u.owner ≠ state.current_battle.currentActiveOrganisation) ∨
    (state.current_battle.mode = BattleMode.TurnBased ∧
      u.owner = state.current_battle.currentActiveOrganisation) := by
  cases hm : state.current_battle.mode
  · exact Or.inl (Or.inl rfl)
  · by_cases ho : u.owner = state.current_battle.currentActiveOrganisation
    · exact Or.inr ⟨rfl, ho⟩
    · exact Or.inl (Or.inr ho)

theorem enzymeRunning_self (state : GameState) (u : BattleUnit) (v : ThinkVars) :
    (enzymeRunning state u v).self = v.self := by
  unfold enzymeRunning
  split
  · split <;> rfl
  · rfl

theorem enzymeRunning_action (state : GameState) (u : BattleUnit) (v : ThinkVars) :
    (enzymeRunning state u v).action = v.action := by
  unfold enzymeRunning
  split
  · split <;> rfl
  · rfl

theorem enzymeRunning_movement (state : GameState) (u : BattleUnit) (v : ThinkVars)
    (h : enzymeGate state u = false ∨ possiblePositions u = []) :
    (enzymeRunning state u v).movement = v.movement := by
  unfold enzymeRunning
  rcases h with h | h
  · simp [h]
  · simp [h]

theorem turnToAttacker_action (env : Env) (state : GameState) (u : BattleUnit)
    (v : ThinkVars) : (turnToAttacker env state u v).action = v.action := by
  unfold turnToAttacker
  split <;> rfl

theorem turnToAttacker_target (env : Env) (state : GameState) (u : BattleUnit)
    (v : ThinkVars) :
    (turnToAttacker env state u v).self.ticksAutoTargetAvailable
      = v.self.ticksAutoTargetAvailable := by
  unfold turnToAttacker
  split <;> rfl

theorem turnToAttacker_fires (env : Env) (state : GameState) (u : BattleUnit)
    (v : ThinkVars)
    (h : v.self.attackerPosition ≠ NONE ∧ u.isBusy = false ∧ u.isConscious = true ∧
      v.self.ticksAutoTurnAvailable ≤ state.ticks) :
    turnToAttacker env state u v =
      { v with
        movement := some (turnMovement
          (Vec3.add u.position (Vec3.toFloat v.self.attackerPosition)))
        self := { v.self with
                  ticksAutoTurnAvailable := state.ticks + AUTO_TURN_COOLDOWN env } } := by
  unfold turnToAttacker
  rw [if_pos h]

theorem turnToAttacker_skips (env : Env) (state : GameState) (u : BattleUnit)
    (v : ThinkVars)
    (h : ¬ (v.self.attackerPosition ≠ NONE ∧ u.isBusy = false ∧ u.isConscious = true ∧
      v.self.ticksAutoTurnAvailable ≤ state.ticks)) :
    turnToAttacker env state u v = v := by
  unfold turnToAttacker
  rw [if_neg h]

theorem attackEnemy_movement (env : Env) (state : GameState) (u : BattleUnit)
    (rt : Bool) (v : ThinkVars) : (attackEnemy env state u rt v).movement = v.movement := by
  unfold attackEnemy
  split
  · split <;> rfl
  · rfl

theorem attackEnemy_turn (env : Env) (state : GameState) (u : BattleUnit)
    (rt : Bool) (v : ThinkVars) :
    (attackEnemy env state u rt v).self.ticksAutoTurnAvailable
      = v.self.ticksAutoTurnAvailable := by
  unfold attackEnemy
  split
  · split <;> rfl
  · rfl

theorem faceEnemy_action (env : Env) (state : GameState) (u : BattleUnit)
    (rt : Bool) (v : ThinkVars) : (faceEnemy env state u rt v).action = v.action := by
  unfold faceEnemy
  split
  · split <;> rfl
  · rfl

theorem faceEnemy_target (env : Env) (state : GameState) (u : BattleUnit)
    (rt : Bool) (v : ThinkVars) :
    (faceEnemy env state u rt v).self.ticksAutoTargetAvailable
      = v.self.ticksAutoTargetAvailable := by
  unfold faceEnemy
  split
  · split <;> rfl
  · rfl

/-- A `Turn` movement stays a `Turn` movement through the facing branch. -/
theorem faceEnemy_movement_turn (env : Env) (state : GameState) (u : BattleUnit)
    (rt : Bool) (v : ThinkVars)
    (h : ∃ m, v.movement = some m ∧ m.type = AIMovementType.Turn) :
    ∃ m, (faceEnemy env state u rt v).movement = some m ∧ m.type = AIMovementType.Turn := by
  unfold faceEnemy
  split
  · split
    · exact ⟨_, rfl, rfl⟩
    · exact h
  · exact h

/-- The turn-cooldown through the facing branch: unchanged, or renewed after it
had elapsed. -/
theorem faceEnemy_turn (env : Env) (state : GameState) (u : BattleUnit)
    (rt : Bool) (v : ThinkVars) :
    (faceEnemy env state u rt v).self.ticksAutoTurnAvailable = v.self.ticksAutoTurnAvailable ∨
    ((faceEnemy env state u rt v).self.ticksAutoTurnAvailable
        = state.ticks + AUTO_TURN_COOLDOWN env ∧
      v.self.ticksAutoTurnAvailable ≤ state.ticks) := by
  unfold faceEnemy
  split
  · rename_i h
    split
    · exact Or.inr ⟨rfl, h.1⟩
    · exact Or.inl rfl
  · exact Or.inl rfl

/-- The target-cooldown through the attack branch. -/
theorem attackEnemy_target (env : Env) (state : GameState) (u : BattleUnit)
    (rt : Bool) (v : ThinkVars) :
    (attackEnemy env state u rt v).self.ticksAutoTargetAvailable
        = v.self.ticksAutoTargetAvailable ∨
    ((attackEnemy env state u rt v).self.ticksAutoTargetAvailable
        = state.ticks + AUTO_TARGET_COOLDOWN env ∧
      v.self.ticksAutoTargetAvailable ≤ state.ticks) := by
  unfold attackEnemy
  split
  · rename_i h
    split
    · exact Or.inl rfl
    · exact Or.inr ⟨rfl, h⟩
  · exact Or.inl rfl

theorem turnToAttacker_turn (env : Env) (state : GameState) (u : BattleUnit)
    (v : ThinkVars) :
    (turnToAttacker env state u v).self.ticksAutoTurnAvailable = v.self.ticksAutoTurnAvailable ∨
    ((turnToAttacker env state u v).self.ticksAutoTurnAvailable
        = state.ticks + AUTO_TURN_COOLDOWN env ∧
      v.self.ticksAutoTurnAvailable ≤ state.ticks) := by
  unfold turnToAttacker
  split
  · rename_i h
    exact Or.inr ⟨rfl, h.2.2.2⟩
  · exact Or.inl rfl

theorem attackOrFaceEnemy_turn (env : Env) (state : GameState) (u : BattleUnit)
    (rt : Bool) (v : ThinkVars) :
    (attackOrFaceEnemy env state u rt v).self.ticksAutoTurnAvailable
        = v.self.ticksAutoTurnAvailable ∨
    ((attackOrFaceEnemy env state u rt v).self.ticksAutoTurnAvailable
        = state.ticks + AUTO_TURN_COOLDOWN env ∧
      v.self.ticksAutoTurnAvailable ≤ state.ticks) := by
  unfold attackOrFaceEnemy
  split
  · split
    · exact faceEnemy_turn env state u rt v
    · exact Or.inl (attackEnemy_turn env state u rt v)
  · exact Or.inl rfl

theorem attackOrFaceEnemy_target (env : Env) (state : GameState) (u : BattleUnit)
    (rt : Bool) (v : ThinkVars) :
    (attackOrFaceEnemy env state u rt v).self.ticksAutoTargetAvailable
        = v.self.ticksAutoTargetAvailable ∨
    ((attackOrFaceEnemy env state u rt v).self.ticksAutoTargetAvailable
        = state.ticks + AUTO_TARGET_COOLDOWN env ∧
      v.self.ticksAutoTargetAvailable ≤ state.ticks) := by
  unfold attackOrFaceEnemy
  split
  · split
    · exact Or.inl (faceEnemy_target env state u rt v)
    · exact attackEnemy_target env state u rt v
  · exact Or.inl rfl

/-- The turn-cooldown after the three steps of `think`. -/
theorem thinkSteps_turn (env : Env) (self : UnitAIDefault) (state : GameState)
    (u : BattleUnit) :
    (thinkSteps env self state u).self.ticksAutoTurnAvailable = self.ticksAutoTurnAvailable ∨
    ((thinkSteps env self state u).self.ticksAutoTurnAvailable
        = state.ticks + AUTO_TURN_COOLDOWN env ∧
      self.ticksAutoTurnAvailable ≤ state.ticks) := by
  unfold thinkSteps
  rw [enzymeRunning_self]
  rcases attackOrFaceEnemy_turn env state u
      (decide (state.current_battle.mode = BattleMode.RealTime))
      (turnToAttacker env state u ⟨{ self with active := true }, none, none⟩) with h | ⟨h, h2⟩
  · rw [h]
    exact turnToAttacker_turn env state u ⟨{ self with active := true }, none, none⟩
  · rcases turnToAttacker_turn env state u ⟨{ self with active := true }, none, none⟩
      with h3 | ⟨_, h4⟩
    · rw [h3] at h2
      exact Or.inr ⟨h, h2⟩
    · exact Or.inr ⟨h, h4⟩

/-- The target-cooldown after the three steps of `think`. -/
theorem thinkSteps_target (env : Env) (self : UnitAIDefault) (state : GameState)
    (u : BattleUnit) :
    (thinkSteps env self state u).self.ticksAutoTargetAvailable
        = self.ticksAutoTargetAvailable ∨
    ((thinkSteps env self state u).self.ticksAutoTargetAvailable
        = state.ticks + AUTO_TARGET_COOLDOWN env ∧
      self.ticksAutoTargetAvailable ≤ state.ticks) := by
  unfold thinkSteps
  rw [enzymeRunning_self]
  rcases attackOrFaceEnemy_target env state u
      (decide (state.current_battle.mode = BattleMode.RealTime))
      (turnToAttacker env state u ⟨{ self with active := true }, none, none⟩) with h | ⟨h, h2⟩
  · rw [h, turnToAttacker_target]
    exact Or.inl rfl
  · rw [turnToAttacker_target] at h2
    exact Or.inr ⟨h, h2⟩

/-! ## Claims -/

/-- C4: in turn-based mode, when the owner of the combatant is the currently
active organisation, `think` returns the empty decision (no action, no
movement) with `handled = false`, and neither cooldown changes; this holds for
every engine state, every combatant and every value of `interrupt`. -/
theorem C4_own_turn_returns_empty (env : Env) (self : UnitAIDefault) (state : GameState)
    (u : BattleUnit) (interrupt : Bool)
    (hmode : state.current_battle.mode = BattleMode.TurnBased)
    (hown : u.owner = state.current_battle.currentActiveOrganisation) :
    (think env self state u interrupt).2.1 = ⟨none, none⟩ ∧
    (think env self state u interrupt).2.2 = false ∧
    (think env self state u interrupt).1.ticksAutoTurnAvailable
      = self.ticksAutoTurnAvailable ∧
    (think env self state u interrupt).1.ticksAutoTargetAvailable
      = self.ticksAutoTargetAvailable := by
  rw [think_of_inactive env self state u interrupt hmode hown]
  exact ⟨rfl, rfl, rfl, rfl⟩

/-- Witness of C4: the soldier of organisation 0 on the turn of organisation 0,
with an attacker position recorded and an enemy in view. -/
theorem C4_own_turn_returns_empty_witness :
    (think sampleEnv (notifyHit freshEngine ⟨5, 0, 2⟩)
        (sampleState BattleMode.TurnBased 0 [⟨7, ⟨23 / 2, 21 / 2, 1⟩, true, AIType.Threatening⟩])
        soldier false).2.1 = ⟨none, none⟩ ∧
    (think sampleEnv (notifyHit freshEngine ⟨5, 0, 2⟩)
        (sampleState BattleMode.TurnBased 0 [⟨7, ⟨23 / 2, 21 / 2, 1⟩, true, AIType.Threatening⟩])
        soldier false).2.2 = false ∧
    (think sampleEnv (notifyHit freshEngine ⟨5, 0, 2⟩)
        (sampleState BattleMode.TurnBased 0 [⟨7, ⟨23 / 2, 21 / 2, 1⟩, true, AIType.Threatening⟩])
        soldier false).1.ticksAutoTurnAvailable
      = (notifyHit freshEngine ⟨5, 0, 2⟩).ticksAutoTurnAvailable ∧
    (think sampleEnv (notifyHit freshEngine ⟨5, 0, 2⟩)
        (sampleState BattleMode.TurnBased 0 [⟨7, ⟨23 / 2, 21 / 2, 1⟩, true, AIType.Threatening⟩])
        soldier false).1.ticksAutoTargetAvailable
      = (notifyHit freshEngine ⟨5, 0, 2⟩).ticksAutoTargetAvailable :=
  C4_own_turn_returns_empty sampleEnv (notifyHit freshEngine ⟨5, 0, 2⟩)
    (sampleState BattleMode.TurnBased 0 [⟨7, ⟨23 / 2, 21 / 2, 1⟩, true, AIType.Threatening⟩])
    soldier false rfl rfl

/-- C5, counterexample: in turn-based mode on the own turn of the combatant the
early return of `think` leaves the recorded attacker position `(5, 0, 2)` in
place, so it is not the sentinel after the call. -/
theorem C5_inactive_return_keeps_attacker_position :
    (think sampleEnv (notifyHit freshEngine ⟨5, 0, 2⟩)
        (sampleState BattleMode.TurnBased 0 []) soldier false).1.attackerPosition
      = ⟨5, 0, 2⟩ ∧
    (think sampleEnv (notifyHit freshEngine ⟨5, 0, 2⟩)
        (sampleState BattleMode.TurnBased 0 []) soldier false).1.attackerPosition ≠ NONE := by
  rw [think_of_inactive sampleEnv _ (sampleState BattleMode.TurnBased 0 []) soldier false rfl rfl]
  exact ⟨rfl, by decide⟩

/-- C5, amended: after a call of `think` in which the engine is active (real
time, or turn based with another organisation holding the turn) the recorded
attacker position is the sentinel `NONE`, whatever branch is taken. -/
theorem C5_active_call_clears_attacker_position (env : Env) (self : UnitAIDefault)
    (state : GameState) (u : BattleUnit) (interrupt : Bool)
    (hact : state.current_battle.mode = BattleMode.RealTime ∨
      u.owner ≠ state.current_battle.currentActiveOrganisation) :
    (think env self state u interrupt).1.attackerPosition = NONE := by
  rw [think_of_active env self state u interrupt hact]

/-- Witness of the amended C5: a real-time call with an attacker position
recorded. -/
theorem C5_active_call_clears_attacker_position_witness :
    (think sampleEnv (notifyHit freshEngine ⟨5, 0, 2⟩)
        (sampleState BattleMode.RealTime 0 []) soldier false).1.attackerPosition = NONE :=
  C5_active_call_clears_attacker_position sampleEnv (notifyHit freshEngine ⟨5, 0, 2⟩)
    (sampleState BattleMode.RealTime 0 []) soldier false (Or.inl rfl)

/-- C8: for every call of `think` at tick `state.ticks`, each cooldown after
the call is at least its value before the call: it is either unchanged, or set
to `state.ticks` plus its cooldown constant, and it is set only when its old
value was at most `state.ticks`.  Hence along every sequence of calls of
`think`, `notifyUnderFire` and `notifyHit` (no `reset`) both cooldowns are
non-decreasing: their values after a prefix of the sequence are at most their
values after the whole sequence. -/
theorem C8_cooldowns_non_decreasing (env : Env) (self : UnitAIDefault) (state : GameState)
    (u : BattleUnit) (interrupt : Bool) (events more : List Event) :
    (self.ticksAutoTurnAvailable ≤ (think env self state u interrupt).1.ticksAutoTurnAvailable ∧
     ((think env self state u interrupt).1.ticksAutoTurnAvailable
          = self.ticksAutoTurnAvailable ∨
      ((think env self state u interrupt).1.ticksAutoTurnAvailable
          = state.ticks + AUTO_TURN_COOLDOWN env ∧
        self.ticksAutoTurnAvailable ≤ state.ticks)) ∧
     self.ticksAutoTargetAvailable
        ≤ (think env self state u interrupt).1.ticksAutoTargetAvailable ∧
     ((think env self state u interrupt).1.ticksAutoTargetAvailable
          = self.ticksAutoTargetAvailable ∨
      ((think env self state u interrupt).1.ticksAutoTargetAvailable
          = state.ticks + AUTO_TARGET_COOLDOWN env ∧
        self.ticksAutoTargetAvailable ≤ state.ticks))) ∧
    ((run env self events).ticksAutoTurnAvailable
        ≤ (run env self (events ++ more)).ticksAutoTurnAvailable ∧
     (run env self events).ticksAutoTargetAvailable
        ≤ (run env self (events ++ more)).ticksAutoTargetAvailable) := by
  have single : ∀ (s : UnitAIDefault) (st : GameState) (w : BattleUnit) (i : Bool),
      (s.ticksAutoTurnAvailable ≤ (think env s st w i).1.ticksAutoTurnAvailable ∧
       ((think env s st w i).1.ticksAutoTurnAvailable = s.ticksAutoTurnAvailable ∨
        ((think env s st w i).1.ticksAutoTurnAvailable = st.ticks + AUTO_TURN_COOLDOWN env ∧
          s.ticksAutoTurnAvailable ≤ st.ticks)) ∧
       s.ticksAutoTargetAvailable ≤ (think env s st w i).1.ticksAutoTargetAvailable ∧
       ((think env s st w i).1.ticksAutoTargetAvailable = s.ticksAutoTargetAvailable ∨
        ((think env s st w i).1.ticksAutoTargetAvailable
            = st.ticks + AUTO_TARGET_COOLDOWN env ∧
          s.ticksAutoTargetAvailable ≤ st.ticks))) := by
    intro s st w i
    rcases active_or_inactive st w with hact | ⟨hm, ho⟩
    · rw [think_of_active env s st w i hact]
      have h1 := thinkSteps_turn env s st w
      have h2 := thinkSteps_target env s st w
      refine ⟨?_, h1, ?_, h2⟩
      · rcases h1 with h | ⟨h, h'⟩
        · exact le_of_eq h.symm
        · show s.ticksAutoTurnAvailable ≤ (thinkSteps env s st w).self.ticksAutoTurnAvailable
          omega
      · rcases h2 with h | ⟨h, h'⟩
        · exact le_of_eq h.symm
        · show s.ticksAutoTargetAvailable
            ≤ (thinkSteps env s st w).self.ticksAutoTargetAvailable
          omega
    · rw [think_of_inactive env s st w i hm ho]
      exact ⟨le_refl _, Or.inl rfl, le_refl _, Or.inl rfl⟩
  refine ⟨single self state u interrupt, ?_⟩
  have step : ∀ (s : UnitAIDefault) (ev : Event),
      s.ticksAutoTurnAvailable ≤ (applyEvent env s ev).ticksAutoTurnAvailable ∧
      s.ticksAutoTargetAvailable ≤ (applyEvent env s ev).ticksAutoTargetAvailable := by
    intro s ev
    cases ev with
    | think st w i => exact ⟨(single s st w i).1, (single s st w i).2.2.1⟩
    | notifyUnderFire p => exact ⟨le_refl _, le_refl _⟩
    | notifyHit p => exact ⟨le_refl _, le_refl _⟩
  have mono : ∀ (l : List Event) (s : UnitAIDefault),
      s.ticksAutoTurnAvailable ≤ (run env s l).ticksAutoTurnAvailable ∧
      s.ticksAutoTargetAvailable ≤ (run env s l).ticksAutoTargetAvailable := by
    intro l
    induction l with
    | nil => intro s; exact ⟨le_refl _, le_refl _⟩
    | cons ev t ih =>
      intro s
      have h1 := step s ev
      have h2 := ih (applyEvent env s ev)
      simp only [run, List.foldl_cons] at h2 ⊢
      exact ⟨le_trans h1.1 h2.1, le_trans h1.2 h2.2⟩
  have hsplit : run env self (events ++ more) = run env (run env self events) more := by
    simp [run, List.foldl_append]
  rw [hsplit]
  exact mono more (run env self events)

theorem attackOrFaceEnemy_movement_turn (env : Env) (state : GameState) (u : BattleUnit)
    (rt : Bool) (v : ThinkVars)
    (h : ∃ m, v.movement = some m ∧ m.type = AIMovementType.Turn) :
    ∃ m, (attackOrFaceEnemy env state u rt v).movement = some m ∧
      m.type = AIMovementType.Turn := by
  unfold attackOrFaceEnemy
  split
  · split
    · exact faceEnemy_movement_turn env state u rt v h
    · rw [attackEnemy_movement]; exact h
  · exact h

/-- While the turn-cooldown is running the attack-or-face step leaves the
movement alone. -/
theorem attackOrFaceEnemy_movement_of_cooldown (env : Env) (state : GameState)
    (u : BattleUnit) (rt : Bool) (v : ThinkVars)
    (h : state.ticks < v.self.ticksAutoTurnAvailable) :
    (attackOrFaceEnemy env state u rt v).movement = v.movement := by
  unfold attackOrFaceEnemy
  split
  · split
    · unfold faceEnemy
      have : ¬ (v.self.ticksAutoTurnAvailable ≤ state.ticks ∧ u.isMoving = false) := by
        intro hc; omega
      rw [if_neg this]
    · exact attackEnemy_movement env state u rt v
  · rfl

theorem attackOrFaceEnemy_action_of_cannotFire (env : Env) (state : GameState)
    (u : BattleUnit) (rt : Bool) (v : ThinkVars) (h : cannotFire u = true) :
    (attackOrFaceEnemy env state u rt v).action = v.action := by
  unfold attackOrFaceEnemy
  rw [if_pos h]
  split
  · exact faceEnemy_action env state u rt v
  · rfl

/-- C6: for an active engine with a recorded attacker position different from
`NONE`, a combatant that is not busy and is conscious, and an elapsed
turn-cooldown, `think` sets the turn-cooldown to exactly
`state.ticks + AUTO_TURN_COOLDOWN`; and when the attack branch emits no action
and the enzyme wandering does not produce a movement, it returns
`handled = true` with a movement of type `Turn` and no action. -/
theorem C6_idle_turn_sets_cooldown (env : Env) (self : UnitAIDefault) (state : GameState)
    (u : BattleUnit) (interrupt : Bool)
    (hact : state.current_battle.mode = BattleMode.RealTime ∨
      u.owner ≠ state.current_battle.currentActiveOrganisation)
    (hpos : self.attackerPosition ≠ NONE)
    (hbusy : u.isBusy = false)
    (hcon : u.isConscious = true)
    (hcd : self.ticksAutoTurnAvailable ≤ state.ticks) :
    (think env self state u interrupt).1.ticksAutoTurnAvailable
      = state.ticks + AUTO_TURN_COOLDOWN env ∧
    ((think env self state u interrupt).2.1.action = none →
      (enzymeGate state u = false ∨ possiblePositions u = []) →
      (think env self state u interrupt).2.2 = true ∧
      (think env self state u interrupt).2.1.action = none ∧
      ∃ m, (think env self state u interrupt).2.1.movement = some m ∧
        m.type = AIMovementType.Turn) := by
  rw [think_of_active env self state u interrupt hact]
  have hfire := turnToAttacker_fires env state u ⟨{ self with active := true }, none, none⟩
    ⟨hpos, hbusy, hcon, hcd⟩
  constructor
  · show (thinkSteps env self state u).self.ticksAutoTurnAvailable = _
    unfold thinkSteps
    rw [enzymeRunning_self]
    rcases attackOrFaceEnemy_turn env state u
      (decide (state.current_battle.mode = BattleMode.RealTime))
      (turnToAttacker env state u ⟨{ self with active := true }, none, none⟩) with h | ⟨h, _⟩
    · rw [h, hfire]
    · exact h
  · intro hnone hw
    have hmov : ∃ m, (thinkSteps env self state u).movement = some m ∧
        m.type = AIMovementType.Turn := by
      unfold thinkSteps
      rw [enzymeRunning_movement _ _ _ hw]
      apply attackOrFaceEnemy_movement_turn
      rw [hfire]
      exact ⟨_, rfl, rfl⟩
    obtain ⟨m, hm, hmt⟩ := hmov
    refine ⟨?_, hnone, m, hm, hmt⟩
    show ((thinkSteps env self state u).action.isSome ||
      (thinkSteps env self state u).movement.isSome) = true
    rw [hm]
    simp

/-- Witness of C6: the soldier in real time with the attacker position
`(5, 0, 2)` recorded, no enemy in view and no enzyme debuff. -/
theorem C6_idle_turn_sets_cooldown_witness :
    (think sampleEnv (notifyHit freshEngine ⟨5, 0, 2⟩)
        (sampleState BattleMode.RealTime 0 []) soldier false).1.ticksAutoTurnAvailable
      = (sampleState BattleMode.RealTime 0 []).ticks + AUTO_TURN_COOLDOWN sampleEnv ∧
    (think sampleEnv (notifyHit freshEngine ⟨5, 0, 2⟩)
        (sampleState BattleMode.RealTime 0 []) soldier false).2.2 = true ∧
    (think sampleEnv (notifyHit freshEngine ⟨5, 0, 2⟩)
        (sampleState BattleMode.RealTime 0 []) soldier false).2.1.action = none ∧
    ∃ m, (think sampleEnv (notifyHit freshEngine ⟨5, 0, 2⟩)
        (sampleState BattleMode.RealTime 0 []) soldier false).2.1.movement = some m ∧
      m.type = AIMovementType.Turn :=
  have h := C6_idle_turn_sets_cooldown sampleEnv (notifyHit freshEngine ⟨5, 0, 2⟩)
    (sampleState BattleMode.RealTime 0 []) soldier false (Or.inl rfl) (by decide) rfl rfl
    (by decide)
  ⟨h.1, h.2 (by decide) (Or.inl (by decide))⟩

/-- The movement left by the idle turn-to-attacker step after a notification,
and the movement `think` returns when the turn-cooldown constant is positive and
the enzyme wandering produces no movement. -/
theorem turnToAttacker_movement_after_notify (env : Env) (self : UnitAIDefault)
    (state : GameState) (u : BattleUnit) (interrupt : Bool) (p : Vec3 ℤ)
    (hact : state.current_battle.mode = BattleMode.RealTime ∨
      u.owner ≠ state.current_battle.currentActiveOrganisation)
    (hp : p ≠ NONE)
    (hbusy : u.isBusy = false)
    (hcon : u.isConscious = true)
    (hcd : self.ticksAutoTurnAvailable ≤ state.ticks) :
    (turnToAttacker env state u ⟨notifyHit self p, none, none⟩).movement
      = some (turnMovement (Vec3.add u.position (Vec3.toFloat p))) ∧
    (turnToAttacker env state u ⟨notifyUnderFire self p, none, none⟩).movement
      = some (turnMovement (Vec3.add u.position (Vec3.toFloat p))) ∧
    (0 < env.TICKS_PER_TURN →
      (enzymeGate state u = false ∨ possiblePositions u = []) →
      (think env (notifyHit self p) state u interrupt).2.1.movement
        = some (turnMovement (Vec3.add u.position (Vec3.toFloat p))) ∧
      (think env (notifyUnderFire self p) state u interrupt).2.1.movement
        = some (turnMovement (Vec3.add u.position (Vec3.toFloat p)))) := by
  have step : ∀ s : UnitAIDefault, s.attackerPosition = p →
      s.ticksAutoTurnAvailable ≤ state.ticks →
      (turnToAttacker env state u ⟨s, none, none⟩).movement
        = some (turnMovement (Vec3.add u.position (Vec3.toFloat p))) := by
    intro s hs hscd
    rw [turnToAttacker_fires env state u ⟨s, none, none⟩
      ⟨by rw [hs]; exact hp, hbusy, hcon, hscd⟩]
    simp only [hs]
  have key : 0 < env.TICKS_PER_TURN →
      (enzymeGate state u = false ∨ possiblePositions u = []) →
      ∀ s : UnitAIDefault, s.attackerPosition = p →
      s.ticksAutoTurnAvailable ≤ state.ticks →
      (think env s state u interrupt).2.1.movement
        = some (turnMovement (Vec3.add u.position (Vec3.toFloat p))) := by
    intro hT hw s hs hscd
    rw [think_of_active env s state u interrupt hact]
    show (thinkSteps env s state u).movement = _
    unfold thinkSteps
    rw [enzymeRunning_movement _ _ _ hw]
    have hfire := turnToAttacker_fires env state u ⟨{ s with active := true }, none, none⟩
      ⟨by rw [hs]; exact hp, hbusy, hcon, hscd⟩
    rw [attackOrFaceEnemy_movement_of_cooldown, hfire]
    · simp only [hs]
    · rw [hfire]
      show state.ticks < state.ticks + AUTO_TURN_COOLDOWN env
      unfold AUTO_TURN_COOLDOWN
      omega
  exact ⟨step (notifyHit self p) rfl hcd, step (notifyUnderFire self p) rfl hcd,
    fun hT hw => ⟨key hT hw (notifyHit self p) rfl hcd,
      key hT hw (notifyUnderFire self p) rfl hcd⟩⟩

/-! ## The attack branch in real time without a usable focus unit -/

theorem attackOrFaceGate_of (state : GameState) (u : BattleUnit)
    (hcon : u.isConscious = true) (hatt : u.isAttacking = false)
    (hvis : state.current_battle.visibleEnemies u.owner ≠ [])
    (hsnooze : u.missions.head? ≠ some BattleUnitMissionType.Snooze) :
    attackOrFaceGate state u = true := by
  unfold attackOrFaceGate
  have h1 : (state.current_battle.visibleEnemies u.owner).isEmpty = false := by
    cases h : state.current_battle.visibleEnemies u.owner with
    | nil => exact absurd h hvis
    | cons a t => rfl
  simp [hcon, hatt, h1, hsnooze]

theorem attackTarget_scan (env : Env) (u : BattleUnit) (enemies : List UnitRef)
    (hfocus : focusUnusableForAttack u enemies = true) :
    attackTarget env true u enemies
      = pickAttackable u (enemiesByDistance env u enemies) (focusWeaponStatus u) := by
  simp [attackTarget, hfocus]

theorem attackEnemy_found (env : Env) (state : GameState) (u : BattleUnit) (rt : Bool)
    (v : ThinkVars) (t : UnitRef) (ws : WeaponStatus)
    (hcd : v.self.ticksAutoTargetAvailable ≤ state.ticks)
    (h : attackTarget env rt u (state.current_battle.visibleEnemies u.owner) = (some t, ws)) :
    attackEnemy env state u rt v =
      { v with action := some { type := AIActionType.AttackWeaponUnit,
                                targetUnit := t, weaponStatus := ws } } := by
  unfold attackEnemy
  rw [if_pos hcd, h]

theorem attackEnemy_not_found (env : Env) (state : GameState) (u : BattleUnit) (rt : Bool)
    (v : ThinkVars)
    (hcd : v.self.ticksAutoTargetAvailable ≤ state.ticks)
    (h : (attackTarget env rt u (state.current_battle.visibleEnemies u.owner)).1 = none) :
    attackEnemy env state u rt v =
      { v with self := { v.self with
          ticksAutoTargetAvailable := state.ticks + AUTO_TARGET_COOLDOWN env } } := by
  unfold attackEnemy
  rw [if_pos hcd]
  cases hq : attackTarget env rt u (state.current_battle.visibleEnemies u.owner) with
  | mk a b =>
    rw [hq] at h
    simp only at h
    subst h
    rfl

/-- In real time, with the attack-or-face gate open and firing possible, the
action and the engine state of `think` come from the attack branch applied to
the variables left by the turn-to-attacker step. -/
theorem thinkSteps_attack (env : Env) (self : UnitAIDefault) (state : GameState)
    (u : BattleUnit)
    (hmode : state.current_battle.mode = BattleMode.RealTime)
    (hgate : attackOrFaceGate state u = true)
    (hfire : cannotFire u = false) :
    (thinkSteps env self state u).action
      = (attackEnemy env state u true
          (turnToAttacker env state u ⟨{ self with active := true }, none, none⟩)).action ∧
    (thinkSteps env self state u).self
      = (attackEnemy env state u true
          (turnToAttacker env state u ⟨{ self with active := true }, none, none⟩)).self := by
  unfold thinkSteps
  rw [enzymeRunning_action, enzymeRunning_self]
  unfold attackOrFaceEnemy
  rw [if_pos hgate]
  simp [hfire, hmode]

/-- C3: when the attack branch is entered in real-time mode (combatant
conscious, not attacking, visible enemies non-empty, not snoozing, fire
permitted and some hand item able to fire, target-cooldown elapsed) and the
focus unit is not usable: an action is emitted if and only if some conscious,
threatening visible enemy is accepted by `canAttackUnit`; an emitted action is
an `AttackWeaponUnit` on such an enemy, carries `canAttackUnit` of its target
as weapon status, which is not `NotFiring`, and leaves the target-cooldown
unchanged; when no action is emitted the target-cooldown becomes
`state.ticks + AUTO_TARGET_COOLDOWN`. -/
theorem C3_attack_branch_outcome (env : Env) (self : UnitAIDefault) (state : GameState)
    (u : BattleUnit) (interrupt : Bool)
    (hmode : state.current_battle.mode = BattleMode.RealTime)
    (hcon : u.isConscious = true)
    (hatt : u.isAttacking = false)
    (hvis : state.current_battle.visibleEnemies u.owner ≠ [])
    (hsnooze : u.missions.head? ≠ some BattleUnitMissionType.Snooze)
    (hfire : cannotFire u = false)
    (hcd : self.ticksAutoTargetAvailable ≤ state.ticks)
    (hfocus : focusUnusableForAttack u (state.current_battle.visibleEnemies u.owner) = true) :
    ((∃ a, (think env self state u interrupt).2.1.action = some a) ↔
      ∃ e ∈ state.current_battle.visibleEnemies u.owner,
        e.isConscious = true ∧ e.getAIType ≠ AIType.None ∧
        u.canAttackUnit e ≠ WeaponStatus.NotFiring) ∧
    (∀ a, (think env self state u interrupt).2.1.action = some a →
      a.type = AIActionType.AttackWeaponUnit ∧
      a.targetUnit ∈ state.current_battle.visibleEnemies u.owner ∧
      a.targetUnit.isConscious = true ∧ a.targetUnit.getAIType ≠ AIType.None ∧
      a.weaponStatus = u.canAttackUnit a.targetUnit ∧
      a.weaponStatus ≠ WeaponStatus.NotFiring ∧
      (think env self state u interrupt).1.ticksAutoTargetAvailable
        = self.ticksAutoTargetAvailable) ∧
    ((think env self state u interrupt).2.1.action = none →
      (think env self state u interrupt).1.ticksAutoTargetAvailable
        = state.ticks + AUTO_TARGET_COOLDOWN env) := by
  have hharm : ∀ e : UnitRef, harmless e = false ↔
      (e.isConscious = true ∧ e.getAIType ≠ AIType.None) := by
    intro e
    simp [harmless]
  rw [think_of_active env self state u interrupt (Or.inl hmode)]
  obtain ⟨hact, hself⟩ := thinkSteps_attack env self state u hmode
    (attackOrFaceGate_of state u hcon hatt hvis hsnooze) hfire
  have hcd1 : (turnToAttacker env state u
      ⟨{ self with active := true }, none, none⟩).self.ticksAutoTargetAvailable
        ≤ state.ticks := by
    rw [turnToAttacker_target]; exact hcd
  have hscan := attackTarget_scan env u _ hfocus
  show ((∃ a, (thinkSteps env self state u).action = some a) ↔ _) ∧
    (∀ a, (thinkSteps env self state u).action = some a → _ ∧ _ ∧ _ ∧ _ ∧ _ ∧ _ ∧
      (thinkSteps env self state u).self.ticksAutoTargetAvailable = _) ∧
    ((thinkSteps env self state u).action = none →
      (thinkSteps env self state u).self.ticksAutoTargetAvailable = _)
  rw [hact, hself]
  cases hp : pickAttackable u (enemiesByDistance env u
      (state.current_battle.visibleEnemies u.owner)) (focusWeaponStatus u) with
  | mk ot ws =>
    cases ot with
    | some t =>
      rw [attackEnemy_found env state u true _ t ws hcd1 (hscan.trans hp)]
      obtain ⟨⟨k, hk⟩, hws, hne⟩ := pickAttackable_some u _ _ t ws hp
      have hmem := (mem_enemiesByDistance env u _ t).1 ⟨k, hk⟩
      have helig := (hharm t).1 hmem.2
      refine ⟨⟨fun _ => ⟨t, hmem.1, helig.1, helig.2, hws ▸ hne⟩, fun _ => ⟨_, rfl⟩⟩, ?_, ?_⟩
      · intro a ha
        have ha2 : a = (⟨AIActionType.AttackWeaponUnit, t, ws⟩ : AIAction) :=
          (Option.some.inj ha).symm
        subst ha2
        refine ⟨rfl, hmem.1, helig.1, helig.2, hws, hne, ?_⟩
        show (turnToAttacker env state u
          ⟨{ self with active := true }, none, none⟩).self.ticksAutoTargetAvailable = _
        rw [turnToAttacker_target]
      · intro h
        cases h
    | none =>
      have hnone : (attackTarget env true u
          (state.current_battle.visibleEnemies u.owner)).1 = none := by
        rw [hscan, hp]
      rw [attackEnemy_not_found env state u true _ hcd1 hnone]
      have hall := (pickAttackable_none u (enemiesByDistance env u
        (state.current_battle.visibleEnemies u.owner)) (focusWeaponStatus u)).1
        (by rw [hp])
      have hact0 : (turnToAttacker env state u
          ⟨{ self with active := true }, none, none⟩).action = none := by
        rw [turnToAttacker_action]
      refine ⟨⟨?_, ?_⟩, ?_, fun _ => rfl⟩
      · rintro ⟨a, ha⟩
        rw [show ({ turnToAttacker env state u ⟨{ self with active := true }, none, none⟩ with
            self := { (turnToAttacker env state u
              ⟨{ self with active := true }, none, none⟩).self with
              ticksAutoTargetAvailable := state.ticks + AUTO_TARGET_COOLDOWN env } }
              : ThinkVars).action = none from hact0] at ha
        cases ha
      · rintro ⟨e, he, h1, h2, h3⟩
        obtain ⟨k, hk⟩ := (mem_enemiesByDistance env u _ e).2 ⟨he, (hharm e).2 ⟨h1, h2⟩⟩
        exact absurd (hall (k, e) hk) h3
      · intro a ha
        rw [show ({ turnToAttacker env state u ⟨{ self with active := true }, none, none⟩ with
            self := { (turnToAttacker env state u
              ⟨{ self with active := true }, none, none⟩).self with
              ticksAutoTargetAvailable := state.ticks + AUTO_TARGET_COOLDOWN env } }
              : ThinkVars).action = none from hact0] at ha
        cases ha

/-- Witness of C3: the soldier facing the enemies 1, 2 and 3, of which 2 and
3 can be attacked. -/
theorem C3_attack_branch_outcome_witness :
    ((∃ a, (think sampleEnv freshEngine threeEnemies soldier false).2.1.action = some a) ↔
      ∃ e ∈ threeEnemies.current_battle.visibleEnemies soldier.owner,
        e.isConscious = true ∧ e.getAIType ≠ AIType.None ∧
        soldier.canAttackUnit e ≠ WeaponStatus.NotFiring) ∧
    (∀ a, (think sampleEnv freshEngine threeEnemies soldier false).2.1.action = some a →
      a.type = AIActionType.AttackWeaponUnit ∧
      a.targetUnit ∈ threeEnemies.current_battle.visibleEnemies soldier.owner ∧
      a.targetUnit.isConscious = true ∧ a.targetUnit.getAIType ≠ AIType.None ∧
      a.weaponStatus = soldier.canAttackUnit a.targetUnit ∧
      a.weaponStatus ≠ WeaponStatus.NotFiring ∧
      (think sampleEnv freshEngine threeEnemies soldier false).1.ticksAutoTargetAvailable
        = freshEngine.ticksAutoTargetAvailable) ∧
    ((think sampleEnv freshEngine threeEnemies soldier false).2.1.action = none →
      (think sampleEnv freshEngine threeEnemies soldier false).1.ticksAutoTargetAvailable
        = threeEnemies.ticks + AUTO_TARGET_COOLDOWN sampleEnv) :=
  C3_attack_branch_outcome sampleEnv freshEngine threeEnemies soldier false rfl rfl rfl
    (List.cons_ne_nil _ _) (by decide) rfl (by decide) rfl

/-- C1, the code at the failing input: the soldier sees the enemies 1, 2 and 3
(enumerated in this order) at the Euclidean distances 1, 1 and 129/128 and can
attack 2 and 3.  Enemy 2 collides with the key of enemy 1 and is entered under
the key 1.01, behind enemy 3; `think` attacks enemy 3 although enemy 2 is
conscious, threatening, attackable and strictly nearer. -/
theorem C1_attack_scan_skips_nearer_enemy :
    (∀ e ∈ [enemyA, enemyB, enemyC],
      0 ≤ sampleEnv.distance e.position soldier.position ∧
      sampleEnv.distance e.position soldier.position
          * sampleEnv.distance e.position soldier.position
        = (e.position.x - soldier.position.x) * (e.position.x - soldier.position.x)
          + (e.position.y - soldier.position.y) * (e.position.y - soldier.position.y)
          + (e.position.z - soldier.position.z) * (e.position.z - soldier.position.z)) ∧
    enemiesByDistance sampleEnv soldier [enemyA, enemyB, enemyC]
      = [(1, enemyA), (129 / 128, enemyC), (101 / 100, enemyB)] ∧
    (think sampleEnv freshEngine threeEnemies soldier false).2.1.action
      = some ⟨AIActionType.AttackWeaponUnit, enemyC, WeaponStatus.Firing 0⟩ ∧
    enemyB ∈ threeEnemies.current_battle.visibleEnemies soldier.owner ∧
    enemyB.isConscious = true ∧ enemyB.getAIType ≠ AIType.None ∧
    soldier.canAttackUnit enemyB ≠ WeaponStatus.NotFiring ∧
    sampleEnv.distance enemyB.position soldier.position
      < sampleEnv.distance enemyC.position soldier.position := by
  decide!

/-! ## Lemmas on the facing scan -/

theorem faceScanStep_line (env : Env) (u : BattleUnit) (s : FaceScan) (e : UnitRef)
    (h : lineCandidate u e = true) :
    faceScanStep env u s e =
      if env.distance e.position u.position < s.minDistance then
        { s with minDistance := env.distance e.position u.position, targetEnemy := some e }
      else s := by
  simp only [lineCandidate, Bool.and_eq_true, Bool.not_eq_true'] at h
  simp [faceScanStep, h.1, h.2]

theorem faceScanStep_backup (env : Env) (u : BattleUnit) (s : FaceScan) (e : UnitRef)
    (h : backupCandidate u e = true) :
    faceScanStep env u s e = { s with backupEnemy := some e } := by
  simp only [backupCandidate, Bool.and_eq_true, Bool.not_eq_true'] at h
  simp only [faceScanStep, h.1.1, h.1.2, h.2, Bool.not_false, Bool.false_eq_true, if_true,
    if_false]

theorem faceScanStep_other (env : Env) (u : BattleUnit) (s : FaceScan) (e : UnitRef)
    (h1 : lineCandidate u e = false) (h2 : backupCandidate u e = false) :
    faceScanStep env u s e = s := by
  unfold faceScanStep
  by_cases hh : harmless e = true
  · simp [hh]
  · have hh2 : harmless e = false := by simpa using hh
    simp only [lineCandidate, hh2, Bool.not_false, Bool.true_and] at h1
    simp only [backupCandidate, hh2, h1, Bool.not_false, Bool.true_and] at h2
    simp only [hh2, h1, h2, Bool.not_false, Bool.false_eq_true, if_true, if_false]

theorem candidate_cases (u : BattleUnit) (e : UnitRef) :
    lineCandidate u e = true ∨ backupCandidate u e = true ∨
      (lineCandidate u e = false ∧ backupCandidate u e = false) := by
  cases h1 : lineCandidate u e
  · cases h2 : backupCandidate u e
    · exact Or.inr (Or.inr ⟨rfl, rfl⟩)
    · exact Or.inr (Or.inl rfl)
  · exact Or.inl rfl

theorem not_line_of_backup (u : BattleUnit) (e : UnitRef) (h : backupCandidate u e = true) :
    lineCandidate u e = false := by
  simp only [backupCandidate, Bool.and_eq_true, Bool.not_eq_true'] at h
  simp [lineCandidate, h.1.2]

/-- The fallback after the facing loop is the last enumerated fallback
candidate, or the initial fallback when there is none. -/
theorem foldl_faceScanStep_backup (env : Env) (u : BattleUnit) (l : List UnitRef)
    (s : FaceScan) :
    (l.foldl (faceScanStep env u) s).backupEnemy
      = ((l.filter (backupCandidate u)).getLast?).or s.backupEnemy := by
  induction l generalizing s with
  | nil => simp
  | cons a t ih =>
    rw [List.foldl_cons, ih]
    rcases candidate_cases u a with h | h | ⟨h1, h2⟩
    · have hb : backupCandidate u a = false := by
        cases hb : backupCandidate u a
        · rfl
        · rw [not_line_of_backup u a hb] at h; cases h
      rw [faceScanStep_line env u s a h, List.filter_cons_of_neg (by simp [hb])]
      split <;> rfl
    · rw [faceScanStep_backup env u s a h, List.filter_cons_of_pos h]
      cases hf : t.filter (backupCandidate u) with
      | nil => simp
      | cons b r =>
        rw [List.getLast?_cons_cons, List.getLast?_eq_getLast _ (List.cons_ne_nil b r)]
        rfl
    · rw [faceScanStep_other env u s a h1 h2, List.filter_cons_of_neg (by simp [h2])]

/-- The primary target after the facing loop: either the initial one, or a
line-of-sight candidate of the list whose distance is the final minimum; the
final minimum is below the initial one and below the distance of every
line-of-sight candidate of the list. -/
theorem foldl_faceScanStep_target (env : Env) (u : BattleUnit) (l : List UnitRef)
    (s : FaceScan) :
    (l.foldl (faceScanStep env u) s).minDistance ≤ s.minDistance ∧
    (∀ e ∈ l, lineCandidate u e = true →
      (l.foldl (faceScanStep env u) s).minDistance ≤ env.distance e.position u.position) ∧
    (((l.foldl (faceScanStep env u) s).targetEnemy = s.targetEnemy ∧
        (l.foldl (faceScanStep env u) s).minDistance = s.minDistance) ∨
      ∃ t ∈ l, lineCandidate u t = true ∧
        (l.foldl (faceScanStep env u) s).targetEnemy = some t ∧
        (l.foldl (faceScanStep env u) s).minDistance
          = env.distance t.position u.position) := by
  induction l generalizing s with
  | nil => exact ⟨le_refl _, by simp, Or.inl ⟨rfl, rfl⟩⟩
  | cons a t ih =>
    rw [List.foldl_cons]
    obtain ⟨h1, h2, h3⟩ := ih (faceScanStep env u s a)
    have hstep : (faceScanStep env u s a).minDistance ≤ s.minDistance ∧
        (lineCandidate u a = true →
          (faceScanStep env u s a).minDistance ≤ env.distance a.position u.position) ∧
        (((faceScanStep env u s a).targetEnemy = s.targetEnemy ∧
            (faceScanStep env u s a).minDistance = s.minDistance) ∨
          (lineCandidate u a = true ∧ (faceScanStep env u s a).targetEnemy = some a ∧
            (faceScanStep env u s a).minDistance = env.distance a.position u.position)) := by
      rcases candidate_cases u a with h | h | ⟨h4, h5⟩
      · rw [faceScanStep_line env u s a h]
        by_cases hlt : env.distance a.position u.position < s.minDistance
        · rw [if_pos hlt]
          exact ⟨le_of_lt hlt, fun _ => le_refl _, Or.inr ⟨h, rfl, rfl⟩⟩
        · rw [if_neg hlt]
          exact ⟨le_refl _, fun _ => not_lt.1 hlt, Or.inl ⟨rfl, rfl⟩⟩
      · rw [faceScanStep_backup env u s a h]
        refine ⟨le_refl _, fun hl => ?_, Or.inl ⟨rfl, rfl⟩⟩
        rw [not_line_of_backup u a h] at hl; cases hl
      · rw [faceScanStep_other env u s a h4 h5]
        refine ⟨le_refl _, fun hl => ?_, Or.inl ⟨rfl, rfl⟩⟩
        rw [h4] at hl; cases hl
    obtain ⟨g1, g2, g3⟩ := hstep
    refine ⟨le_trans h1 g1, ?_, ?_⟩
    · intro e he hl
      rcases List.mem_cons.1 he with h | h
      · subst h; exact le_trans h1 (g2 hl)
      · exact h2 e h hl
    · rcases h3 with ⟨h4, h5⟩ | ⟨x, hx, hxl, hxt, hxd⟩
      · rcases g3 with ⟨g4, g5⟩ | ⟨g4, g5, g6⟩
        · exact Or.inl ⟨h4.trans g4, h5.trans g5⟩
        · exact Or.inr ⟨a, List.mem_cons_self _ _, g4, h4.trans g5, h5.trans g6⟩
      · exact Or.inr ⟨x, List.mem_cons_of_mem _ hx, hxl, hxt, hxd⟩

/-- Once a target at distance `d` is held and no later line-of-sight candidate
is strictly nearer, the target is kept. -/
theorem foldl_faceScanStep_keeps (env : Env) (u : BattleUnit) (l : List UnitRef)
    (s : FaceScan)
    (hl : ∀ e ∈ l, lineCandidate u e = true →
      s.minDistance ≤ env.distance e.position u.position) :
    (l.foldl (faceScanStep env u) s).targetEnemy = s.targetEnemy ∧
    (l.foldl (faceScanStep env u) s).minDistance = s.minDistance := by
  induction l generalizing s with
  | nil => exact ⟨rfl, rfl⟩
  | cons a t ih =>
    rw [List.foldl_cons]
    have hstep : (faceScanStep env u s a).targetEnemy = s.targetEnemy ∧
        (faceScanStep env u s a).minDistance = s.minDistance := by
      rcases candidate_cases u a with h | h | ⟨h4, h5⟩
      · rw [faceScanStep_line env u s a h,
          if_neg (not_lt.2 (hl a (List.mem_cons_self _ _) h))]
        exact ⟨rfl, rfl⟩
      · rw [faceScanStep_backup env u s a h]; exact ⟨rfl, rfl⟩
      · rw [faceScanStep_other env u s a h4 h5]; exact ⟨rfl, rfl⟩
    obtain ⟨h1, h2⟩ := ih (faceScanStep env u s a) (by
      intro e he hle
      rw [hstep.2]
      exact hl e (List.mem_cons_of_mem _ he) hle)
    exact ⟨h1.trans hstep.1, h2.trans hstep.2⟩

/-- The facing scan of `pre ++ a :: post` when `a` is the first enumerated
line-of-sight candidate at the least distance. -/
theorem faceScan_first_nearest (env : Env) (u : BattleUnit) (a : UnitRef)
    (pre post : List UnitRef)
    (ha : lineCandidate u a = true)
    (hmax : env.distance a.position u.position < FLT_MAX)
    (hpre : ∀ e ∈ pre, lineCandidate u e = true →
      env.distance a.position u.position < env.distance e.position u.position)
    (hpost : ∀ e ∈ post, lineCandidate u e = true →
      env.distance a.position u.position ≤ env.distance e.position u.position) :
    (faceScan env u (pre ++ a :: post)).targetEnemy = some a := by
  unfold faceScan
  rw [List.foldl_append, List.foldl_cons]
  obtain ⟨_, h2, h3⟩ := foldl_faceScanStep_target env u pre ⟨FLT_MAX, none, none⟩
  have hlt : env.distance a.position u.position
      < (pre.foldl (faceScanStep env u) ⟨FLT_MAX, none, none⟩).minDistance := by
    rcases h3 with ⟨_, h5⟩ | ⟨x, hx, hxl, _, hxd⟩
    · rw [h5]; exact hmax
    · rw [hxd]; exact hpre x hx hxl
  rw [faceScanStep_line env u _ a ha, if_pos hlt]
  exact (foldl_faceScanStep_keeps env u post _ hpost).1

/-! ## The facing branch in real time without a usable focus unit -/

theorem faceTarget_scan (env : Env) (u : BattleUnit) (enemies : List UnitRef)
    (hfocus : focusUnusableForFacing u enemies = true) :
    faceTarget env true u enemies =
      if (faceScan env u enemies).targetEnemy.isNone &&
          (faceScan env u enemies).backupEnemy.isSome
      then (faceScan env u enemies).backupEnemy
      else (faceScan env u enemies).targetEnemy := by
  simp [faceTarget, hfocus]

theorem faceTarget_primary (env : Env) (u : BattleUnit) (enemies : List UnitRef) (t : UnitRef)
    (hfocus : focusUnusableForFacing u enemies = true)
    (h : (faceScan env u enemies).targetEnemy = some t) :
    faceTarget env true u enemies = some t := by
  rw [faceTarget_scan env u enemies hfocus, h]
  simp

theorem faceTarget_fallback (env : Env) (u : BattleUnit) (enemies : List UnitRef) (t : UnitRef)
    (hfocus : focusUnusableForFacing u enemies = true)
    (h1 : (faceScan env u enemies).targetEnemy = none)
    (h2 : (faceScan env u enemies).backupEnemy = some t) :
    faceTarget env true u enemies = some t := by
  rw [faceTarget_scan env u enemies hfocus, h1, h2]
  simp

/-- Without a line-of-sight candidate the facing scan has no primary target. -/
theorem faceScan_no_line (env : Env) (u : BattleUnit) (enemies : List UnitRef)
    (h : ∀ e ∈ enemies, lineCandidate u e = false) :
    (faceScan env u enemies).targetEnemy = none := by
  unfold faceScan
  rcases (foldl_faceScanStep_target env u enemies ⟨FLT_MAX, none, none⟩).2.2 with
    ⟨h1, _⟩ | ⟨t, ht, htl, _, _⟩
  · exact h1
  · rw [h t ht] at htl; cases htl

theorem faceScan_backup (env : Env) (u : BattleUnit) (enemies : List UnitRef) :
    (faceScan env u enemies).backupEnemy = (enemies.filter (backupCandidate u)).getLast? := by
  unfold faceScan
  rw [foldl_faceScanStep_backup]
  simp

/-- The turn-cooldown is still elapsed after the turn-to-attacker step when it
was elapsed before and that step did not fire, or the cooldown constant is 0. -/
theorem turnToAttacker_turn_elapsed (env : Env) (state : GameState) (u : BattleUnit)
    (v : ThinkVars)
    (hcd : v.self.ticksAutoTurnAvailable ≤ state.ticks)
    (hidle : v.self.attackerPosition = NONE ∨ u.isBusy = true ∨ env.TICKS_PER_TURN = 0) :
    (turnToAttacker env state u v).self.ticksAutoTurnAvailable ≤ state.ticks := by
  by_cases hc : v.self.attackerPosition ≠ NONE ∧ u.isBusy = false ∧ u.isConscious = true ∧
      v.self.ticksAutoTurnAvailable ≤ state.ticks
  · rw [turnToAttacker_fires env state u v hc]
    rcases hidle with h | h | h
    · exact absurd h hc.1
    · rw [hc.2.1] at h; cases h
    · show state.ticks + AUTO_TURN_COOLDOWN env ≤ state.ticks
      unfold AUTO_TURN_COOLDOWN
      omega
  · rw [turnToAttacker_skips env state u v hc]
    exact hcd

/-- In real time, when the facing branch is reached with the turn-cooldown
elapsed and finds a unit to face, `think` returns a `Turn` movement to the
position of that unit and renews the turn-cooldown. -/
theorem thinkSteps_face (env : Env) (self : UnitAIDefault) (state : GameState)
    (u : BattleUnit) (t : UnitRef)
    (hmode : state.current_battle.mode = BattleMode.RealTime)
    (hgate : attackOrFaceGate state u = true)
    (hfire : cannotFire u = true)
    (hcd : self.ticksAutoTurnAvailable ≤ state.ticks)
    (hidle : self.attackerPosition = NONE ∨ u.isBusy = true ∨ env.TICKS_PER_TURN = 0)
    (hmov : u.isMoving = false)
    (hw : enzymeGate state u = false ∨ possiblePositions u = [])
    (ht : faceTarget env true u (state.current_battle.visibleEnemies u.owner) = some t) :
    (thinkSteps env self state u).movement = some (turnMovement t.position) ∧
    (thinkSteps env self state u).self.ticksAutoTurnAvailable
      = state.ticks + AUTO_TURN_COOLDOWN env := by
  have hel := turnToAttacker_turn_elapsed env state u
    ⟨{ self with active := true }, none, none⟩ hcd hidle
  unfold thinkSteps
  rw [enzymeRunning_movement _ _ _ hw, enzymeRunning_self]
  unfold attackOrFaceEnemy
  rw [if_pos hgate, if_pos hfire]
  unfold faceEnemy
  rw [if_pos ⟨hel, hmov⟩]
  simp only [hmode, decide_True]
  rw [ht]
  exact ⟨rfl, rfl⟩

theorem getLast?_of_all_eq (l : List UnitRef) (t : UnitRef) (hne : l ≠ [])
    (h : ∀ e ∈ l, e = t) : l.getLast? = some t := by
  rw [List.getLast?_eq_getLast l hne]
  exact congrArg some (h _ (List.getLast_mem hne))

/-- The movement of `think` and the turn-cooldown when the facing branch falls
back on the single fallback candidate. -/
theorem think_faces_single_fallback (env : Env) (self : UnitAIDefault) (state : GameState)
    (u : BattleUnit) (interrupt : Bool) (t : UnitRef)
    (hmode : state.current_battle.mode = BattleMode.RealTime)
    (hcon : u.isConscious = true)
    (hatt : u.isAttacking = false)
    (hmov : u.isMoving = false)
    (hsnooze : u.missions.head? ≠ some BattleUnitMissionType.Snooze)
    (hfire : cannotFire u = true)
    (hcd : self.ticksAutoTurnAvailable ≤ state.ticks)
    (hidle : self.attackerPosition = NONE ∨ u.isBusy = true ∨ env.TICKS_PER_TURN = 0)
    (hfocus : focusUnusableForFacing u (state.current_battle.visibleEnemies u.owner) = true)
    (hw : enzymeGate state u = false ∨ possiblePositions u = [])
    (hnoline : ∀ e ∈ state.current_battle.visibleEnemies u.owner,
      e.isConscious = true → e.getAIType ≠ AIType.None → u.hasLineToUnit e = false)
    (ht : t ∈ state.current_battle.visibleEnemies u.owner)
    (htc : t.isConscious = true)
    (hta : t.getAIType ≠ AIType.None)
    (htv : t.id ∈ u.visibleUnits)
    (huniq : ∀ e ∈ state.current_battle.visibleEnemies u.owner,
      e.isConscious = true → e.getAIType ≠ AIType.None → e.id ∈ u.visibleUnits → e = t) :
    (think env self state u interrupt).2.1.movement = some (turnMovement t.position) ∧
    (think env self state u interrupt).1.ticksAutoTurnAvailable
      = state.ticks + AUTO_TURN_COOLDOWN env := by
  have hharm : ∀ e : UnitRef, harmless e = false ↔
      (e.isConscious = true ∧ e.getAIType ≠ AIType.None) := by
    intro e
    simp [harmless]
  have hline : ∀ e ∈ state.current_battle.visibleEnemies u.owner,
      lineCandidate u e = false := by
    intro e he
    unfold lineCandidate
    by_cases hh : harmless e = true
    · simp [hh]
    · have hh2 : harmless e = false := by simpa using hh
      have := hnoline e he ((hharm e).1 hh2).1 ((hharm e).1 hh2).2
      simp [hh2, this]
  have htb : backupCandidate u t = true := by
    unfold backupCandidate
    simp [(hharm t).2 ⟨htc, hta⟩, hnoline t ht htc hta, htv]
  have hmemf : t ∈ (state.current_battle.visibleEnemies u.owner).filter (backupCandidate u) :=
    List.mem_filter.2 ⟨ht, htb⟩
  have hlast : ((state.current_battle.visibleEnemies u.owner).filter
      (backupCandidate u)).getLast? = some t := by
    apply getLast?_of_all_eq _ _ (List.ne_nil_of_mem hmemf)
    intro e he
    obtain ⟨he1, he2⟩ := List.mem_filter.1 he
    simp only [backupCandidate, Bool.and_eq_true, Bool.not_eq_true'] at he2
    have hel := (hharm e).1 he2.1.1
    exact huniq e he1 hel.1 hel.2 (by simpa using he2.2)
  have htarget := faceTarget_fallback env u _ t hfocus (faceScan_no_line env u _ hline)
    ((faceScan_backup env u _).trans hlast)
  rw [think_of_active env self state u interrupt (Or.inl hmode)]
  exact thinkSteps_face env self state u t hmode
    (attackOrFaceGate_of state u hcon hatt (List.ne_nil_of_mem ht) hsnooze)
    hfire hcd hidle hmov hw htarget

/-- The movement of `think` in the facing branch: a turn to a nearest enemy in
line of sight, or else to the fallback enumerated last. -/
theorem think_faces_nearest_or_last (env : Env) (self : UnitAIDefault)
    (state : GameState) (u : BattleUnit) (interrupt : Bool)
    (hmode : state.current_battle.mode = BattleMode.RealTime)
    (hcon : u.isConscious = true)
    (hatt : u.isAttacking = false)
    (hmov : u.isMoving = false)
    (hsnooze : u.missions.head? ≠ some BattleUnitMissionType.Snooze)
    (hfire : cannotFire u = true)
    (hcd : self.ticksAutoTurnAvailable ≤ state.ticks)
    (hidle : self.attackerPosition = NONE ∨ u.isBusy = true ∨ env.TICKS_PER_TURN = 0)
    (hfocus : focusUnusableForFacing u (state.current_battle.visibleEnemies u.owner) = true)
    (hw : enzymeGate state u = false ∨ possiblePositions u = [])
    (hmax : ∀ e ∈ state.current_battle.visibleEnemies u.owner, lineCandidate u e = true →
      env.distance e.position u.position < FLT_MAX) :
    ((∃ e ∈ state.current_battle.visibleEnemies u.owner, lineCandidate u e = true) →
      ∃ t ∈ state.current_battle.visibleEnemies u.owner, lineCandidate u t = true ∧
        (∀ e ∈ state.current_battle.visibleEnemies u.owner, lineCandidate u e = true →
          env.distance t.position u.position ≤ env.distance e.position u.position) ∧
        (think env self state u interrupt).2.1.movement = some (turnMovement t.position)) ∧
    ((∀ e ∈ state.current_battle.visibleEnemies u.owner, lineCandidate u e = false) →
      ∀ t, ((state.current_battle.visibleEnemies u.owner).filter
          (backupCandidate u)).getLast? = some t →
        (think env self state u interrupt).2.1.movement = some (turnMovement t.position)) := by
  rw [think_of_active env self state u interrupt (Or.inl hmode)]
  constructor
  · rintro ⟨e, he, hel⟩
    obtain ⟨_, h2, h3⟩ := foldl_faceScanStep_target env u
      (state.current_battle.visibleEnemies u.owner) ⟨FLT_MAX, none, none⟩
    rcases h3 with ⟨_, h5⟩ | ⟨t, ht, htl, htt, htd⟩
    · have h6 := h2 e he hel
      rw [h5] at h6
      exact absurd (hmax e he hel) (not_lt.2 h6)
    · refine ⟨t, ht, htl, ?_, ?_⟩
      · intro x hx hxl
        rw [← htd]
        exact h2 x hx hxl
      · exact (thinkSteps_face env self state u t hmode
          (attackOrFaceGate_of state u hcon hatt (List.ne_nil_of_mem ht) hsnooze)
          hfire hcd hidle hmov hw (faceTarget_primary env u _ t hfocus htt)).1
  · intro hnl t ht
    have hmem : t ∈ (state.current_battle.visibleEnemies u.owner).filter
        (backupCandidate u) := List.mem_of_getLast?_eq_some ht
    exact (thinkSteps_face env self state u t hmode
      (attackOrFaceGate_of state u hcon hatt
        (List.ne_nil_of_mem (List.mem_filter.1 hmem).1) hsnooze)
      hfire hcd hidle hmov hw
      (faceTarget_fallback env u _ t hfocus (faceScan_no_line env u _ hnl)
        ((faceScan_backup env u _).trans ht))).1

/-- C2: in real time without a usable focus unit, let `a` and `b` be two
conscious, threatening visible enemies at exactly the same distance from the
combatant, `a` enumerated before `b`, with every conscious, threatening enemy
enumerated before `a` strictly farther and every one enumerated after `a` at
least as far.  Then the attack scan selects `a` when `a` is attackable: `a`
heads `enemiesByDistance` under its true distance, `b` is entered under a
later key and overwrites nothing, and `think` attacks `a`.  And the facing scan
selects `a` when `a` is in line of sight: `think` turns to the position of
`a`.  The result is a function of the enumeration order. -/
theorem C2_first_enumerated_wins_ties (env : Env) (self : UnitAIDefault)
    (state : GameState) (u : BattleUnit) (interrupt : Bool) (a b : UnitRef)
    (pre post : List UnitRef)
    (hmode : state.current_battle.mode = BattleMode.RealTime)
    (hcon : u.isConscious = true)
    (hatt : u.isAttacking = false)
    (hsnooze : u.missions.head? ≠ some BattleUnitMissionType.Snooze)
    (henemies : state.current_battle.visibleEnemies u.owner = pre ++ a :: post)
    (hb : b ∈ post)
    (hac : a.isConscious = true) (haa : a.getAIType ≠ AIType.None)
    (hbc : b.isConscious = true) (hba : b.getAIType ≠ AIType.None)
    (htie : env.distance b.position u.position = env.distance a.position u.position)
    (hpre : ∀ e ∈ pre, e.isConscious = true → e.getAIType ≠ AIType.None →
      env.distance a.position u.position < env.distance e.position u.position)
    (hpost : ∀ e ∈ post, e.isConscious = true → e.getAIType ≠ AIType.None →
      env.distance a.position u.position ≤ env.distance e.position u.position) :
    (cannotFire u = false →
      self.ticksAutoTargetAvailable ≤ state.ticks →
      focusUnusableForAttack u (state.current_battle.visibleEnemies u.owner) = true →
      u.canAttackUnit a ≠ WeaponStatus.NotFiring →
      (think env self state u interrupt).2.1.action
        = some ⟨AIActionType.AttackWeaponUnit, a, u.canAttackUnit a⟩ ∧
      (enemiesByDistance env u (state.current_battle.visibleEnemies u.owner)).head?
        = some (env.distance a.position u.position, a) ∧
      ∃ k, env.distance b.position u.position < k ∧
        (k, b) ∈ enemiesByDistance env u (state.current_battle.visibleEnemies u.owner)) ∧
    (cannotFire u = true →
      self.ticksAutoTurnAvailable ≤ state.ticks →
      (self.attackerPosition = NONE ∨ u.isBusy = true ∨ env.TICKS_PER_TURN = 0) →
      u.isMoving = false →
      focusUnusableForFacing u (state.current_battle.visibleEnemies u.owner) = true →
      (enzymeGate state u = false ∨ possiblePositions u = []) →
      u.hasLineToUnit a = true →
      env.distance a.position u.position < FLT_MAX →
      (think env self state u interrupt).2.1.movement = some (turnMovement a.position) ∧
      (faceScan env u (state.current_battle.visibleEnemies u.owner)).targetEnemy
        = some a) := by
  have hharm : ∀ e : UnitRef, harmless e = false ↔
      (e.isConscious = true ∧ e.getAIType ≠ AIType.None) := by
    intro e
    simp [harmless]
  have hvis : state.current_battle.visibleEnemies u.owner ≠ [] := by
    rw [henemies]; simp
  have hgate := attackOrFaceGate_of state u hcon hatt hvis hsnooze
  rw [think_of_active env self state u interrupt (Or.inl hmode)]
  constructor
  · intro hfire hcd hfocus hcan
    obtain ⟨rest, hmap, hkeys, hrest⟩ := enemiesByDistance_head env u a pre post
      ((hharm a).2 ⟨hac, haa⟩)
      (fun e he hh => hpre e he ((hharm e).1 hh).1 ((hharm e).1 hh).2)
      (fun e he hh => hpost e he ((hharm e).1 hh).1 ((hharm e).1 hh).2)
    obtain ⟨hact, _⟩ := thinkSteps_attack env self state u hmode hgate hfire
    have hcd1 : (turnToAttacker env state u
        ⟨{ self with active := true }, none, none⟩).self.ticksAutoTargetAvailable
          ≤ state.ticks := by
      rw [turnToAttacker_target]; exact hcd
    have htarget : attackTarget env true u (state.current_battle.visibleEnemies u.owner)
        = (some a, u.canAttackUnit a) := by
      rw [attackTarget_scan env u _ hfocus, henemies, hmap]
      exact pickAttackable_head u _ a rest _ hcan
    refine ⟨?_, ?_, ?_⟩
    · show (thinkSteps env self state u).action = _
      rw [hact, attackEnemy_found env state u true _ a _ hcd1 htarget]
    · rw [henemies, hmap]; rfl
    · obtain ⟨k, hk⟩ := hrest b hb ((hharm b).2 ⟨hbc, hba⟩)
      refine ⟨k, ?_, ?_⟩
      · rw [htie]; exact hkeys _ hk
      · rw [henemies, hmap]; exact List.mem_cons_of_mem _ hk
  · intro hfire hcd hidle hmov hfocus hw hline hmax
    have hla : lineCandidate u a = true := by
      simp [lineCandidate, (hharm a).2 ⟨hac, haa⟩, hline]
    have hof : ∀ e : UnitRef, lineCandidate u e = true →
        e.isConscious = true ∧ e.getAIType ≠ AIType.None := by
      intro e he
      simp only [lineCandidate, Bool.and_eq_true, Bool.not_eq_true'] at he
      exact (hharm e).1 he.1
    have hscan : (faceScan env u (state.current_battle.visibleEnemies u.owner)).targetEnemy
        = some a := by
      rw [henemies]
      exact faceScan_first_nearest env u a pre post hla hmax
        (fun e he hl => hpre e he (hof e hl).1 (hof e hl).2)
        (fun e he hl => hpost e he (hof e hl).1 (hof e hl).2)
    exact ⟨(thinkSteps_face env self state u a hmode hgate hfire hcd hidle hmov hw
      (faceTarget_primary env u _ a hfocus hscan)).1, hscan⟩

/-- Witness of C2: the enemies 2 and 5 are both at distance 1 and enemy 2 is
enumerated first.  The soldier attacks enemy 2, and the cease-fire soldier turns
to enemy 2. -/
theorem C2_first_enumerated_wins_ties_witness :
    ((think sampleEnv freshEngine (sampleState BattleMode.RealTime 1 [enemyB, enemyE, enemyC])
        soldier false).2.1.action
        = some ⟨AIActionType.AttackWeaponUnit, enemyB, soldier.canAttackUnit enemyB⟩ ∧
      (enemiesByDistance sampleEnv soldier
          ((sampleState BattleMode.RealTime 1
            [enemyB, enemyE, enemyC]).current_battle.visibleEnemies soldier.owner)).head?
        = some (sampleEnv.distance enemyB.position soldier.position, enemyB) ∧
      ∃ k, sampleEnv.distance enemyE.position soldier.position < k ∧
        (k, enemyE) ∈ enemiesByDistance sampleEnv soldier
          ((sampleState BattleMode.RealTime 1
            [enemyB, enemyE, enemyC]).current_battle.visibleEnemies soldier.owner)) ∧
    ((think sampleEnv freshEngine (sampleState BattleMode.RealTime 1 [enemyB, enemyE, enemyC])
        ceaseFireSoldier false).2.1.movement = some (turnMovement enemyB.position) ∧
      (faceScan sampleEnv ceaseFireSoldier
          ((sampleState BattleMode.RealTime 1
            [enemyB, enemyE, enemyC]).current_battle.visibleEnemies
              ceaseFireSoldier.owner)).targetEnemy
        = some enemyB) :=
  ⟨(C2_first_enumerated_wins_ties sampleEnv freshEngine
      (sampleState BattleMode.RealTime 1 [enemyB, enemyE, enemyC]) soldier false
      enemyB enemyE [] [enemyE, enemyC] rfl rfl rfl (by decide) rfl
      (List.mem_cons_self _ _) rfl (by decide) rfl (by decide) (by decide!)
      (fun _ h => absurd h (List.not_mem_nil _)) (by decide!)).1
      rfl (by decide) rfl (by decide),
   (C2_first_enumerated_wins_ties sampleEnv freshEngine
      (sampleState BattleMode.RealTime 1 [enemyB, enemyE, enemyC]) ceaseFireSoldier false
      enemyB enemyE [] [enemyE, enemyC] rfl rfl rfl (by decide) rfl
      (List.mem_cons_self _ _) rfl (by decide) rfl (by decide) (by decide!)
      (fun _ h => absurd h (List.not_mem_nil _)) (by decide!)).2
      rfl (by decide) (Or.inl rfl) rfl rfl (Or.inl (by decide)) rfl (by decide!)⟩

/-! ## Turn-based mode -/

theorem enzymeRunning_turnBased (state : GameState) (u : BattleUnit) (v : ThinkVars)
    (hmode : state.current_battle.mode = BattleMode.TurnBased) :
    enzymeRunning state u v = v := by
  simp [enzymeRunning, enzymeGate, hmode]

theorem attackTarget_turnBased (env : Env) (u : BattleUnit) (enemies : List UnitRef) :
    attackTarget env false u enemies =
      if focusUnusableForAttack u enemies = true then (none, focusWeaponStatus u)
      else (u.focusUnit, focusWeaponStatus u) := by
  simp [attackTarget]

theorem faceTarget_turnBased (env : Env) (u : BattleUnit) (enemies : List UnitRef) :
    faceTarget env false u enemies =
      if focusUnusableForFacing u enemies = true then none else u.focusUnit := by
  unfold faceTarget
  by_cases h : focusUnusableForFacing u enemies = true
  · simp [h]
  · simp only [h, Bool.false_eq_true, if_false]
    cases hf : u.focusUnit <;> simp

/-- In turn-based mode the attack-or-face step emits an action only on a usable
focus unit and a movement only toward a usable focus unit. -/
theorem attackOrFaceEnemy_turnBased (env : Env) (state : GameState) (u : BattleUnit)
    (v : ThinkVars) :
    ((attackOrFaceEnemy env state u false v).action = v.action ∨
      ∃ t, u.focusUnit = some t ∧
        focusUnusableForAttack u (state.current_battle.visibleEnemies u.owner) = false ∧
        (attackOrFaceEnemy env state u false v).action
          = some ⟨AIActionType.AttackWeaponUnit, t, u.canAttackUnit t⟩) ∧
    ((attackOrFaceEnemy env state u false v).movement = v.movement ∨
      ∃ t, u.focusUnit = some t ∧
        focusUnusableForFacing u (state.current_battle.visibleEnemies u.owner) = false ∧
        (attackOrFaceEnemy env state u false v).movement
          = some (turnMovement t.position)) := by
  unfold attackOrFaceEnemy
  by_cases hg : attackOrFaceGate state u = true
  · rw [if_pos hg]
    by_cases hc : cannotFire u = true
    · rw [if_pos hc]
      refine ⟨Or.inl (faceEnemy_action env state u false v), ?_⟩
      unfold faceEnemy
      by_cases hcd : v.self.ticksAutoTurnAvailable ≤ state.ticks ∧ u.isMoving = false
      · rw [if_pos hcd, faceTarget_turnBased]
        by_cases hf : focusUnusableForFacing u
            (state.current_battle.visibleEnemies u.owner) = true
        · rw [if_pos hf]; exact Or.inl rfl
        · rw [if_neg hf]
          cases hfu : u.focusUnit with
          | none => exact Or.inl rfl
          | some t => exact Or.inr ⟨t, rfl, by simpa using hf, rfl⟩
      · rw [if_neg hcd]; exact Or.inl rfl
    · rw [if_neg hc]
      refine ⟨?_, Or.inl (attackEnemy_movement env state u false v)⟩
      unfold attackEnemy
      by_cases hcd : v.self.ticksAutoTargetAvailable ≤ state.ticks
      · rw [if_pos hcd, attackTarget_turnBased]
        by_cases hf : focusUnusableForAttack u
            (state.current_battle.visibleEnemies u.owner) = true
        · rw [if_pos hf]; exact Or.inl rfl
        · rw [if_neg hf]
          cases hfu : u.focusUnit with
          | none => exact Or.inl rfl
          | some t =>
            refine Or.inr ⟨t, rfl, by simpa using hf, ?_⟩
            simp [focusWeaponStatus, hfu]
      · rw [if_neg hcd]; exact Or.inl rfl
  · rw [if_neg hg]
    exact ⟨Or.inl rfl, Or.inl rfl⟩

/-- The decision of `think` in turn-based mode with the engine active, in terms
of the focus unit. -/
theorem think_turnBased_focus_only (env : Env) (self : UnitAIDefault)
    (state : GameState) (u : BattleUnit) (interrupt : Bool)
    (hmode : state.current_battle.mode = BattleMode.TurnBased)
    (hown : u.owner ≠ state.current_battle.currentActiveOrganisation) :
    (∀ a, (think env self state u interrupt).2.1.action = some a →
      ∃ t, u.focusUnit = some t ∧
        a = ⟨AIActionType.AttackWeaponUnit, t, u.canAttackUnit t⟩) ∧
    ((think env self state u interrupt).2.1.movement
        = (turnToAttacker env state u ⟨{ self with active := true }, none, none⟩).movement ∨
      ∃ t, u.focusUnit = some t ∧
        (think env self state u interrupt).2.1.movement = some (turnMovement t.position)) ∧
    (focusUnusableForAttack u (state.current_battle.visibleEnemies u.owner) = true →
      (think env self state u interrupt).2.1.action = none) ∧
    (focusUnusableForFacing u (state.current_battle.visibleEnemies u.owner) = true →
      (think env self state u interrupt).2.1.action = none ∧
      (think env self state u interrupt).2.1.movement
        = (turnToAttacker env state u
            ⟨{ self with active := true }, none, none⟩).movement) ∧
    (∀ enemies : List UnitRef,
      attackTarget env false u enemies =
        (if focusUnusableForAttack u enemies = true then (none, focusWeaponStatus u)
         else (u.focusUnit, focusWeaponStatus u)) ∧
      faceTarget env false u enemies =
        (if focusUnusableForFacing u enemies = true then none else u.focusUnit)) := by
  have hsteps : thinkSteps env self state u =
      attackOrFaceEnemy env state u false
        (turnToAttacker env state u ⟨{ self with active := true }, none, none⟩) := by
    unfold thinkSteps
    rw [enzymeRunning_turnBased state u _ hmode]
    simp [hmode]
  have hv0 : (turnToAttacker env state u
      ⟨{ self with active := true }, none, none⟩).action = none := by
    rw [turnToAttacker_action]
  obtain ⟨hact, hmov⟩ := attackOrFaceEnemy_turnBased env state u
    (turnToAttacker env state u ⟨{ self with active := true }, none, none⟩)
  have hweak : focusUnusableForFacing u (state.current_battle.visibleEnemies u.owner) = true →
      focusUnusableForAttack u (state.current_battle.visibleEnemies u.owner) = true := by
    unfold focusUnusableForFacing focusUnusableForAttack
    cases u.focusUnit with
    | none => intro _; rfl
    | some t =>
      intro h
      simp only [Bool.or_eq_true] at h ⊢
      exact Or.inl h
  have hnoact : focusUnusableForAttack u (state.current_battle.visibleEnemies u.owner) = true →
      (thinkSteps env self state u).action = none := by
    intro hf
    rw [hsteps]
    rcases hact with h | ⟨t, _, h2, _⟩
    · rw [h, hv0]
    · rw [hf] at h2; cases h2
  rw [think_of_active env self state u interrupt (Or.inr hown)]
  refine ⟨?_, ?_, hnoact, ?_, fun enemies =>
    ⟨attackTarget_turnBased env u enemies, faceTarget_turnBased env u enemies⟩⟩
  · intro a ha
    have ha2 : (thinkSteps env self state u).action = some a := ha
    rw [hsteps] at ha2
    rcases hact with h | ⟨t, ht, _, h3⟩
    · rw [h, hv0] at ha2; cases ha2
    · rw [h3] at ha2
      exact ⟨t, ht, (Option.some.inj ha2).symm⟩
  · show (thinkSteps env self state u).movement = _ ∨
      ∃ t, u.focusUnit = some t ∧ (thinkSteps env self state u).movement = _
    rw [hsteps]
    rcases hmov with h | ⟨t, ht, _, h3⟩
    · exact Or.inl h
    · exact Or.inr ⟨t, ht, h3⟩
  · intro hf
    refine ⟨hnoact (hweak hf), ?_⟩
    show (thinkSteps env self state u).movement = _
    rw [hsteps]
    rcases hmov with h | ⟨t, _, h2, _⟩
    · exact h
    · rw [hf] at h2; cases h2

/-! ## Lemmas on the item operations -/

namespace BattleItem

theorem afterGravity_supported (env : ItemEnv) (it : BattleItem) (ticks : Nat) :
    (afterGravity env it ticks).1.supported = it.supported := by
  unfold afterGravity; split <;> rfl

theorem afterGravity_bounced (env : ItemEnv) (it : BattleItem) (ticks : Nat) :
    (afterGravity env it ticks).1.bounced = it.bounced := by
  unfold afterGravity; split <;> rfl

theorem afterGravity_id (env : ItemEnv) (it : BattleItem) (ticks : Nat) :
    (afterGravity env it ticks).1.id = it.id := by
  unfold afterGravity; split <;> rfl

theorem afterGravity_position (env : ItemEnv) (it : BattleItem) (ticks : Nat) :
    (afterGravity env it ticks).1.position = it.position := by
  unfold afterGravity; split <;> rfl

theorem afterGravity_tileObject (env : ItemEnv) (it : BattleItem) (ticks : Nat) :
    (afterGravity env it ticks).1.tileObject = it.tileObject := by
  unfold afterGravity; split <;> rfl

theorem afterGravity_shadowObject (env : ItemEnv) (it : BattleItem) (ticks : Nat) :
    (afterGravity env it ticks).1.shadowObject = it.shadowObject := by
  unfold afterGravity; split <;> rfl

theorem afterGravity_battle (env : ItemEnv) (it : BattleItem) (ticks : Nat) :
    (afterGravity env it ticks).1.battle = it.battle := by
  unfold afterGravity; split <;> rfl

theorem update_supported (env : ItemEnv) (w : ItemWorld) (it : BattleItem) (ticks : Nat)
    (h : it.supported = true) : update env w it ticks = some (it, w) := by
  simp [update, h]

theorem update_airborne (env : ItemEnv) (w : ItemWorld) (it : BattleItem) (ticks : Nat)
    (h : it.supported = false) :
    update env w it ticks =
      resolveCollision env w (afterGravity env it ticks).1 it.position
        (afterGravity env it ticks).2 := by
  simp [update, h]

theorem findSupport_supported (env : ItemEnv) (w : ItemWorld) (it : BattleItem)
    (emitSound forced : Bool) (h : it.supported = true) :
    findSupport env w it emitSound forced = some (true, it, w) := by
  simp [findSupport, h]

theorem findSupport_no_object (env : ItemEnv) (w : ItemWorld) (it : BattleItem)
    (emitSound forced : Bool) (tp : Vec3 ℚ)
    (hsup : it.supported = false) (hto : it.tileObject = some tp)
    (hobj : (env.getOwningTile tp).getItemSupportingObject = none) :
    findSupport env w it emitSound forced = some (false, it, w) := by
  simp [findSupport, hsup, hto, hobj]

theorem findSupport_too_high (env : ItemEnv) (w : ItemWorld) (it : BattleItem)
    (emitSound : Bool) (tp : Vec3 ℚ) (obj : SupportingObject)
    (hsup : it.supported = false) (hto : it.tileObject = some tp)
    (hobj : (env.getOwningTile tp).getItemSupportingObject = some obj)
    (hz : obj.position.z + (obj.height : ℚ) / 40 < it.position.z) :
    findSupport env w it emitSound false = some (false, it, w) := by
  have hz2 : (Vec3.add obj.position ⟨0, 0, (obj.height : ℚ) / 40⟩).z < it.position.z := hz
  simp [findSupport, hsup, hto, hobj, hz2]

/-- A successful support search: the item rests at the resting position with
zero velocity, is registered once with the supporting object, and the item
list of the battle is untouched. -/
theorem findSupport_found (env : ItemEnv) (w : ItemWorld) (it : BattleItem)
    (emitSound forced : Bool) (tp : Vec3 ℚ) (obj : SupportingObject)
    (hsup : it.supported = false) (hto : it.tileObject = some tp)
    (hobj : (env.getOwningTile tp).getItemSupportingObject = some obj)
    (hz : forced = true ∨ it.position.z ≤ obj.position.z + (obj.height : ℚ) / 40) :
    ∃ it2 w2, findSupport env w it emitSound forced = some (true, it2, w2) ∧
      it2.supported = true ∧ it2.bounced = false ∧ it2.velocity = ⟨0, 0, 0⟩ ∧
      it2.position = Vec3.add obj.position ⟨0, 0, (obj.height : ℚ) / 40⟩ ∧
      it2.id = it.id ∧ it2.tileObject.isSome = true ∧
      w2.supportedItems = w.supportedItems ++ [(obj.id, it.id)] ∧
      w2.items = w.items := by
  have hz2 : ¬ (forced = false ∧
      (Vec3.add obj.position ⟨0, 0, (obj.height : ℚ) / 40⟩).z < it.position.z) := by
    rintro ⟨hf, hlt⟩
    rcases hz with h | h
    · rw [hf] at h; cases h
    · exact absurd hlt (not_lt.2 h)
  unfold findSupport
  simp only [hsup, Bool.false_eq_true, if_false, hto, hobj, hz2]
  by_cases hp : it.position = Vec3.add obj.position ⟨0, 0, (obj.height : ℚ) / 40⟩
  · cases emitSound <;> cases hs : (env.getOwningTile tp).objectDropSfx <;>
      exact ⟨_, _, rfl, by simp [hp, hto]⟩
  · cases emitSound <;> cases hs : (env.getOwningTile tp).objectDropSfx <;>
      exact ⟨_, _, rfl, by simp [hp, hto, setPosition]⟩

/-- Every support search on an item with a `tileObject` has a result: it
fails and changes nothing, or it finds the item supported already, or the item
comes to rest. -/
theorem findSupport_cases (env : ItemEnv) (w : ItemWorld) (it : BattleItem)
    (emitSound forced : Bool) (tp : Vec3 ℚ) (hto : it.tileObject = some tp) :
    findSupport env w it emitSound forced = some (false, it, w) ∨
    (findSupport env w it emitSound forced = some (true, it, w) ∧ it.supported = true) ∨
    ∃ it2 w2, findSupport env w it emitSound forced = some (true, it2, w2) ∧
      it2.tileObject.isSome = true ∧ w2.items = w.items ∧ Rested it it2 w w2 := by
  by_cases hsup : it.supported = true
  · exact Or.inr (Or.inl ⟨findSupport_supported env w it emitSound forced hsup, hsup⟩)
  · have hsup2 : it.supported = false := by simpa using hsup
    cases hobj : (env.getOwningTile tp).getItemSupportingObject with
    | none => exact Or.inl (findSupport_no_object env w it emitSound forced tp hsup2 hto hobj)
    | some obj =>
      by_cases hz : forced = true ∨ it.position.z ≤ obj.position.z + (obj.height : ℚ) / 40
      · obtain ⟨it2, w2, h1, h2, h3, _, _, h6, h7, h8, h9⟩ :=
          findSupport_found env w it emitSound forced tp obj hsup2 hto hobj hz
        exact Or.inr (Or.inr ⟨it2, w2, h1, h7, h9, h6, hsup2, h2, h3, obj.id, h8⟩)
      · have hz2 := not_or.1 hz
        have hf : forced = false := by simpa using hz2.1
        subst hf
        exact Or.inl (findSupport_too_high env w it emitSound tp obj hsup2 hto hobj
          (not_le.1 hz2.2))

end BattleItem

namespace BattleItem

theorem checkItemCollision_tileObject (env : ItemEnv) (it : BattleItem)
    (p q : Vec3 ℚ) (r : Option Collision) (h : checkItemCollision env it p q = some r) :
    ∃ tp, it.tileObject = some tp := by
  unfold checkItemCollision at h
  cases hto : it.tileObject with
  | none => rw [hto] at h; cases h
  | some tp => exact ⟨tp, rfl⟩

theorem finishUpdate_unmoved (env : ItemEnv) (w : ItemWorld) (it : BattleItem)
    (p : Vec3 ℚ) (collision : Bool) :
    finishUpdate env w it p p collision = searchSupport env w it collision := by
  simp [finishUpdate]

theorem resolveCollision_ground (env : ItemEnv) (w : ItemWorld) (it : BattleItem)
    (p q : Vec3 ℚ) (c : Collision)
    (hc : checkItemCollision env it p q = some (some c))
    (hground : c.type = TileObjectType.Ground) :
    resolveCollision env w it p q =
      match findSupport env w (it.setPosition c.position) true true with
      | none => none
      | some (true, it2, w2) => some (it2, w2)
      | some (false, it2, w2) => finishUpdate env w2 it2 p q true := by
  unfold resolveCollision
  rw [hc]
  simp only [hground]

theorem resolveCollision_blocked (env : ItemEnv) (w : ItemWorld) (it : BattleItem)
    (p q : Vec3 ℚ) (c : Collision)
    (hc : checkItemCollision env it p q = some (some c))
    (hkind : c.type = TileObjectType.Unit ∨ c.type = TileObjectType.LeftWall ∨
      c.type = TileObjectType.RightWall ∨ c.type = TileObjectType.Feature) :
    resolveCollision env w it p q =
      if it.bounced = false then
        finishUpdate env w { it with bounced := true, velocity := bounceVelocity it.velocity }
          p p false
      else
        finishUpdate env w it p ⟨p.x, p.y, min q.z p.z⟩ true := by
  unfold resolveCollision
  rw [hc]
  rcases hkind with h | h | h | h <;> simp only [h]

theorem resolveCollision_other (env : ItemEnv) (w : ItemWorld) (it : BattleItem)
    (p q : Vec3 ℚ) (c : Collision) (k : Nat)
    (hc : checkItemCollision env it p q = some (some c))
    (hkind : c.type = TileObjectType.Other k) :
    resolveCollision env w it p q = finishUpdate env w it p q true := by
  unfold resolveCollision
  rw [hc]
  simp only [hkind]

theorem resolveCollision_free (env : ItemEnv) (w : ItemWorld) (it : BattleItem)
    (p q : Vec3 ℚ) (hc : checkItemCollision env it p q = some none) :
    resolveCollision env w it p q = finishUpdate env w it p q false := by
  unfold resolveCollision
  rw [hc]

end BattleItem

/-- C12: for an airborne item whose `update` step hits an obstruction of kind
`Ground`, when the tile that owns the item after it is snapped to the collision
point has a supporting object: `update` ends with the result of the forced
support search on the snapped item, without bounds check or further physics;
the item is supported, not bounced, has velocity zero and stands at the resting
position (the position of the supporting object raised by `height / 40`), and
it is registered with that object. -/
theorem C12_ground_hit_rests_item (env : ItemEnv) (w : ItemWorld) (it : BattleItem)
    (ticks : Nat) (c : Collision) (obj : SupportingObject)
    (hsup : it.supported = false)
    (hc : BattleItem.checkItemCollision env (BattleItem.afterGravity env it ticks).1
      it.position (BattleItem.afterGravity env it ticks).2 = some (some c))
    (hground : c.type = TileObjectType.Ground)
    (hobj : (env.getOwningTile c.position).getItemSupportingObject = some obj) :
    BattleItem.update env w it ticks =
      (BattleItem.findSupport env w
        ((BattleItem.afterGravity env it ticks).1.setPosition c.position) true true).map
        (fun r => r.2) ∧
    ∃ it2 w2, BattleItem.update env w it ticks = some (it2, w2) ∧
      it2.supported = true ∧ it2.bounced = false ∧ it2.velocity = ⟨0, 0, 0⟩ ∧
      it2.position = Vec3.add obj.position ⟨0, 0, (obj.height : ℚ) / 40⟩ ∧
      w2.supportedItems = w.supportedItems ++ [(obj.id, it.id)] ∧
      w2.items = w.items := by
  obtain ⟨tp, htp⟩ := BattleItem.checkItemCollision_tileObject env _ _ _ _ hc
  have hto : ((BattleItem.afterGravity env it ticks).1.setPosition c.position).tileObject
      = some c.position := by
    simp [BattleItem.setPosition, htp]
  have hs : ((BattleItem.afterGravity env it ticks).1.setPosition c.position).supported
      = false := by
    show (BattleItem.afterGravity env it ticks).1.supported = false
    rw [BattleItem.afterGravity_supported]; exact hsup
  obtain ⟨it2, w2, h1, h2, h3, h4, h5, h6, _, h8, h9⟩ :=
    BattleItem.findSupport_found env w
      ((BattleItem.afterGravity env it ticks).1.setPosition c.position) true true
      c.position obj hs hto hobj (Or.inl rfl)
  have hid : ((BattleItem.afterGravity env it ticks).1.setPosition c.position).id = it.id :=
    BattleItem.afterGravity_id env it ticks
  rw [BattleItem.update_airborne env w it ticks hsup,
    BattleItem.resolveCollision_ground env w _ _ _ c hc hground, h1]
  exact ⟨rfl, it2, w2, rfl, h2, h3, h4, h5, hid ▸ h8, h9⟩

/-- Witness of C12: an item at height 10 falling with velocity -1, ground hit at
height 2, supporting object with resting height 2: the item ends at height 2,
supported, with velocity zero. -/
theorem C12_ground_hit_rests_item_witness :
    (∃ it2 w2, BattleItem.update
        (sampleItemEnv (some ⟨TileObjectType.Ground, ⟨5, 5, 2⟩, 0⟩) groundTile) sampleWorld
        (sampleItem ⟨5, 5, 10⟩ ⟨0, 0, -1⟩ false) 1 = some (it2, w2) ∧
      it2.supported = true ∧ it2.bounced = false ∧ it2.velocity = ⟨0, 0, 0⟩ ∧
      it2.position = Vec3.add (⟨5, 5, 1⟩ : Vec3 ℚ) ⟨0, 0, ((40 : ℤ) : ℚ) / 40⟩ ∧
      w2.supportedItems = sampleWorld.supportedItems ++ [(7, 1)] ∧
      w2.items = sampleWorld.items) ∧
    Vec3.add (⟨5, 5, 1⟩ : Vec3 ℚ) ⟨0, 0, ((40 : ℤ) : ℚ) / 40⟩ = ⟨5, 5, 2⟩ :=
  ⟨(C12_ground_hit_rests_item
      (sampleItemEnv (some ⟨TileObjectType.Ground, ⟨5, 5, 2⟩, 0⟩) groundTile) sampleWorld
      (sampleItem ⟨5, 5, 10⟩ ⟨0, 0, -1⟩ false) 1 ⟨TileObjectType.Ground, ⟨5, 5, 2⟩, 0⟩
      ⟨7, ⟨5, 5, 1⟩, 40⟩ rfl rfl rfl rfl).2, by decide!⟩

/-- C13: for an airborne item with `bounced = false` whose `update` step is
blocked by a unit, a wall or a feature: after `update` the item stands at its
position before the step, `bounced` is true, `supported` is false and the
velocity is `(-vx / 4, -vy / 4, |vz / 4|)` for the velocity `(vx, vy, vz)` the
item has when it bounces (after the gravity loop); the vertical component is
not negative; nothing else changes.  A bounce at velocity `(4, 0, -2)` gives
`(-1, 0, 1/2)`. -/
theorem C13_first_obstruction_bounces (env : ItemEnv) (w : ItemWorld) (it : BattleItem)
    (ticks : Nat) (c : Collision)
    (hsup : it.supported = false)
    (hb : it.bounced = false)
    (hc : BattleItem.checkItemCollision env (BattleItem.afterGravity env it ticks).1
      it.position (BattleItem.afterGravity env it ticks).2 = some (some c))
    (hkind : c.type = TileObjectType.Unit ∨ c.type = TileObjectType.LeftWall ∨
      c.type = TileObjectType.RightWall ∨ c.type = TileObjectType.Feature) :
    ∃ it2, BattleItem.update env w it ticks = some (it2, w) ∧
      it2.position = it.position ∧ it2.bounced = true ∧ it2.supported = false ∧
      it2.velocity = ⟨-(BattleItem.afterGravity env it ticks).1.velocity.x / 4,
        -(BattleItem.afterGravity env it ticks).1.velocity.y / 4,
        |(BattleItem.afterGravity env it ticks).1.velocity.z / 4|⟩ ∧
      0 ≤ it2.velocity.z ∧
      bounceVelocity ⟨4, 0, -2⟩ = ⟨-1, 0, 1 / 2⟩ := by
  have hb1 : (BattleItem.afterGravity env it ticks).1.bounced = false := by
    rw [BattleItem.afterGravity_bounced]; exact hb
  rw [BattleItem.update_airborne env w it ticks hsup,
    BattleItem.resolveCollision_blocked env w _ _ _ c hc hkind, if_pos hb1,
    BattleItem.finishUpdate_unmoved]
  refine ⟨_, rfl, ?_, rfl, ?_, rfl, ?_, ?_⟩
  · exact BattleItem.afterGravity_position env it ticks
  · show (BattleItem.afterGravity env it ticks).1.supported = false
    rw [BattleItem.afterGravity_supported]; exact hsup
  · exact abs_nonneg _
  · simp only [bounceVelocity]
    norm_num [abs_of_neg]

/-- Witness of C13: an item whose velocity after one tick of gravity is
`(4, 0, -2)` is blocked by a left wall and gets the velocity `(-1, 0, 1/2)`. -/
theorem C13_first_obstruction_bounces_witness :
    ∃ it2, BattleItem.update
        (sampleItemEnv (some ⟨TileObjectType.LeftWall, ⟨6, 5, 10⟩, 0⟩) emptyTile) sampleWorld
        (sampleItem ⟨5, 5, 10⟩ ⟨4, 0, -3 / 2⟩ false) 1 = some (it2, sampleWorld) ∧
      it2.position = ⟨5, 5, 10⟩ ∧ it2.bounced = true ∧ it2.supported = false ∧
      it2.velocity = ⟨-1, 0, 1 / 2⟩ :=
  have h := C13_first_obstruction_bounces
    (sampleItemEnv (some ⟨TileObjectType.LeftWall, ⟨6, 5, 10⟩, 0⟩) emptyTile) sampleWorld
    (sampleItem ⟨5, 5, 10⟩ ⟨4, 0, -3 / 2⟩ false) 1 ⟨TileObjectType.LeftWall, ⟨6, 5, 10⟩, 0⟩
    rfl rfl rfl (Or.inr (Or.inl rfl))
  h.elim fun it2 h2 => ⟨it2, h2.1, h2.2.1, h2.2.2.1, h2.2.2.2.1,
    h2.2.2.2.2.1.trans (by decide!)⟩

namespace BattleItem

theorem die_result (w : ItemWorld) (it : BattleItem) (violently : Bool) (tp sp : Vec3 ℚ)
    (hto : it.tileObject = some tp) (hso : it.shadowObject = some sp) :
    die w it violently =
      some ({ it with tileObject := none, shadowObject := none },
        if it.battle then { w with items := w.items.filter fun i => i ≠ it.id } else w) := by
  simp [die, hto, hso]

theorem boundsCheck_id (env : ItemEnv) (it : BattleItem) (p q : Vec3 ℚ) (c : Bool) :
    (boundsCheck env it p q c).1.id = it.id := by
  unfold boundsCheck; simp only; split_ifs <;> rfl

theorem boundsCheck_position (env : ItemEnv) (it : BattleItem) (p q : Vec3 ℚ) (c : Bool) :
    (boundsCheck env it p q c).1.position = it.position := by
  unfold boundsCheck; simp only; split_ifs <;> rfl

theorem boundsCheck_supported (env : ItemEnv) (it : BattleItem) (p q : Vec3 ℚ) (c : Bool) :
    (boundsCheck env it p q c).1.supported = it.supported := by
  unfold boundsCheck; simp only; split_ifs <;> rfl

theorem boundsCheck_bounced (env : ItemEnv) (it : BattleItem) (p q : Vec3 ℚ) (c : Bool) :
    (boundsCheck env it p q c).1.bounced = it.bounced := by
  unfold boundsCheck; simp only; split_ifs <;> rfl

theorem boundsCheck_battle (env : ItemEnv) (it : BattleItem) (p q : Vec3 ℚ) (c : Bool) :
    (boundsCheck env it p q c).1.battle = it.battle := by
  unfold boundsCheck; simp only; split_ifs <;> rfl

theorem boundsCheck_tileObject (env : ItemEnv) (it : BattleItem) (p q : Vec3 ℚ) (c : Bool) :
    (boundsCheck env it p q c).1.tileObject = it.tileObject := by
  unfold boundsCheck; simp only; split_ifs <;> rfl

theorem boundsCheck_shadowObject (env : ItemEnv) (it : BattleItem) (p q : Vec3 ℚ) (c : Bool) :
    (boundsCheck env it p q c).1.shadowObject = it.shadowObject := by
  unfold boundsCheck; simp only; split_ifs <;> rfl

/-- The item and the position after the bounds checks do not depend on the
collision flag, and a set flag stays set. -/
theorem boundsCheck_flag (env : ItemEnv) (it : BattleItem) (p q : Vec3 ℚ) :
    boundsCheck env it p q true =
      ((boundsCheck env it p q false).1, (boundsCheck env it p q false).2.1, true) := by
  unfold boundsCheck
  simp

/-- Below the floor and horizontally inside the map, the position after the
bounds checks is still below the floor. -/
theorem boundsCheck_below_floor (env : ItemEnv) (it : BattleItem) (p q : Vec3 ℚ) (c : Bool)
    (hx0 : 0 ≤ q.x) (hx1 : q.x < (env.mapSize.x : ℚ))
    (hy0 : 0 ≤ q.y) (hy1 : q.y < (env.mapSize.y : ℚ))
    (hz : q.z < 0) :
    (boundsCheck env it p q c).2.1.z < 0 := by
  have hedge : ¬ (q.x < 0 ∨ q.y < 0 ∨ (env.mapSize.y : ℚ) ≤ q.y ∨
      (env.mapSize.x : ℚ) ≤ q.x ∨ (env.mapSize.y : ℚ) ≤ q.y) := by
    rintro (h | h | h | h | h) <;> linarith
  unfold boundsCheck
  by_cases hceil : (env.mapSize.z : ℚ) ≤ q.z
  · have h2 : (env.mapSize.z : ℚ) - 1 / 100 < 0 := by linarith
    simp only [hceil, decide_True, if_true, hedge, decide_False, Bool.false_eq_true, if_false]
    exact h2
  · simp only [hceil, decide_False, Bool.false_eq_true, if_false, hedge]
    exact hz

end BattleItem

/-- C15: for an unsupported item (with its `tileObject`), `findSupport` returns
true, and then the item is supported, if and only if the tile that owns the
item has a supporting object and either `forced` is set or the height of the
item is at most the resting height (height of the object position plus
`height / 40` of its type); with `forced = false` the height condition is
required.  When `findSupport` returns false, the item and the world, the
registrations with it, are unchanged. -/
theorem C15_findSupport_condition (env : ItemEnv) (w : ItemWorld) (it : BattleItem)
    (emitSound forced : Bool) (tp : Vec3 ℚ)
    (hsup : it.supported = false)
    (hto : it.tileObject = some tp) :
    ∃ r it2 w2, BattleItem.findSupport env w it emitSound forced = some (r, it2, w2) ∧
      (r = true ↔ ∃ obj, (env.getOwningTile tp).getItemSupportingObject = some obj ∧
        (forced = true ∨ it.position.z ≤ obj.position.z + (obj.height : ℚ) / 40)) ∧
      it2.supported = r ∧
      (r = false → it2 = it ∧ w2 = w) := by
  cases hobj : (env.getOwningTile tp).getItemSupportingObject with
  | none =>
    refine ⟨false, it, w,
      BattleItem.findSupport_no_object env w it emitSound forced tp hsup hto hobj, ?_, hsup,
      fun _ => ⟨rfl, rfl⟩⟩
    constructor
    · intro h; cases h
    · rintro ⟨obj, h, _⟩; cases h
  | some obj =>
    by_cases hz : forced = true ∨ it.position.z ≤ obj.position.z + (obj.height : ℚ) / 40
    · obtain ⟨it2, w2, h1, h2, _⟩ :=
        BattleItem.findSupport_found env w it emitSound forced tp obj hsup hto hobj hz
      refine ⟨true, it2, w2, h1, ⟨fun _ => ⟨obj, rfl, hz⟩, fun _ => rfl⟩, h2, ?_⟩
      intro h; cases h
    · have hz2 := not_or.1 hz
      have hf : forced = false := by simpa using hz2.1
      subst hf
      refine ⟨false, it, w,
        BattleItem.findSupport_too_high env w it emitSound tp obj hsup hto hobj
          (not_le.1 hz2.2), ?_, hsup, fun _ => ⟨rfl, rfl⟩⟩
      constructor
      · intro h; cases h
      · rintro ⟨obj2, h, h2⟩
        have : obj2 = obj := (Option.some.inj h).symm
        subst this
        exact absurd h2 hz

/-- Witness of C15: an item at height 3 above a supporting object with resting
height 2 is not supported by an unforced search and is supported by a forced
one. -/
theorem C15_findSupport_condition_witness :
    (∃ r it2 w2, BattleItem.findSupport (sampleItemEnv none groundTile) sampleWorld
        (sampleItem ⟨5, 5, 3⟩ ⟨0, 0, 0⟩ false) false false = some (r, it2, w2) ∧
      (r = true ↔ ∃ obj, ((sampleItemEnv none groundTile).getOwningTile
          ⟨5, 5, 3⟩).getItemSupportingObject = some obj ∧
        (false = true ∨ (sampleItem ⟨5, 5, 3⟩ ⟨0, 0, 0⟩ false).position.z
          ≤ obj.position.z + (obj.height : ℚ) / 40)) ∧
      it2.supported = r ∧
      (r = false → it2 = sampleItem ⟨5, 5, 3⟩ ⟨0, 0, 0⟩ false ∧ w2 = sampleWorld)) ∧
    (BattleItem.findSupport (sampleItemEnv none groundTile) sampleWorld
        (sampleItem ⟨5, 5, 3⟩ ⟨0, 0, 0⟩ false) false false).map (fun r => r.1)
      = some false ∧
    (BattleItem.findSupport (sampleItemEnv none groundTile) sampleWorld
        (sampleItem ⟨5, 5, 3⟩ ⟨0, 0, 0⟩ false) false true).map (fun r => r.1)
      = some true :=
  ⟨C15_findSupport_condition (sampleItemEnv none groundTile) sampleWorld
      (sampleItem ⟨5, 5, 3⟩ ⟨0, 0, 0⟩ false) false false ⟨5, 5, 3⟩ rfl rfl,
    by decide!, by decide!⟩

/-- C16: for an airborne item (with both projections) whose `update` step
meets no blocking obstruction and computes a new position, different from the
old one, that is horizontally inside the map and below height 0: `update` ends
in `die(state, false)`.  The item is removed from the item list of its battle,
its `tileObject` and `shadowObject` are detached, its position is still the
position before the step (the new position is not committed), and no support
search is made: it stays unsupported and no registration changes. -/
theorem C16_fall_below_floor_destroys (env : ItemEnv) (w : ItemWorld) (it : BattleItem)
    (ticks : Nat) (sp : Vec3 ℚ)
    (hsup : it.supported = false)
    (hso : it.shadowObject = some sp)
    (hc : BattleItem.checkItemCollision env (BattleItem.afterGravity env it ticks).1
      it.position (BattleItem.afterGravity env it ticks).2 = some none)
    (hmoved : (BattleItem.afterGravity env it ticks).2 ≠ it.position)
    (hx0 : 0 ≤ (BattleItem.afterGravity env it ticks).2.x)
    (hx1 : (BattleItem.afterGravity env it ticks).2.x < (env.mapSize.x : ℚ))
    (hy0 : 0 ≤ (BattleItem.afterGravity env it ticks).2.y)
    (hy1 : (BattleItem.afterGravity env it ticks).2.y < (env.mapSize.y : ℚ))
    (hz : (BattleItem.afterGravity env it ticks).2.z < 0) :
    (∃ it1, BattleItem.update env w it ticks = BattleItem.die w it1 false ∧
      it1.id = it.id) ∧
    ∃ it2 w2, BattleItem.update env w it ticks = some (it2, w2) ∧
      it2.tileObject = none ∧ it2.shadowObject = none ∧
      it2.position = it.position ∧ it2.supported = false ∧
      w2.supportedItems = w.supportedItems ∧
      w2.items = (if it.battle then w.items.filter fun i => i ≠ it.id else w.items) ∧
      (it.battle = true → it.id ∉ w2.items) := by
  obtain ⟨tp, htp⟩ := BattleItem.checkItemCollision_tileObject env _ _ _ _ hc
  have hfin : BattleItem.update env w it ticks =
      BattleItem.die w (BattleItem.boundsCheck env (BattleItem.afterGravity env it ticks).1
        it.position (BattleItem.afterGravity env it ticks).2 false).1 false := by
    rw [BattleItem.update_airborne env w it ticks hsup,
      BattleItem.resolveCollision_free env w _ _ _ hc]
    unfold BattleItem.finishUpdate
    rw [if_pos hmoved, htp]
    simp only
    rw [if_pos (BattleItem.boundsCheck_below_floor env _ _ _ false hx0 hx1 hy0 hy1 hz)]
  have hid := (BattleItem.boundsCheck_id env (BattleItem.afterGravity env it ticks).1
    it.position (BattleItem.afterGravity env it ticks).2 false).trans
    (BattleItem.afterGravity_id env it ticks)
  have hbat := (BattleItem.boundsCheck_battle env (BattleItem.afterGravity env it ticks).1
    it.position (BattleItem.afterGravity env it ticks).2 false).trans
    (BattleItem.afterGravity_battle env it ticks)
  have hpos := (BattleItem.boundsCheck_position env (BattleItem.afterGravity env it ticks).1
    it.position (BattleItem.afterGravity env it ticks).2 false).trans
    (BattleItem.afterGravity_position env it ticks)
  have hsu := (BattleItem.boundsCheck_supported env (BattleItem.afterGravity env it ticks).1
    it.position (BattleItem.afterGravity env it ticks).2 false).trans
    ((BattleItem.afterGravity_supported env it ticks).trans hsup)
  have hto := (BattleItem.boundsCheck_tileObject env (BattleItem.afterGravity env it ticks).1
    it.position (BattleItem.afterGravity env it ticks).2 false).trans
    htp
  have hsh := (BattleItem.boundsCheck_shadowObject env (BattleItem.afterGravity env it ticks).1
    it.position (BattleItem.afterGravity env it ticks).2 false).trans
    ((BattleItem.afterGravity_shadowObject env it ticks).trans hso)
  refine ⟨⟨_, hfin, hid⟩, ?_⟩
  rw [hfin, BattleItem.die_result w _ false tp sp hto hsh]
  refine ⟨_, _, rfl, rfl, rfl, hpos, hsu, ?_, ?_, ?_⟩
  · rw [hbat]; split <;> rfl
  · rw [hbat, hid]; split <;> rfl
  · intro hb
    rw [hbat, hid, if_pos hb]
    simp

/-- Witness of C16: an item at height 0 falls to height -1/2 in one tick and is
destroyed. -/
theorem C16_fall_below_floor_destroys_witness :
    (BattleItem.afterGravity (sampleItemEnv none emptyTile)
      (sampleItem ⟨5, 5, 0⟩ ⟨0, 0, -719 / 2⟩ false) 1).2 = ⟨5, 5, -1 / 2⟩ ∧
    ∃ it2 w2, BattleItem.update (sampleItemEnv none emptyTile) sampleWorld
        (sampleItem ⟨5, 5, 0⟩ ⟨0, 0, -719 / 2⟩ false) 1 = some (it2, w2) ∧
      it2.tileObject = none ∧ it2.shadowObject = none ∧
      it2.position = (sampleItem ⟨5, 5, 0⟩ ⟨0, 0, -719 / 2⟩ false).position ∧
      it2.supported = false ∧
      w2.supportedItems = sampleWorld.supportedItems ∧
      w2.items = (if (sampleItem ⟨5, 5, 0⟩ ⟨0, 0, -719 / 2⟩ false).battle
        then sampleWorld.items.filter
          fun i => i ≠ (sampleItem ⟨5, 5, 0⟩ ⟨0, 0, -719 / 2⟩ false).id
        else sampleWorld.items) ∧
      ((sampleItem ⟨5, 5, 0⟩ ⟨0, 0, -719 / 2⟩ false).battle = true →
        (sampleItem ⟨5, 5, 0⟩ ⟨0, 0, -719 / 2⟩ false).id ∉ w2.items) :=
  ⟨by decide!,
   (C16_fall_below_floor_destroys (sampleItemEnv none emptyTile) sampleWorld
      (sampleItem ⟨5, 5, 0⟩ ⟨0, 0, -719 / 2⟩ false) 1 ⟨5, 5, 0⟩ rfl rfl rfl
      (by decide!) (by decide!) (by decide!) (by decide!) (by decide!) (by decide!)).2⟩

/-! ## Steps of the item state -/

theorem kept_of_same (it0 it1 it2 : BattleItem) (w w2 : ItemWorld)
    (hid : it1.id = it0.id) (hs : it1.supported = it0.supported)
    (hb : it1.bounced = it0.bounced) (h : Kept it1 it2 w w2) : Kept it0 it2 w w2 :=
  ⟨h.1.trans hid, h.2.1.trans hs, h.2.2.1.trans hb, h.2.2.2⟩

theorem rested_of_same (it0 it1 it2 : BattleItem) (w w2 : ItemWorld)
    (hid : it1.id = it0.id) (hs : it1.supported = it0.supported)
    (h : Rested it1 it2 w w2) : Rested it0 it2 w w2 := by
  obtain ⟨h1, h2, h3, h4, obj, h5⟩ := h
  exact ⟨h1.trans hid, hs ▸ h2, h3, h4, obj, hid ▸ h5⟩

namespace BattleItem

theorem findSupport_step (env : ItemEnv) (w : ItemWorld) (it : BattleItem)
    (emitSound forced : Bool) (r : Bool) (it2 : BattleItem) (w2 : ItemWorld)
    (h : findSupport env w it emitSound forced = some (r, it2, w2)) :
    (it2 = it ∧ w2 = w) ∨ (r = true ∧ Rested it it2 w w2) := by
  by_cases hsup : it.supported = true
  · rw [findSupport_supported env w it emitSound forced hsup] at h
    simp only [Option.some.injEq, Prod.mk.injEq] at h
    exact Or.inl ⟨h.2.1.symm, h.2.2.symm⟩
  · cases hto : it.tileObject with
    | none =>
      have hsup2 : it.supported = false := by simpa using hsup
      simp [findSupport, hsup2, hto] at h
    | some tp =>
      rcases findSupport_cases env w it emitSound forced tp hto with
        h1 | ⟨h1, _⟩ | ⟨x, y, h1, _, _, h4⟩
      · rw [h1] at h
        simp only [Option.some.injEq, Prod.mk.injEq] at h
        exact Or.inl ⟨h.2.1.symm, h.2.2.symm⟩
      · rw [h1] at h
        simp only [Option.some.injEq, Prod.mk.injEq] at h
        exact Or.inl ⟨h.2.1.symm, h.2.2.symm⟩
      · rw [h1] at h
        simp only [Option.some.injEq, Prod.mk.injEq] at h
        obtain ⟨hr, hx, hy⟩ := h
        subst hx; subst hy
        exact Or.inr ⟨hr.symm, h4⟩

theorem searchSupport_step (env : ItemEnv) (w : ItemWorld) (it : BattleItem)
    (collision : Bool) (it2 : BattleItem) (w2 : ItemWorld)
    (h : searchSupport env w it collision = some (it2, w2)) :
    Kept it it2 w w2 ∨ Rested it it2 w w2 := by
  unfold searchSupport at h
  cases collision with
  | false =>
    simp only [Bool.false_eq_true, if_false, Option.some.injEq, Prod.mk.injEq] at h
    obtain ⟨h1, h2⟩ := h
    subst h1; subst h2
    exact Or.inl ⟨rfl, rfl, rfl, rfl⟩
  | true =>
    simp only [if_true] at h
    cases hf : findSupport env w it false false with
    | none => rw [hf] at h; cases h
    | some res =>
      obtain ⟨r, x, y⟩ := res
      rw [hf] at h
      simp only [Option.map_some', Option.some.injEq, Prod.mk.injEq] at h
      obtain ⟨h1, h2⟩ := h
      subst h1; subst h2
      rcases findSupport_step env w it false false r x y hf with ⟨e1, e2⟩ | ⟨_, hr⟩
      · subst e1; subst e2
        exact Or.inl ⟨rfl, rfl, rfl, rfl⟩
      · exact Or.inr hr

theorem die_step (w : ItemWorld) (it : BattleItem) (violently : Bool)
    (it2 : BattleItem) (w2 : ItemWorld) (h : die w it violently = some (it2, w2)) :
    Kept it it2 w w2 := by
  cases hto : it.tileObject with
  | none => simp [die, hto] at h
  | some tp =>
    cases hso : it.shadowObject with
    | none => simp [die, hto, hso] at h
    | some sp =>
      rw [die_result w it violently tp sp hto hso] at h
      simp only [Option.some.injEq, Prod.mk.injEq] at h
      obtain ⟨h1, h2⟩ := h
      subst h1; subst h2
      refine ⟨rfl, rfl, rfl, ?_⟩
      split <;> rfl

theorem finishUpdate_step (env : ItemEnv) (w : ItemWorld) (it : BattleItem)
    (p q : Vec3 ℚ) (collision : Bool) (it2 : BattleItem) (w2 : ItemWorld)
    (h : finishUpdate env w it p q collision = some (it2, w2)) :
    Kept it it2 w w2 ∨ Rested it it2 w w2 := by
  unfold finishUpdate at h
  by_cases hm : q ≠ p
  · rw [if_pos hm] at h
    cases hto : it.tileObject with
    | none => rw [hto] at h; cases h
    | some tp =>
      rw [hto] at h
      simp only at h
      have hid := boundsCheck_id env it p q collision
      have hs := boundsCheck_supported env it p q collision
      have hb := boundsCheck_bounced env it p q collision
      by_cases hz : (boundsCheck env it p q collision).2.1.z < 0
      · rw [if_pos hz] at h
        exact Or.inl (kept_of_same _ _ _ _ _ hid hs hb (die_step w _ false it2 w2 h))
      · rw [if_neg hz] at h
        rcases searchSupport_step env w _ _ it2 w2 h with hk | hr
        · exact Or.inl (kept_of_same _
            ((boundsCheck env it p q collision).1.setPosition
              (boundsCheck env it p q collision).2.1) _ _ _ hid hs hb hk)
        · exact Or.inr (rested_of_same _
            ((boundsCheck env it p q collision).1.setPosition
              (boundsCheck env it p q collision).2.1) _ _ _ hid hs hr)
  · rw [if_neg hm] at h
    exact searchSupport_step env w it collision it2 w2 h

theorem resolveCollision_step (env : ItemEnv) (w : ItemWorld) (it : BattleItem)
    (p q : Vec3 ℚ) (it2 : BattleItem) (w2 : ItemWorld)
    (hsup : it.supported = false)
    (h : resolveCollision env w it p q = some (it2, w2)) :
    Kept it it2 w w2 ∨ Rested it it2 w w2 ∨ Bounced it it2 w w2 := by
  have lift : Kept it it2 w w2 ∨ Rested it it2 w w2 →
      Kept it it2 w w2 ∨ Rested it it2 w w2 ∨ Bounced it it2 w w2 := by
    rintro (h1 | h1)
    · exact Or.inl h1
    · exact Or.inr (Or.inl h1)
  have blocked : ∀ c : Collision, checkItemCollision env it p q = some (some c) →
      (c.type = TileObjectType.Unit ∨ c.type = TileObjectType.LeftWall ∨
        c.type = TileObjectType.RightWall ∨ c.type = TileObjectType.Feature) →
      Kept it it2 w w2 ∨ Rested it it2 w w2 ∨ Bounced it it2 w w2 := by
    intro c hc hkind
    rw [resolveCollision_blocked env w it p q c hc hkind] at h
    by_cases hb : it.bounced = false
    · rw [if_pos hb, finishUpdate_unmoved] at h
      simp only [searchSupport, Bool.false_eq_true, if_false, Option.some.injEq,
        Prod.mk.injEq] at h
      obtain ⟨h1, h2⟩ := h
      subst h1; subst h2
      exact Or.inr (Or.inr ⟨rfl, hsup, hb, hsup, rfl, rfl⟩)
    · rw [if_neg hb] at h
      exact lift (finishUpdate_step env w it p _ true it2 w2 h)
  cases hc : checkItemCollision env it p q with
  | none => simp [resolveCollision, hc] at h
  | some oc =>
    cases oc with
    | none =>
      rw [resolveCollision_free env w it p q hc] at h
      exact lift (finishUpdate_step env w it p q false it2 w2 h)
    | some c =>
      cases hk : c.type with
      | Ground =>
        rw [resolveCollision_ground env w it p q c hc hk] at h
        cases hf : findSupport env w (it.setPosition c.position) true true with
        | none => rw [hf] at h; cases h
        | some res =>
          obtain ⟨r, x, y⟩ := res
          rw [hf] at h
          rcases findSupport_step env w _ true true r x y hf with ⟨e1, e2⟩ | ⟨hr1, hr⟩
          · rw [e1, e2] at h
            cases r with
            | true =>
              simp only [Option.some.injEq, Prod.mk.injEq] at h
              obtain ⟨h1, h2⟩ := h
              subst h1; subst h2
              exact Or.inl ⟨rfl, rfl, rfl, rfl⟩
            | false =>
              simp only at h
              rcases finishUpdate_step env w _ p q true it2 w2 h with hk2 | hr2
              · exact Or.inl (kept_of_same _ (it.setPosition c.position) _ _ _
                  rfl rfl rfl hk2)
              · exact Or.inr (Or.inl (rested_of_same _ (it.setPosition c.position) _ _ _
                  rfl rfl hr2))
          · subst hr1
            simp only [Option.some.injEq, Prod.mk.injEq] at h
            obtain ⟨h1, h2⟩ := h
            subst h1; subst h2
            exact Or.inr (Or.inl (rested_of_same _ (it.setPosition c.position) _ _ _
                  rfl rfl hr))
      | Other k =>
        rw [resolveCollision_other env w it p q c k hc hk] at h
        exact lift (finishUpdate_step env w it p q true it2 w2 h)
      | Unit => exact blocked c hc (Or.inl hk)
      | LeftWall => exact blocked c hc (Or.inr (Or.inl hk))
      | RightWall => exact blocked c hc (Or.inr (Or.inr (Or.inl hk)))
      | Feature => exact blocked c hc (Or.inr (Or.inr (Or.inr hk)))

/-- Every `update` keeps the flags and registrations, brings the item to rest,
or bounces it. -/
theorem update_step (env : ItemEnv) (w : ItemWorld) (it : BattleItem) (ticks : Nat)
    (it2 : BattleItem) (w2 : ItemWorld)
    (h : update env w it ticks = some (it2, w2)) :
    Kept it it2 w w2 ∨ Rested it it2 w w2 ∨ Bounced it it2 w w2 := by
  by_cases hsup : it.supported = true
  · rw [update_supported env w it ticks hsup] at h
    simp only [Option.some.injEq, Prod.mk.injEq] at h
    obtain ⟨h1, h2⟩ := h
    subst h1; subst h2
    exact Or.inl ⟨rfl, rfl, rfl, rfl⟩
  · have hsup2 : it.supported = false := by simpa using hsup
    rw [update_airborne env w it ticks hsup2] at h
    have hid := afterGravity_id env it ticks
    have hs := afterGravity_supported env it ticks
    have hb := afterGravity_bounced env it ticks
    rcases resolveCollision_step env w _ _ _ it2 w2 (hs.trans hsup2) h with h1 | h1 | h1
    · exact Or.inl (kept_of_same _ _ _ _ _ hid hs hb h1)
    · exact Or.inr (Or.inl (rested_of_same _ _ _ _ _ hid hs h1))
    · obtain ⟨g1, _, g3, g4, g5, g6⟩ := h1
      exact Or.inr (Or.inr ⟨g1.trans hid, hsup2, hb ▸ g3, g4, g5, g6⟩)

end BattleItem

/-! ## Definedness of the item operations -/

namespace BattleItem

theorem setPosition_tileObject (it : BattleItem) (pos tp : Vec3 ℚ)
    (h : it.tileObject = some tp) : (it.setPosition pos).tileObject = some pos := by
  simp [setPosition, h]

theorem setPosition_shadowObject (it : BattleItem) (pos sp : Vec3 ℚ)
    (h : it.shadowObject = some sp) : (it.setPosition pos).shadowObject = some pos := by
  simp [setPosition, h]

theorem searchSupport_defined (env : ItemEnv) (w : ItemWorld) (it : BattleItem)
    (collision : Bool) (tp : Vec3 ℚ) (hto : it.tileObject = some tp) :
    ∃ it2 w2, searchSupport env w it collision = some (it2, w2) := by
  unfold searchSupport
  cases collision with
  | false => exact ⟨it, w, rfl⟩
  | true =>
    rcases findSupport_cases env w it false false tp hto with h | ⟨h, _⟩ | ⟨x, y, h, _⟩
    · exact ⟨it, w, by simp [h]⟩
    · exact ⟨it, w, by simp [h]⟩
    · exact ⟨x, y, by simp [h]⟩

theorem finishUpdate_defined (env : ItemEnv) (w : ItemWorld) (it : BattleItem)
    (p q : Vec3 ℚ) (collision : Bool) (tp sp : Vec3 ℚ)
    (hto : it.tileObject = some tp) (hso : it.shadowObject = some sp) :
    ∃ it2 w2, finishUpdate env w it p q collision = some (it2, w2) := by
  unfold finishUpdate
  by_cases hm : q ≠ p
  · rw [if_pos hm, hto]
    simp only
    have hto2 := (boundsCheck_tileObject env it p q collision).trans hto
    have hso2 := (boundsCheck_shadowObject env it p q collision).trans hso
    by_cases hz : (boundsCheck env it p q collision).2.1.z < 0
    · rw [if_pos hz, die_result w _ false tp sp hto2 hso2]
      exact ⟨_, _, rfl⟩
    · rw [if_neg hz]
      exact searchSupport_defined env w _ _ _ (setPosition_tileObject _ _ tp hto2)
  · rw [if_neg hm]
    exact searchSupport_defined env w it collision tp hto

theorem checkItemCollision_defined (env : ItemEnv) (it : BattleItem) (p q tp : Vec3 ℚ)
    (hto : it.tileObject = some tp) : ∃ r, checkItemCollision env it p q = some r := by
  unfold checkItemCollision
  rw [hto]
  simp only
  cases env.findCollision p q with
  | none => exact ⟨none, rfl⟩
  | some c =>
    simp only
    split
    · exact ⟨none, rfl⟩
    · exact ⟨some c, rfl⟩

theorem resolveCollision_defined (env : ItemEnv) (w : ItemWorld) (it : BattleItem)
    (p q : Vec3 ℚ) (tp sp : Vec3 ℚ)
    (hto : it.tileObject = some tp) (hso : it.shadowObject = some sp) :
    ∃ it2 w2, resolveCollision env w it p q = some (it2, w2) := by
  obtain ⟨r, hc⟩ := checkItemCollision_defined env it p q tp hto
  cases r with
  | none =>
    rw [resolveCollision_free env w it p q hc]
    exact finishUpdate_defined env w it p q false tp sp hto hso
  | some c =>
    cases hk : c.type with
    | Ground =>
      rw [resolveCollision_ground env w it p q c hc hk]
      have hto2 := setPosition_tileObject it c.position tp hto
      have hso2 := setPosition_shadowObject it c.position sp hso
      rcases findSupport_cases env w (it.setPosition c.position) true true c.position hto2
        with h | ⟨h, _⟩ | ⟨x, y, h, _⟩
      · rw [h]
        exact finishUpdate_defined env w _ p q true _ _ hto2 hso2
      · rw [h]; exact ⟨_, _, rfl⟩
      · rw [h]; exact ⟨_, _, rfl⟩
    | Other k =>
      rw [resolveCollision_other env w it p q c k hc hk]
      exact finishUpdate_defined env w it p q true tp sp hto hso
    | Unit =>
      rw [resolveCollision_blocked env w it p q c hc (Or.inl hk)]
      split
      · exact finishUpdate_defined env w _ p p false tp sp hto hso
      · exact finishUpdate_defined env w it p _ true tp sp hto hso
    | LeftWall =>
      rw [resolveCollision_blocked env w it p q c hc (Or.inr (Or.inl hk))]
      split
      · exact finishUpdate_defined env w _ p p false tp sp hto hso
      · exact finishUpdate_defined env w it p _ true tp sp hto hso
    | RightWall =>
      rw [resolveCollision_blocked env w it p q c hc (Or.inr (Or.inr (Or.inl hk)))]
      split
      · exact finishUpdate_defined env w _ p p false tp sp hto hso
      · exact finishUpdate_defined env w it p _ true tp sp hto hso
    | Feature =>
      rw [resolveCollision_blocked env w it p q c hc (Or.inr (Or.inr (Or.inr hk)))]
      split
      · exact finishUpdate_defined env w _ p p false tp sp hto hso
      · exact finishUpdate_defined env w it p _ true tp sp hto hso

/-- On an item with both projections `update` has a result. -/
theorem update_defined (env : ItemEnv) (w : ItemWorld) (it : BattleItem) (ticks : Nat)
    (tp sp : Vec3 ℚ) (hto : it.tileObject = some tp) (hso : it.shadowObject = some sp) :
    ∃ it2 w2, update env w it ticks = some (it2, w2) := by
  by_cases hsup : it.supported = true
  · exact ⟨it, w, update_supported env w it ticks hsup⟩
  · have hsup2 : it.supported = false := by simpa using hsup
    rw [update_airborne env w it ticks hsup2]
    exact resolveCollision_defined env w _ _ _ tp sp
      ((afterGravity_tileObject env it ticks).trans hto)
      ((afterGravity_shadowObject env it ticks).trans hso)

end BattleItem

/-! ## The item invariant -/

theorem ItemInvariant.of_kept {it it2 : BattleItem} {w w2 : ItemWorld}
    (h : Kept it it2 w w2) (hinv : ItemInvariant it w) : ItemInvariant it2 w2 := by
  obtain ⟨h1, h2, _, h4⟩ := h
  unfold ItemInvariant registrations at *
  rw [h1, h2, h4]
  exact hinv

theorem ItemInvariant.of_rested {it it2 : BattleItem} {w w2 : ItemWorld}
    (h : Rested it it2 w w2) (hinv : ItemInvariant it w) : ItemInvariant it2 w2 := by
  obtain ⟨h1, h2, h3, _, obj, h5⟩ := h
  unfold ItemInvariant registrations at *
  rcases hinv with ⟨_, hr⟩ | ⟨hs, _⟩
  · right
    refine ⟨h3, ?_⟩
    rw [h1, h5, List.filter_append, List.length_append, hr]
    simp
  · rw [h2] at hs; cases hs

theorem ItemInvariant.of_bounced {it it2 : BattleItem} {w w2 : ItemWorld}
    (h : Bounced it it2 w w2) (hinv : ItemInvariant it w) : ItemInvariant it2 w2 := by
  obtain ⟨h1, h2, _, h4, _, h6⟩ := h
  unfold ItemInvariant registrations at *
  rw [h2] at hinv
  rw [h1, h4, h6]
  exact hinv

/-- C17: the item invariant (airborne and registered with no supporting
object, or supported and registered exactly once, with exactly one object) is
preserved by `findSupport` and by `update`, which both have a result on an item
with its projections.  `findSupport` adds a registration of the item exactly
when it switches `supported` from false to true, and then `bounced` is cleared.
On an item that is supported already `findSupport` returns true and `update`
returns, both without a change of the item or of the world. -/
theorem C17_item_invariant_preserved (env : ItemEnv) (w : ItemWorld) (it : BattleItem)
    (ticks : Nat) (emitSound forced : Bool) (tp sp : Vec3 ℚ)
    (hto : it.tileObject = some tp)
    (hso : it.shadowObject = some sp)
    (hinv : ItemInvariant it w) :
    (∃ r it2 w2, BattleItem.findSupport env w it emitSound forced = some (r, it2, w2) ∧
      ItemInvariant it2 w2 ∧
      ((it.supported = false ∧ it2.supported = true) →
        it2.bounced = false ∧
        ∃ obj : Nat, w2.supportedItems = w.supportedItems ++ [(obj, it.id)]) ∧
      (¬ (it.supported = false ∧ it2.supported = true) →
        w2.supportedItems = w.supportedItems)) ∧
    (∃ it2 w2, BattleItem.update env w it ticks = some (it2, w2) ∧ ItemInvariant it2 w2) ∧
    (it.supported = true →
      BattleItem.findSupport env w it emitSound forced = some (true, it, w) ∧
      BattleItem.update env w it ticks = some (it, w)) := by
  refine ⟨?_, ?_, fun hs => ⟨BattleItem.findSupport_supported env w it emitSound forced hs,
    BattleItem.update_supported env w it ticks hs⟩⟩
  · rcases BattleItem.findSupport_cases env w it emitSound forced tp hto with
      h | ⟨h, _⟩ | ⟨x, y, h, _, _, hr⟩
    · refine ⟨false, it, w, h, hinv, ?_, fun _ => rfl⟩
      rintro ⟨h1, h2⟩
      rw [h1] at h2; cases h2
    · refine ⟨true, it, w, h, hinv, ?_, fun _ => rfl⟩
      rintro ⟨h1, h2⟩
      rw [h1] at h2; cases h2
    · refine ⟨true, x, y, h, ItemInvariant.of_rested hr hinv, fun _ => ⟨hr.2.2.2.1, hr.2.2.2.2⟩,
        fun hn => absurd ⟨hr.2.1, hr.2.2.1⟩ hn⟩
  · obtain ⟨it2, w2, h⟩ := BattleItem.update_defined env w it ticks tp sp hto hso
    refine ⟨it2, w2, h, ?_⟩
    rcases BattleItem.update_step env w it ticks it2 w2 h with h1 | h1 | h1
    · exact ItemInvariant.of_kept h1 hinv
    · exact ItemInvariant.of_rested h1 hinv
    · exact ItemInvariant.of_bounced h1 hinv

/-- Witness of C17: an airborne, unregistered item that hits the ground above a
supporting object. -/
theorem C17_item_invariant_preserved_witness :
    ∃ it2 w2, BattleItem.update
        (sampleItemEnv (some ⟨TileObjectType.Ground, ⟨5, 5, 2⟩, 0⟩) groundTile) sampleWorld
        (sampleItem ⟨5, 5, 10⟩ ⟨0, 0, -1⟩ false) 1 = some (it2, w2) ∧
      ItemInvariant it2 w2 :=
  (C17_item_invariant_preserved
    (sampleItemEnv (some ⟨TileObjectType.Ground, ⟨5, 5, 2⟩, 0⟩) groundTile) sampleWorld
    (sampleItem ⟨5, 5, 10⟩ ⟨0, 0, -1⟩ false) 1 false false ⟨5, 5, 10⟩ ⟨5, 5, 10⟩ rfl rfl
    (Or.inl ⟨rfl, rfl⟩)).2.1

/-! ## Bounces along a sequence of updates -/

theorem bounceTransitions_zero (calls : List (ItemEnv × Nat)) (w : ItemWorld)
    (it : BattleItem) (h : it.bounced = true ∨ it.supported = true) :
    bounceTransitions w it calls = 0 := by
  induction calls generalizing w it with
  | nil => rfl
  | cons call rest ih =>
    obtain ⟨env, ticks⟩ := call
    unfold bounceTransitions
    cases hu : BattleItem.update env w it ticks with
    | none => rfl
    | some res =>
      obtain ⟨it2, w2⟩ := res
      simp only
      have hstep := BattleItem.update_step env w it ticks it2 w2 hu
      have hkeep : it2.bounced = true ∨ it2.supported = true := by
        rcases hstep with h1 | h1 | h1
        · rcases h with hb | hs
          · exact Or.inl (h1.2.2.1.trans hb)
          · exact Or.inr (h1.2.1.trans hs)
        · exact Or.inr h1.2.2.1
        · rcases h with hb | hs
          · rw [h1.2.2.1] at hb; cases hb
          · rw [h1.2.1] at hs; cases hs
      have hind : ¬ (it.bounced = false ∧ it2.bounced = true) := by
        rintro ⟨hf, ht⟩
        rcases hstep with h1 | h1 | h1
        · rw [h1.2.2.1, hf] at ht; cases ht
        · rw [h1.2.2.2.1] at ht; cases ht
        · rcases h with hb | hs
          · rw [hf] at hb; cases hb
          · rw [h1.2.1] at hs; cases hs
      rw [if_neg hind, ih w2 it2 hkeep]

theorem bounceTransitions_le_one (calls : List (ItemEnv × Nat)) (w : ItemWorld)
    (it : BattleItem) : bounceTransitions w it calls ≤ 1 := by
  induction calls generalizing w it with
  | nil => exact Nat.zero_le 1
  | cons call rest ih =>
    obtain ⟨env, ticks⟩ := call
    unfold bounceTransitions
    cases hu : BattleItem.update env w it ticks with
    | none => exact Nat.zero_le 1
    | some res =>
      obtain ⟨it2, w2⟩ := res
      simp only
      by_cases hind : it.bounced = false ∧ it2.bounced = true
      · rw [if_pos hind, bounceTransitions_zero rest w2 it2 (Or.inl hind.2)]
      · rw [if_neg hind, Nat.zero_add]
        exact ih w2 it2

/-- C14: `update` on an airborne item with `bounced = true` (and both
projections) has a result with `bounced = true` unless the call ends with
`supported = true`; when its step is blocked by a unit, a wall or a feature it
does not bounce: it goes on with the velocity left by the gravity loop and the
position clamped below.  Hence along every sequence of `update` calls, each
with its own map state and tick count, `bounced` changes from false to true at
most once. -/
theorem C14_bounce_at_most_once (env : ItemEnv) (w : ItemWorld) (it : BattleItem)
    (ticks : Nat) (tp sp : Vec3 ℚ) (calls : List (ItemEnv × Nat)) (w0 : ItemWorld)
    (it0 : BattleItem)
    (hsup : it.supported = false)
    (hb : it.bounced = true)
    (hto : it.tileObject = some tp)
    (hso : it.shadowObject = some sp) :
    (∃ it2 w2, BattleItem.update env w it ticks = some (it2, w2) ∧
      (it2.bounced = true ∨ it2.supported = true)) ∧
    (∀ c, BattleItem.checkItemCollision env (BattleItem.afterGravity env it ticks).1
        it.position (BattleItem.afterGravity env it ticks).2 = some (some c) →
      (c.type = TileObjectType.Unit ∨ c.type = TileObjectType.LeftWall ∨
        c.type = TileObjectType.RightWall ∨ c.type = TileObjectType.Feature) →
      BattleItem.update env w it ticks =
        BattleItem.finishUpdate env w (BattleItem.afterGravity env it ticks).1 it.position
          ⟨it.position.x, it.position.y,
            min (BattleItem.afterGravity env it ticks).2.z it.position.z⟩ true) ∧
    bounceTransitions w0 it0 calls ≤ 1 := by
  refine ⟨?_, ?_, bounceTransitions_le_one calls w0 it0⟩
  · obtain ⟨it2, w2, h⟩ := BattleItem.update_defined env w it ticks tp sp hto hso
    refine ⟨it2, w2, h, ?_⟩
    rcases BattleItem.update_step env w it ticks it2 w2 h with h1 | h1 | h1
    · exact Or.inl (h1.2.2.1.trans hb)
    · exact Or.inr h1.2.2.1
    · rw [h1.2.2.1] at hb; cases hb
  · intro c hc hkind
    have hb1 : ¬ (BattleItem.afterGravity env it ticks).1.bounced = false := by
      rw [BattleItem.afterGravity_bounced, hb]; simp
    rw [BattleItem.update_airborne env w it ticks hsup,
      BattleItem.resolveCollision_blocked env w _ _ _ c hc hkind, if_neg hb1]

/-- Witness of C14: a bounced item blocked by a left wall keeps `bounced` and
is not reflected; over three updates against the wall the flag changes at most
once. -/
theorem C14_bounce_at_most_once_witness :
    (∃ it2 w2, BattleItem.update
        (sampleItemEnv (some ⟨TileObjectType.LeftWall, ⟨6, 5, 10⟩, 0⟩) emptyTile) sampleWorld
        (sampleItem ⟨5, 5, 10⟩ ⟨864, 0, 0⟩ true) 1 = some (it2, w2) ∧
      (it2.bounced = true ∨ it2.supported = true)) ∧
    bounceTransitions sampleWorld (sampleItem ⟨5, 5, 10⟩ ⟨864, 0, 0⟩ false)
      [(sampleItemEnv (some ⟨TileObjectType.LeftWall, ⟨6, 5, 10⟩, 0⟩) emptyTile, 1),
       (sampleItemEnv (some ⟨TileObjectType.LeftWall, ⟨6, 5, 10⟩, 0⟩) emptyTile, 1),
       (sampleItemEnv (some ⟨TileObjectType.LeftWall, ⟨6, 5, 10⟩, 0⟩) emptyTile, 1)] ≤ 1 :=
  ⟨(C14_bounce_at_most_once
      (sampleItemEnv (some ⟨TileObjectType.LeftWall, ⟨6, 5, 10⟩, 0⟩) emptyTile) sampleWorld
      (sampleItem ⟨5, 5, 10⟩ ⟨864, 0, 0⟩ true) 1 ⟨5, 5, 10⟩ ⟨5, 5, 10⟩ [] sampleWorld
      (sampleItem ⟨5, 5, 10⟩ ⟨864, 0, 0⟩ true) rfl rfl rfl rfl).1,
   (C14_bounce_at_most_once
      (sampleItemEnv (some ⟨TileObjectType.LeftWall, ⟨6, 5, 10⟩, 0⟩) emptyTile) sampleWorld
      (sampleItem ⟨5, 5, 10⟩ ⟨864, 0, 0⟩ true) 1 ⟨5, 5, 10⟩ ⟨5, 5, 10⟩
      [(sampleItemEnv (some ⟨TileObjectType.LeftWall, ⟨6, 5, 10⟩, 0⟩) emptyTile, 1),
       (sampleItemEnv (some ⟨TileObjectType.LeftWall, ⟨6, 5, 10⟩, 0⟩) emptyTile, 1),
       (sampleItemEnv (some ⟨TileObjectType.LeftWall, ⟨6, 5, 10⟩, 0⟩) emptyTile, 1)]
      sampleWorld (sampleItem ⟨5, 5, 10⟩ ⟨864, 0, 0⟩ false) rfl rfl rfl rfl).2.2⟩

/-- C18, counterexample: a bounced item at `(5, 5, 10)` with velocity
`(864, 0, 0)` attempts the step to `(6, 5, 14399/1440)` and is blocked by a left
wall.  It ends the tick at `(5, 5, 14399/1440)`: the horizontal coordinates are
those before the step, not those of the attempted step. -/
theorem C18_blocked_item_keeps_old_horizontal_position :
    (BattleItem.afterGravity
      (sampleItemEnv (some ⟨TileObjectType.LeftWall, ⟨6, 5, 10⟩, 0⟩) emptyTile)
      (sampleItem ⟨5, 5, 10⟩ ⟨864, 0, 0⟩ true) 1).2 = ⟨6, 5, 14399 / 1440⟩ ∧
    (BattleItem.update
      (sampleItemEnv (some ⟨TileObjectType.LeftWall, ⟨6, 5, 10⟩, 0⟩) emptyTile) sampleWorld
      (sampleItem ⟨5, 5, 10⟩ ⟨864, 0, 0⟩ true) 1).map (fun r => r.1.position)
      = some ⟨5, 5, 14399 / 1440⟩ ∧
    (5 : ℚ) ≠ 6 := by
  decide!

/-- C18, amended: for an airborne item with `bounced = true` whose `update`
step is blocked by a unit, a wall or a feature, the new position used for the
rest of the tick has the horizontal coordinates of the position before the
step and the height `min(attempted height, height before the step)`; the rest
of `update` runs with the collision flag set and with the item as the gravity
loop left it, its velocity not reflected. -/
theorem C18_blocked_after_bounce_falls_in_place (env : ItemEnv) (w : ItemWorld)
    (it : BattleItem) (ticks : Nat) (c : Collision)
    (hsup : it.supported = false)
    (hb : it.bounced = true)
    (hc : BattleItem.checkItemCollision env (BattleItem.afterGravity env it ticks).1
      it.position (BattleItem.afterGravity env it ticks).2 = some (some c))
    (hkind : c.type = TileObjectType.Unit ∨ c.type = TileObjectType.LeftWall ∨
      c.type = TileObjectType.RightWall ∨ c.type = TileObjectType.Feature) :
    BattleItem.update env w it ticks =
      BattleItem.finishUpdate env w (BattleItem.afterGravity env it ticks).1 it.position
        ⟨it.position.x, it.position.y,
          min (BattleItem.afterGravity env it ticks).2.z it.position.z⟩ true := by
  have hb1 : ¬ (BattleItem.afterGravity env it ticks).1.bounced = false := by
    rw [BattleItem.afterGravity_bounced, hb]; simp
  rw [BattleItem.update_airborne env w it ticks hsup,
    BattleItem.resolveCollision_blocked env w _ _ _ c hc hkind, if_neg hb1]

/-- Witness of the amended C18: the bounced item blocked by a left wall. -/
theorem C18_blocked_after_bounce_falls_in_place_witness :
    BattleItem.update
      (sampleItemEnv (some ⟨TileObjectType.LeftWall, ⟨6, 5, 10⟩, 0⟩) emptyTile) sampleWorld
      (sampleItem ⟨5, 5, 10⟩ ⟨864, 0, 0⟩ true) 1 =
    BattleItem.finishUpdate
      (sampleItemEnv (some ⟨TileObjectType.LeftWall, ⟨6, 5, 10⟩, 0⟩) emptyTile) sampleWorld
      (BattleItem.afterGravity
        (sampleItemEnv (some ⟨TileObjectType.LeftWall, ⟨6, 5, 10⟩, 0⟩) emptyTile)
        (sampleItem ⟨5, 5, 10⟩ ⟨864, 0, 0⟩ true) 1).1
      (sampleItem ⟨5, 5, 10⟩ ⟨864, 0, 0⟩ true).position
      ⟨(sampleItem ⟨5, 5, 10⟩ ⟨864, 0, 0⟩ true).position.x,
        (sampleItem ⟨5, 5, 10⟩ ⟨864, 0, 0⟩ true).position.y,
        min (BattleItem.afterGravity
          (sampleItemEnv (some ⟨TileObjectType.LeftWall, ⟨6, 5, 10⟩, 0⟩) emptyTile)
          (sampleItem ⟨5, 5, 10⟩ ⟨864, 0, 0⟩ true) 1).2.z
          (sampleItem ⟨5, 5, 10⟩ ⟨864, 0, 0⟩ true).position.z⟩ true :=
  C18_blocked_after_bounce_falls_in_place
    (sampleItemEnv (some ⟨TileObjectType.LeftWall, ⟨6, 5, 10⟩, 0⟩) emptyTile) sampleWorld
    (sampleItem ⟨5, 5, 10⟩ ⟨864, 0, 0⟩ true) 1 ⟨TileObjectType.LeftWall, ⟨6, 5, 10⟩, 0⟩
    rfl rfl rfl (Or.inr (Or.inl rfl))

/-! ## An obstruction of unexpected kind -/

namespace BattleItem

/-- A support search after a support search changes nothing more. -/
theorem searchSupport_absorb (env : ItemEnv) (w : ItemWorld) (it : BattleItem)
    (collision : Bool) (tp : Vec3 ℚ) (hto : it.tileObject = some tp) :
    (searchSupport env w it collision).bind (thenSearch env) = searchSupport env w it true := by
  have hne : ¬ it.tileObject = none := by rw [hto]; simp
  cases collision with
  | false =>
    simp only [searchSupport, Bool.false_eq_true, if_false, Option.some_bind, thenSearch,
      hne, if_true]
  | true =>
    rcases findSupport_cases env w it false false tp hto with h | ⟨h, _⟩ | ⟨x, y, h, hx, _, hr⟩
    · have hs : searchSupport env w it true = some (it, w) := by
        simp [searchSupport, h]
      rw [hs, Option.some_bind]
      simp only [thenSearch, hne, if_false]
      exact hs
    · have hs : searchSupport env w it true = some (it, w) := by
        simp [searchSupport, h]
      rw [hs, Option.some_bind]
      simp only [thenSearch, hne, if_false]
      exact hs
    · have hs : searchSupport env w it true = some (x, y) := by
        simp [searchSupport, h]
      have hxne : ¬ x.tileObject = none := by
        intro hn; rw [hn] at hx; cases hx
      rw [hs, Option.some_bind]
      simp only [thenSearch, hxne, if_false]
      simp [searchSupport, findSupport_supported env y x false false hr.2.2.1]

/-- The end of `update` with the collision flag set is the end of `update`
without it, followed by a support search unless the item was destroyed. -/
theorem finishUpdate_flag (env : ItemEnv) (w : ItemWorld) (it : BattleItem)
    (p q : Vec3 ℚ) (tp : Vec3 ℚ) (hto : it.tileObject = some tp) :
    finishUpdate env w it p q true =
      (finishUpdate env w it p q false).bind (thenSearch env) := by
  unfold finishUpdate
  by_cases hm : q ≠ p
  · rw [if_pos hm, if_pos hm, hto]
    simp only
    rw [boundsCheck_flag]
    simp only
    have hto2 := (boundsCheck_tileObject env it p q false).trans hto
    by_cases hz : (boundsCheck env it p q false).2.1.z < 0
    · rw [if_pos hz, if_pos hz]
      cases hso : (boundsCheck env it p q false).1.shadowObject with
      | none => simp [die, hto2, hso]
      | some sp =>
        rw [die_result w _ false tp sp hto2 hso, Option.some_bind]
        simp [thenSearch]
    · rw [if_neg hz, if_neg hz]
      exact (searchSupport_absorb env w _ _ _ (setPosition_tileObject _ _ tp hto2)).symm
  · rw [if_neg hm, if_neg hm]
    exact (searchSupport_absorb env w it false tp hto).symm

theorem integrate_findCollision (env : ItemEnv) (f : Vec3 ℚ → Vec3 ℚ → Option Collision)
    (n : Nat) (s : Vec3 ℚ × Vec3 ℚ) :
    integrate { env with findCollision := f } n s = integrate env n s := by
  induction n generalizing s with
  | zero => rfl
  | succ n ih =>
    obtain ⟨v, p⟩ := s
    simp only [integrate]
    exact ih _

theorem afterGravity_findCollision (env : ItemEnv)
    (f : Vec3 ℚ → Vec3 ℚ → Option Collision) (it : BattleItem) (ticks : Nat) :
    afterGravity { env with findCollision := f } it ticks = afterGravity env it ticks := by
  simp only [afterGravity, integrate_findCollision]

theorem finishUpdate_findCollision (env : ItemEnv)
    (f : Vec3 ℚ → Vec3 ℚ → Option Collision) (w : ItemWorld) (it : BattleItem)
    (p q : Vec3 ℚ) (c : Bool) :
    finishUpdate { env with findCollision := f } w it p q c = finishUpdate env w it p q c :=
  rfl

/-- The `update` call in which the spatial query reports no obstruction. -/
theorem update_without_obstruction (env : ItemEnv) (w : ItemWorld) (it : BattleItem)
    (ticks : Nat) (tp : Vec3 ℚ)
    (hsup : it.supported = false) (hto : it.tileObject = some tp) :
    update { env with findCollision := fun _ _ => none } w it ticks =
      finishUpdate env w (afterGravity env it ticks).1 it.position
        (afterGravity env it ticks).2 false := by
  rw [update_airborne _ w it ticks hsup, afterGravity_findCollision]
  have hc : checkItemCollision { env with findCollision := fun _ _ => none }
      (afterGravity env it ticks).1 it.position (afterGravity env it ticks).2 = some none := by
    simp [checkItemCollision, (afterGravity_tileObject env it ticks).trans hto]
  rw [resolveCollision_free _ w _ _ _ hc, finishUpdate_findCollision]

end BattleItem

/-- C19, counterexample: an item at height 2 above a supporting object with
resting height 2 falls for one tick and meets an obstruction of unexpected
kind.  `update` ends with the item supported and registered; the same call
with no obstruction reported leaves the item airborne. -/
theorem C19_unexpected_obstruction_changes_outcome :
    (BattleItem.update (sampleItemEnv (some ⟨TileObjectType.Other 0, ⟨5, 5, 2⟩, 0⟩) groundTile)
      sampleWorld (sampleItem ⟨5, 5, 2⟩ ⟨0, 0, 0⟩ false) 1).map
        (fun r => (r.1.supported, r.1.position, r.2.supportedItems))
      = some (true, ⟨5, 5, 2⟩, [(7, 1)]) ∧
    (BattleItem.update (sampleItemEnv none groundTile)
      sampleWorld (sampleItem ⟨5, 5, 2⟩ ⟨0, 0, 0⟩ false) 1).map
        (fun r => (r.1.supported, r.1.position, r.2.supportedItems))
      = some (false, ⟨5, 5, 2879 / 1440⟩, []) := by
  decide!

/-- C19, amended: when the obstruction returned for an `update` step is of a
kind other than unit, wall, feature or ground, `update` changes neither the new
position nor the velocity on its account, but goes on with the collision flag
set.  The result is that of the same `update` call in which the spatial query
reports no obstruction, followed by an unforced support search unless the item
was destroyed. -/
theorem C19_unexpected_obstruction_searches_support (env : ItemEnv) (w : ItemWorld)
    (it : BattleItem) (ticks : Nat) (c : Collision) (k : Nat)
    (hsup : it.supported = false)
    (hc : BattleItem.checkItemCollision env (BattleItem.afterGravity env it ticks).1
      it.position (BattleItem.afterGravity env it ticks).2 = some (some c))
    (hk : c.type = TileObjectType.Other k) :
    BattleItem.update env w it ticks =
      BattleItem.finishUpdate env w (BattleItem.afterGravity env it ticks).1 it.position
        (BattleItem.afterGravity env it ticks).2 true ∧
    BattleItem.update { env with findCollision := fun _ _ => none } w it ticks =
      BattleItem.finishUpdate env w (BattleItem.afterGravity env it ticks).1 it.position
        (BattleItem.afterGravity env it ticks).2 false ∧
    BattleItem.update env w it ticks =
      (BattleItem.update { env with findCollision := fun _ _ => none } w it ticks).bind
        (thenSearch env) := by
  obtain ⟨tp, htp⟩ := BattleItem.checkItemCollision_tileObject env _ _ _ _ hc
  have hto : it.tileObject = some tp :=
    (BattleItem.afterGravity_tileObject env it ticks).symm.trans htp
  have h1 : BattleItem.update env w it ticks =
      BattleItem.finishUpdate env w (BattleItem.afterGravity env it ticks).1 it.position
        (BattleItem.afterGravity env it ticks).2 true := by
    rw [BattleItem.update_airborne env w it ticks hsup,
      BattleItem.resolveCollision_other env w _ _ _ c k hc hk]
  have h2 := BattleItem.update_without_obstruction env w it ticks tp hsup hto
  refine ⟨h1, h2, ?_⟩
  rw [h1, h2]
  exact BattleItem.finishUpdate_flag env w _ _ _ tp htp

/-- Witness of the amended C19: the item above the supporting object that meets
an obstruction of unexpected kind. -/
theorem C19_unexpected_obstruction_searches_support_witness :
    BattleItem.update (sampleItemEnv (some ⟨TileObjectType.Other 0, ⟨5, 5, 2⟩, 0⟩) groundTile)
      sampleWorld (sampleItem ⟨5, 5, 2⟩ ⟨0, 0, 0⟩ false) 1 =
    (BattleItem.update
      { sampleItemEnv (some ⟨TileObjectType.Other 0, ⟨5, 5, 2⟩, 0⟩) groundTile with
        findCollision := fun _ _ => none }
      sampleWorld (sampleItem ⟨5, 5, 2⟩ ⟨0, 0, 0⟩ false) 1).bind
      (thenSearch (sampleItemEnv (some ⟨TileObjectType.Other 0, ⟨5, 5, 2⟩, 0⟩) groundTile)) :=
  (C19_unexpected_obstruction_searches_support
    (sampleItemEnv (some ⟨TileObjectType.Other 0, ⟨5, 5, 2⟩, 0⟩) groundTile) sampleWorld
    (sampleItem ⟨5, 5, 2⟩ ⟨0, 0, 0⟩ false) 1 ⟨TileObjectType.Other 0, ⟨5, 5, 2⟩, 0⟩ 0
    rfl rfl rfl).2.2

/-! ## The gravity loop -/

/-- The gravity loop in closed form. -/
theorem integrate_closed_form (env : ItemEnv) (n : Nat) (v p : Vec3 ℚ) :
    integrate env n (v, p) =
      (⟨v.x, v.y, v.z - (n : ℚ) * env.FALLING_ACCELERATION_ITEM⟩,
       ⟨p.x + (n : ℚ) * v.x / (env.TICK_SCALE * env.VELOCITY_SCALE_BATTLE.x),
        p.y + (n : ℚ) * v.y / (env.TICK_SCALE * env.VELOCITY_SCALE_BATTLE.y),
        p.z + ((n : ℚ) * v.z
            - env.FALLING_ACCELERATION_ITEM * (n : ℚ) * ((n : ℚ) + 1) / 2)
          / (env.TICK_SCALE * env.VELOCITY_SCALE_BATTLE.z)⟩) := by
  induction n generalizing v p with
  | zero => simp [integrate]
  | succ n ih =>
    simp only [integrate]
    rw [ih]
    simp only [Prod.mk.injEq, Vec3.mk.injEq, true_and]
    push_cast
    refine ⟨by ring, by ring, by ring, by ring⟩

theorem intOfUnsigned_small (n : Nat) (h : n < 2 ^ 31) : (intOfUnsigned n).toNat = n := by
  have h1 : n % 2 ^ 32 = n := Nat.mod_eq_of_lt (by omega)
  unfold intOfUnsigned
  rw [h1, if_pos h]
  exact Int.toNat_natCast n

namespace BattleItem

theorem afterGravity_closed_form (env : ItemEnv) (it : BattleItem) (n : Nat)
    (h : n < 2 ^ 31) :
    (afterGravity env it n).1.velocity
      = ⟨it.velocity.x, it.velocity.y,
          it.velocity.z - (n : ℚ) * env.FALLING_ACCELERATION_ITEM⟩ ∧
    (afterGravity env it n).2
      = ⟨it.position.x
          + (n : ℚ) * it.velocity.x / (env.TICK_SCALE * env.VELOCITY_SCALE_BATTLE.x),
        it.position.y
          + (n : ℚ) * it.velocity.y / (env.TICK_SCALE * env.VELOCITY_SCALE_BATTLE.y),
        it.position.z + ((n : ℚ) * it.velocity.z
            - env.FALLING_ACCELERATION_ITEM * (n : ℚ) * ((n : ℚ) + 1) / 2)
          / (env.TICK_SCALE * env.VELOCITY_SCALE_BATTLE.z)⟩ := by
  unfold afterGravity
  simp only [intOfUnsigned_small n h]
  split <;> simp [integrate_closed_form]

theorem boundsCheck_inside (env : ItemEnv) (it : BattleItem) (p q : Vec3 ℚ) (c : Bool)
    (hz1 : q.z < (env.mapSize.z : ℚ))
    (hx0 : 0 ≤ q.x) (hx1 : q.x < (env.mapSize.x : ℚ))
    (hy0 : 0 ≤ q.y) (hy1 : q.y < (env.mapSize.y : ℚ)) :
    boundsCheck env it p q c = (it, q, c) := by
  have hceil : ¬ (env.mapSize.z : ℚ) ≤ q.z := not_le.2 hz1
  have hedge : ¬ (q.x < 0 ∨ q.y < 0 ∨ (env.mapSize.y : ℚ) ≤ q.y ∨
      (env.mapSize.x : ℚ) ≤ q.x ∨ (env.mapSize.y : ℚ) ≤ q.y) := by
    rintro (h | h | h | h | h) <;> linarith
  unfold boundsCheck
  simp only [hceil, decide_False, Bool.false_eq_true, if_false, hedge, Bool.or_false]

/-- In free flight `update` commits the position and the velocity left by the
gravity loop and changes nothing in the world. -/
theorem update_freeFlight (env : ItemEnv) (w : ItemWorld) (it : BattleItem) (ticks : Nat)
    (h : freeFlight env it ticks = true) :
    ∃ it2, update env w it ticks = some (it2, w) ∧
      it2.position = (afterGravity env it ticks).2 ∧
      it2.velocity = (afterGravity env it ticks).1.velocity := by
  simp only [freeFlight, Bool.and_eq_true, Bool.not_eq_true', decide_eq_true_eq] at h
  obtain ⟨⟨⟨⟨⟨⟨⟨⟨hsup, hto⟩, hc⟩, hz1⟩, hx0⟩, hx1⟩, hy0⟩, hy1⟩, hz0⟩ := h
  obtain ⟨tp, htp⟩ := Option.isSome_iff_exists.1 hto
  rw [update_airborne env w it ticks hsup, resolveCollision_free env w _ _ _ hc]
  unfold finishUpdate
  by_cases hm : (afterGravity env it ticks).2 ≠ it.position
  · rw [if_pos hm, (afterGravity_tileObject env it ticks).trans htp]
    simp only
    rw [boundsCheck_inside env _ _ _ false hz1 hx0 hx1 hy0 hy1]
    simp only
    rw [if_neg (not_lt.2 hz0)]
    exact ⟨_, rfl, rfl, rfl⟩
  · rw [if_neg hm]
    refine ⟨_, rfl, ?_, rfl⟩
    rw [afterGravity_position]
    exact (not_not.1 hm).symm

end BattleItem

/-- C20: gravity is applied once per tick.  For a tick count `n` below `2^31`
(where the conversion of `ticks` to `int remainingTicks` is exact), an item with
velocity `v` and position `p`, `g = FALLING_ACCELERATION_ITEM` and
`S = TICK_SCALE * VELOCITY_SCALE_BATTLE` (component by component), the gravity
loop of `update(n)` leaves the velocity `(v.x, v.y, v.z - n g)` and the new
position `p + (n v.x, n v.y, n v.z - g n (n + 1) / 2) / S`; for `n = 0` both are
unchanged.  Hence, when the three calls are free flights (nothing blocks the
step, the new position is inside the map), `update(a)` followed by `update(b)`
gives the same position and velocity as `update(a + b)`. -/
theorem C20_gravity_substeps (env : ItemEnv) (w : ItemWorld) (it : BattleItem)
    (n a b : Nat)
    (hn : n < 2 ^ 31)
    (hab : a + b < 2 ^ 31) :
    (BattleItem.afterGravity env it n).1.velocity
      = ⟨it.velocity.x, it.velocity.y,
          it.velocity.z - (n : ℚ) * env.FALLING_ACCELERATION_ITEM⟩ ∧
    (BattleItem.afterGravity env it n).2
      = ⟨it.position.x
          + (n : ℚ) * it.velocity.x / (env.TICK_SCALE * env.VELOCITY_SCALE_BATTLE.x),
        it.position.y
          + (n : ℚ) * it.velocity.y / (env.TICK_SCALE * env.VELOCITY_SCALE_BATTLE.y),
        it.position.z + ((n : ℚ) * it.velocity.z
            - env.FALLING_ACCELERATION_ITEM * (n : ℚ) * ((n : ℚ) + 1) / 2)
          / (env.TICK_SCALE * env.VELOCITY_SCALE_BATTLE.z)⟩ ∧
    (BattleItem.afterGravity env it 0).1.velocity = it.velocity ∧
    (BattleItem.afterGravity env it 0).2 = it.position ∧
    (∀ it1 w1, freeFlight env it a = true →
      BattleItem.update env w it a = some (it1, w1) →
      freeFlight env it1 b = true →
      freeFlight env it (a + b) = true →
      ∃ it2 it3, BattleItem.update env w1 it1 b = some (it2, w1) ∧
        BattleItem.update env w it (a + b) = some (it3, w) ∧
        it2.position = it3.position ∧ it2.velocity = it3.velocity) := by
  have h0 := BattleItem.afterGravity_closed_form env it 0 (by norm_num)
  refine ⟨(BattleItem.afterGravity_closed_form env it n hn).1,
    (BattleItem.afterGravity_closed_form env it n hn).2, ?_, ?_, ?_⟩
  · rw [h0.1]; simp
  · rw [h0.2]; simp
  · intro it1 w1 hfa hua hfb hfab
    obtain ⟨x1, hx1, hp1, hv1⟩ := BattleItem.update_freeFlight env w it a hfa
    rw [hx1] at hua
    simp only [Option.some.injEq, Prod.mk.injEq] at hua
    obtain ⟨e1, e2⟩ := hua
    subst e1; subst e2
    obtain ⟨x2, hx2, hp2, hv2⟩ := BattleItem.update_freeFlight env w x1 b hfb
    obtain ⟨x3, hx3, hp3, hv3⟩ := BattleItem.update_freeFlight env w it (a + b) hfab
    have ha := BattleItem.afterGravity_closed_form env it a (by omega)
    have hb := BattleItem.afterGravity_closed_form env x1 b (by omega)
    have hc := BattleItem.afterGravity_closed_form env it (a + b) hab
    refine ⟨x2, x3, hx2, hx3, ?_, ?_⟩
    · rw [hp2, hp3, hb.2, hc.2, hp1, hv1, ha.1, ha.2]
      simp only [Vec3.mk.injEq]
      push_cast
      refine ⟨by ring, by ring, by ring⟩
    · rw [hv2, hv3, hb.1, hc.1, hv1, ha.1]
      simp only [Vec3.mk.injEq, true_and]
      push_cast
      ring

/-- Witness of C20: three ticks of an item at `(5, 5, 10)` with velocity
`(864, 0, 0)`, gravity 1/2 and scale `36 * (24, 24, 20)`. -/
theorem C20_gravity_substeps_witness :
    (BattleItem.afterGravity (sampleItemEnv none emptyTile)
        (sampleItem ⟨5, 5, 10⟩ ⟨864, 0, 0⟩ false) 3).1.velocity
      = ⟨864, 0, 0 - ((3 : ℕ) : ℚ) * (1 / 2)⟩ ∧
    (BattleItem.afterGravity (sampleItemEnv none emptyTile)
        (sampleItem ⟨5, 5, 10⟩ ⟨864, 0, 0⟩ false) 3).2
      = ⟨5 + ((3 : ℕ) : ℚ) * 864 / (36 * 24), 5 + ((3 : ℕ) : ℚ) * 0 / (36 * 24),
        10 + (((3 : ℕ) : ℚ) * 0 - 1 / 2 * ((3 : ℕ) : ℚ) * (((3 : ℕ) : ℚ) + 1) / 2)
          / (36 * 20)⟩ :=
  ⟨(C20_gravity_substeps (sampleItemEnv none emptyTile) sampleWorld
      (sampleItem ⟨5, 5, 10⟩ ⟨864, 0, 0⟩ false) 3 1 2 (by decide) (by decide)).1,
   (C20_gravity_substeps (sampleItemEnv none emptyTile) sampleWorld
      (sampleItem ⟨5, 5, 10⟩ ⟨864, 0, 0⟩ false) 3 1 2 (by decide) (by decide)).2.1⟩

/-! ## Target locations of the `Turn` movements -/

/-- C7, counterexample: after `notifyHit((5, 0, 2))` a combatant standing at
`(10, 10, 1)` gets a movement of type `Turn` whose target location is
`(15, 10, 3)`, not `(5, 0, 2)`. -/
theorem C7_turn_target_is_not_recorded_position :
    (think sampleEnv (notifyHit freshEngine ⟨5, 0, 2⟩)
        (sampleState BattleMode.RealTime 0 []) cornerSoldier false).2.1.movement.map
        (fun m => (m.type, m.targetLocation))
      = some (AIMovementType.Turn, ⟨15, 10, 3⟩) ∧
    (⟨15, 10, 3⟩ : Vec3 ℚ) ≠ ⟨5, 0, 2⟩ := by
  decide!

/-- C7, amended: the movement emitted by the idle turn-to-attacker step of
`think` is of type `Turn` and its target location is, component by component,
the position of the combatant plus the vector recorded by `notifyHit` or
`notifyUnderFire`, wherever the combatant stands; this movement is what `think`
returns when the turn-cooldown constant is positive and the enzyme wandering
produces no movement. -/
theorem C7_turn_target_is_offset_from_combatant (env : Env) (self : UnitAIDefault)
    (state : GameState) (u : BattleUnit) (interrupt : Bool) (p : Vec3 ℤ)
    (hact : state.current_battle.mode = BattleMode.RealTime ∨
      u.owner ≠ state.current_battle.currentActiveOrganisation)
    (hp : p ≠ NONE)
    (hbusy : u.isBusy = false)
    (hcon : u.isConscious = true)
    (hcd : self.ticksAutoTurnAvailable ≤ state.ticks) :
    (∃ m, (turnToAttacker env state u ⟨notifyHit self p, none, none⟩).movement = some m ∧
      m.type = AIMovementType.Turn ∧
      m.targetLocation = ⟨u.position.x + (p.x : ℚ), u.position.y + (p.y : ℚ),
        u.position.z + (p.z : ℚ)⟩) ∧
    (∃ m, (turnToAttacker env state u ⟨notifyUnderFire self p, none, none⟩).movement
        = some m ∧
      m.type = AIMovementType.Turn ∧
      m.targetLocation = ⟨u.position.x + (p.x : ℚ), u.position.y + (p.y : ℚ),
        u.position.z + (p.z : ℚ)⟩) ∧
    (0 < env.TICKS_PER_TURN →
      (enzymeGate state u = false ∨ possiblePositions u = []) →
      (∃ m, (think env (notifyHit self p) state u interrupt).2.1.movement = some m ∧
        m.type = AIMovementType.Turn ∧
        m.targetLocation = ⟨u.position.x + (p.x : ℚ), u.position.y + (p.y : ℚ),
          u.position.z + (p.z : ℚ)⟩) ∧
      (∃ m, (think env (notifyUnderFire self p) state u interrupt).2.1.movement = some m ∧
        m.type = AIMovementType.Turn ∧
        m.targetLocation = ⟨u.position.x + (p.x : ℚ), u.position.y + (p.y : ℚ),
          u.position.z + (p.z : ℚ)⟩)) := by
  obtain ⟨h1, h2, h3⟩ :=
    turnToAttacker_movement_after_notify env self state u interrupt p hact hp hbusy hcon hcd
  refine ⟨⟨_, h1, rfl, rfl⟩, ⟨_, h2, rfl, rfl⟩, fun hT hw => ?_⟩
  obtain ⟨h4, h5⟩ := h3 hT hw
  exact ⟨⟨_, h4, rfl, rfl⟩, ⟨_, h5, rfl, rfl⟩⟩

/-- Witness of the amended C7: the soldier at `(10, 10, 1)` after `(5, 0, 2)`
was recorded turns to `(15, 10, 3)`. -/
theorem C7_turn_target_is_offset_from_combatant_witness :
    ∃ m, (think sampleEnv (notifyHit freshEngine ⟨5, 0, 2⟩)
        (sampleState BattleMode.RealTime 0 []) cornerSoldier false).2.1.movement = some m ∧
      m.type = AIMovementType.Turn ∧ m.targetLocation = ⟨15, 10, 3⟩ :=
  ((C7_turn_target_is_offset_from_combatant sampleEnv freshEngine
    (sampleState BattleMode.RealTime 0 []) cornerSoldier false ⟨5, 0, 2⟩ (Or.inl rfl)
    (by decide) rfl rfl (by decide)).2.2 (by decide) (Or.inl (by decide))).1.elim
    fun m hm => ⟨m, hm.1, hm.2.1, hm.2.2.trans (by decide!)⟩

/-- C9: in the facing branch of `think` (real time, combatant conscious, not
attacking, not moving, not snoozing, firing impossible or forbidden,
turn-cooldown elapsed when the branch is reached, no usable focus unit, no
wandering movement): if no conscious, threatening visible enemy is in line of
sight and exactly one such enemy is among the visible units of the combatant,
then `think` returns a movement of type `Turn` whose target location is the
position of that enemy and sets the turn-cooldown to
`state.ticks + AUTO_TURN_COOLDOWN`. -/
theorem C9_single_fallback_is_faced (env : Env) (self : UnitAIDefault) (state : GameState)
    (u : BattleUnit) (interrupt : Bool) (t : UnitRef)
    (hmode : state.current_battle.mode = BattleMode.RealTime)
    (hcon : u.isConscious = true)
    (hatt : u.isAttacking = false)
    (hmov : u.isMoving = false)
    (hsnooze : u.missions.head? ≠ some BattleUnitMissionType.Snooze)
    (hfire : cannotFire u = true)
    (hcd : self.ticksAutoTurnAvailable ≤ state.ticks)
    (hidle : self.attackerPosition = NONE ∨ u.isBusy = true ∨ env.TICKS_PER_TURN = 0)
    (hfocus : focusUnusableForFacing u (state.current_battle.visibleEnemies u.owner) = true)
    (hw : enzymeGate state u = false ∨ possiblePositions u = [])
    (hnoline : ∀ e ∈ state.current_battle.visibleEnemies u.owner,
      e.isConscious = true → e.getAIType ≠ AIType.None → u.hasLineToUnit e = false)
    (ht : t ∈ state.current_battle.visibleEnemies u.owner)
    (htc : t.isConscious = true)
    (hta : t.getAIType ≠ AIType.None)
    (htv : t.id ∈ u.visibleUnits)
    (huniq : ∀ e ∈ state.current_battle.visibleEnemies u.owner,
      e.isConscious = true → e.getAIType ≠ AIType.None → e.id ∈ u.visibleUnits → e = t) :
    (∃ m, (think env self state u interrupt).2.1.movement = some m ∧
      m.type = AIMovementType.Turn ∧ m.targetLocation = t.position) ∧
    (think env self state u interrupt).1.ticksAutoTurnAvailable
      = state.ticks + AUTO_TURN_COOLDOWN env := by
  obtain ⟨h1, h2⟩ := think_faces_single_fallback env self state u interrupt t hmode hcon hatt
    hmov hsnooze hfire hcd hidle hfocus hw hnoline ht htc hta htv huniq
  exact ⟨⟨_, h1, rfl, rfl⟩, h2⟩

/-- Witness of C9: the watcher, with the enemies 1 and 3 visible to the
organisation and only enemy 1 among the visible units of the watcher, turns to
`(11.5, 10.5, 1)`, the position of enemy 1. -/
theorem C9_single_fallback_is_faced_witness :
    (∃ m, (think sampleEnv freshEngine (sampleState BattleMode.RealTime 1 [enemyA, enemyC])
        watcher false).2.1.movement = some m ∧
      m.type = AIMovementType.Turn ∧ m.targetLocation = ⟨23 / 2, 21 / 2, 1⟩) ∧
    (think sampleEnv freshEngine (sampleState BattleMode.RealTime 1 [enemyA, enemyC])
        watcher false).1.ticksAutoTurnAvailable
      = (sampleState BattleMode.RealTime 1 [enemyA, enemyC]).ticks
        + AUTO_TURN_COOLDOWN sampleEnv :=
  C9_single_fallback_is_faced sampleEnv freshEngine
    (sampleState BattleMode.RealTime 1 [enemyA, enemyC]) watcher false enemyA
    rfl rfl rfl rfl (by decide) rfl (by decide) (Or.inl rfl) rfl (Or.inl (by decide))
    (fun _ _ _ _ => rfl) (List.mem_cons_self _ _) rfl (by decide) (by decide)
    (by
      intro e he _ _ hv
      have he2 : e = enemyA ∨ e = enemyC := by
        simpa [sampleState, watcher, soldier] using he
      rcases he2 with h | h
      · exact h
      · subst h
        exact absurd hv (by decide))

/-- C10, counterexample: the watcher has no line to any unit and has the
enemies 1 (at distance 1) and 4 (at distance 3) among its visible units; the
enemies are enumerated in this order.  `think` returns a movement of type `Turn`
whose target location is `(10.5, 13.5, 1)`, the position of enemy 4, the
fallback candidate enumerated last, not the position of the nearer enemy 1. -/
theorem C10_fallback_is_last_enumerated :
    (∀ e ∈ [enemyA, enemyD],
      0 ≤ sampleEnv.distance e.position watcher.position ∧
      sampleEnv.distance e.position watcher.position
          * sampleEnv.distance e.position watcher.position
        = (e.position.x - watcher.position.x) * (e.position.x - watcher.position.x)
          + (e.position.y - watcher.position.y) * (e.position.y - watcher.position.y)
          + (e.position.z - watcher.position.z) * (e.position.z - watcher.position.z)) ∧
    backupCandidate watcher enemyA = true ∧
    backupCandidate watcher enemyD = true ∧
    sampleEnv.distance enemyA.position watcher.position
      < sampleEnv.distance enemyD.position watcher.position ∧
    (think sampleEnv freshEngine (sampleState BattleMode.RealTime 1 [enemyA, enemyD])
        watcher false).2.1.movement.map (fun m => (m.type, m.targetLocation))
      = some (AIMovementType.Turn, ⟨21 / 2, 27 / 2, 1⟩) ∧
    enemyD.position = ⟨21 / 2, 27 / 2, 1⟩ ∧
    enemyA.position = ⟨23 / 2, 21 / 2, 1⟩ ∧
    (⟨21 / 2, 27 / 2, 1⟩ : Vec3 ℚ) ≠ ⟨23 / 2, 21 / 2, 1⟩ := by
  decide!

/-- C10, amended: in the facing branch of `think` in real time without a usable
focus unit (turn-cooldown elapsed when the branch is reached, no wandering
movement, distances below `FLT_MAX`): when some conscious, threatening enemy is
in line of sight, `think` returns a movement of type `Turn` whose target
location is the position of such an enemy at the least distance; when none is,
the target location is the position of the fallback, which is the last
enumerated among the conscious, threatening enemies that are among the visible
units of the combatant and not in line of sight. -/
theorem C10_face_target_nearest_or_last (env : Env) (self : UnitAIDefault)
    (state : GameState) (u : BattleUnit) (interrupt : Bool)
    (hmode : state.current_battle.mode = BattleMode.RealTime)
    (hcon : u.isConscious = true)
    (hatt : u.isAttacking = false)
    (hmov : u.isMoving = false)
    (hsnooze : u.missions.head? ≠ some BattleUnitMissionType.Snooze)
    (hfire : cannotFire u = true)
    (hcd : self.ticksAutoTurnAvailable ≤ state.ticks)
    (hidle : self.attackerPosition = NONE ∨ u.isBusy = true ∨ env.TICKS_PER_TURN = 0)
    (hfocus : focusUnusableForFacing u (state.current_battle.visibleEnemies u.owner) = true)
    (hw : enzymeGate state u = false ∨ possiblePositions u = [])
    (hmax : ∀ e ∈ state.current_battle.visibleEnemies u.owner, lineCandidate u e = true →
      env.distance e.position u.position < FLT_MAX) :
    ((∃ e ∈ state.current_battle.visibleEnemies u.owner, lineCandidate u e = true) →
      ∃ t ∈ state.current_battle.visibleEnemies u.owner, lineCandidate u t = true ∧
        (∀ e ∈ state.current_battle.visibleEnemies u.owner, lineCandidate u e = true →
          env.distance t.position u.position ≤ env.distance e.position u.position) ∧
        ∃ m, (think env self state u interrupt).2.1.movement = some m ∧
          m.type = AIMovementType.Turn ∧ m.targetLocation = t.position) ∧
    ((∀ e ∈ state.current_battle.visibleEnemies u.owner, lineCandidate u e = false) →
      ∀ t, ((state.current_battle.visibleEnemies u.owner).filter
          (backupCandidate u)).getLast? = some t →
        ∃ m, (think env self state u interrupt).2.1.movement = some m ∧
          m.type = AIMovementType.Turn ∧ m.targetLocation = t.position) := by
  obtain ⟨h1, h2⟩ := think_faces_nearest_or_last env self state u interrupt hmode hcon hatt
    hmov hsnooze hfire hcd hidle hfocus hw hmax
  constructor
  · intro hex
    obtain ⟨t, ht, htl, hmin, hm⟩ := h1 hex
    exact ⟨t, ht, htl, hmin, _, hm, rfl, rfl⟩
  · intro hnl t ht
    exact ⟨_, h2 hnl t ht, rfl, rfl⟩

/-- Witness of the amended C10: the cease-fire soldier, in line of sight of the
enemies 4, 1 and 2, turns to the position of a nearest one; the watcher,
without a line to the enemies 1 and 4, turns to `(10.5, 13.5, 1)`, the position
of enemy 4. -/
theorem C10_face_target_nearest_or_last_witness :
    (∃ t ∈ (sampleState BattleMode.RealTime 1
          [enemyD, enemyA, enemyB]).current_battle.visibleEnemies ceaseFireSoldier.owner,
      lineCandidate ceaseFireSoldier t = true ∧
      (∀ e ∈ (sampleState BattleMode.RealTime 1
          [enemyD, enemyA, enemyB]).current_battle.visibleEnemies ceaseFireSoldier.owner,
        lineCandidate ceaseFireSoldier e = true →
        sampleEnv.distance t.position ceaseFireSoldier.position
          ≤ sampleEnv.distance e.position ceaseFireSoldier.position) ∧
      ∃ m, (think sampleEnv freshEngine
          (sampleState BattleMode.RealTime 1 [enemyD, enemyA, enemyB])
          ceaseFireSoldier false).2.1.movement = some m ∧
        m.type = AIMovementType.Turn ∧ m.targetLocation = t.position) ∧
    (∃ m, (think sampleEnv freshEngine (sampleState BattleMode.RealTime 1 [enemyA, enemyD])
        watcher false).2.1.movement = some m ∧
      m.type = AIMovementType.Turn ∧ m.targetLocation = ⟨21 / 2, 27 / 2, 1⟩) :=
  ⟨(C10_face_target_nearest_or_last sampleEnv freshEngine
      (sampleState BattleMode.RealTime 1 [enemyD, enemyA, enemyB]) ceaseFireSoldier false
      rfl rfl rfl rfl (by decide) rfl (by decide) (Or.inl rfl) rfl (Or.inl (by decide))
      (by decide!)).1 ⟨enemyD, List.mem_cons_self _ _, rfl⟩,
   (C10_face_target_nearest_or_last sampleEnv freshEngine
      (sampleState BattleMode.RealTime 1 [enemyA, enemyD]) watcher false
      rfl rfl rfl rfl (by decide) rfl (by decide) (Or.inl rfl) rfl (Or.inl (by decide))
      (fun _ _ h => absurd h (by simp [lineCandidate, watcher]))).2
      (fun _ _ => by simp [lineCandidate, watcher]) enemyD rfl⟩

/-- C11: in turn-based mode with the engine active (another organisation holds
the turn), every action of `think` is an `AttackWeaponUnit` on the focus unit of
the combatant, and every movement of `think` that is not the one left by the
turn-to-attacker step is of type `Turn` with the position of the focus unit as
target location.  When the focus unit is absent, unconscious, not among the
visible enemies or not attackable, no action is emitted; when it is absent,
unconscious or not among the visible enemies, no action and no such movement is
emitted.  No enemy is scanned: the unit to attack and the unit to face are the
focus unit or nothing, whatever other enemies are visible. -/
theorem C11_turn_based_targets_focus_only (env : Env) (self : UnitAIDefault)
    (state : GameState) (u : BattleUnit) (interrupt : Bool)
    (hmode : state.current_battle.mode = BattleMode.TurnBased)
    (hown : u.owner ≠ state.current_battle.currentActiveOrganisation) :
    (∀ a, (think env self state u interrupt).2.1.action = some a →
      ∃ t, u.focusUnit = some t ∧
        a.type = AIActionType.AttackWeaponUnit ∧ a.targetUnit = t ∧
        a.weaponStatus = u.canAttackUnit t) ∧
    ((think env self state u interrupt).2.1.movement
        = (turnToAttacker env state u ⟨{ self with active := true }, none, none⟩).movement ∨
      ∃ t m, u.focusUnit = some t ∧
        (think env self state u interrupt).2.1.movement = some m ∧
        m.type = AIMovementType.Turn ∧ m.targetLocation = t.position) ∧
    (focusUnusableForAttack u (state.current_battle.visibleEnemies u.owner) = true →
      (think env self state u interrupt).2.1.action = none) ∧
    (focusUnusableForFacing u (state.current_battle.visibleEnemies u.owner) = true →
      (think env self state u interrupt).2.1.action = none ∧
      (think env self state u interrupt).2.1.movement
        = (turnToAttacker env state u
            ⟨{ self with active := true }, none, none⟩).movement) ∧
    (∀ enemies : List UnitRef,
      attackTarget env false u enemies =
        (if focusUnusableForAttack u enemies = true then (none, focusWeaponStatus u)
         else (u.focusUnit, focusWeaponStatus u)) ∧
      faceTarget env false u enemies =
        (if focusUnusableForFacing u enemies = true then none else u.focusUnit)) := by
  obtain ⟨h1, h2, h3, h4, h5⟩ :=
    think_turnBased_focus_only env self state u interrupt hmode hown
  refine ⟨?_, ?_, h3, h4, h5⟩
  · intro a ha
    obtain ⟨t, ht, hat⟩ := h1 a ha
    subst hat
    exact ⟨t, ht, rfl, rfl, rfl⟩
  · rcases h2 with h | ⟨t, ht, hm⟩
    · exact Or.inl h
    · exact Or.inr ⟨t, _, ht, hm, rfl, rfl⟩

/-- Witness of C11: in a turn-based battle on the turn of organisation 1, with
the enemies 1, 2 and 3 visible, the soldier with enemy 2 as focus unit attacks
enemy 2, and under a cease-fire order it turns to `(10.5, 11.5, 1)`, the
position of enemy 2. -/
theorem C11_turn_based_targets_focus_only_witness :
    (∃ a t, (think sampleEnv freshEngine
          (sampleState BattleMode.TurnBased 1 [enemyA, enemyB, enemyC])
          focusedSoldier false).2.1.action = some a ∧
        focusedSoldier.focusUnit = some t ∧ t = enemyB ∧
        a.type = AIActionType.AttackWeaponUnit ∧ a.targetUnit = t ∧
        a.weaponStatus = focusedSoldier.canAttackUnit t) ∧
    ((think sampleEnv freshEngine
          (sampleState BattleMode.TurnBased 1 [enemyA, enemyB, enemyC])
          ceaseFireFocusedSoldier false).2.1.movement
        = (turnToAttacker sampleEnv
            (sampleState BattleMode.TurnBased 1 [enemyA, enemyB, enemyC])
            ceaseFireFocusedSoldier ⟨{ freshEngine with active := true }, none, none⟩).movement ∨
      ∃ t m, ceaseFireFocusedSoldier.focusUnit = some t ∧
        (think sampleEnv freshEngine
          (sampleState BattleMode.TurnBased 1 [enemyA, enemyB, enemyC])
          ceaseFireFocusedSoldier false).2.1.movement = some m ∧
        m.type = AIMovementType.Turn ∧ m.targetLocation = t.position) ∧
    (think sampleEnv freshEngine
        (sampleState BattleMode.TurnBased 1 [enemyA, enemyB, enemyC])
        ceaseFireFocusedSoldier false).2.1.movement.map
        (fun m => (m.type, m.targetLocation))
      = some (AIMovementType.Turn, ⟨21 / 2, 23 / 2, 1⟩) :=
  have h : (think sampleEnv freshEngine
      (sampleState BattleMode.TurnBased 1 [enemyA, enemyB, enemyC])
      focusedSoldier false).2.1.action
      = some ⟨AIActionType.AttackWeaponUnit, enemyB, WeaponStatus.Firing 0⟩ := by rfl
  ⟨((C11_turn_based_targets_focus_only sampleEnv freshEngine
      (sampleState BattleMode.TurnBased 1 [enemyA, enemyB, enemyC]) focusedSoldier false
      rfl (by decide)).1 _ h).elim fun t ht =>
        ⟨_, t, h, ht.1, (Option.some.inj ht.1).symm, ht.2.1, ht.2.2.1, ht.2.2.2⟩,
   (C11_turn_based_targets_focus_only sampleEnv freshEngine
      (sampleState BattleMode.TurnBased 1 [enemyA, enemyB, enemyC]) ceaseFireFocusedSoldier
      false rfl (by decide)).2.1,
   by decide!⟩

end OpenApoc
